import Mathlib

/-!
Wiimote driver (VRDeviceDaemon/Wiimote.cpp, Wiimote.h)

A shallow embedding of the Wiimote communication driver.

* Bytes and C `int`/`size_t` values are natural numbers; a store into an
  `unsigned char` is taken modulo 256 where the stored value can exceed a byte.
* `float` values are modelled by exact rationals.
* C arrays held in the driver object are functions from the index.
* The receiver thread is a step function on the driver state: every call of
  `read(readSocket,...)` is one step, and the place where the thread is blocked in
  `read` (the outer loop or one of the nested wait loops) is recorded in the `reader`
  field.
* The receiver's `packet` array has 21 elements: a `read` stores at most the first 21
  bytes of a report. An element that no `read` stored, or an index past the array,
  reads as 0 (in C the value read there is indeterminate, and it is no byte of the
  report).
* Effects are recorded in the state: packets written to the write socket, broadcasts
  of the condition variables, and invocations of the event callbacks.
* A thread calling `downloadData`/`uploadData` is blocked on a condition variable
  while the receiver thread handles incoming reports; it resumes as soon as the
  receiver has handled the report during which the broadcast happened.
-/

namespace WiimoteDriver

/-- Extension device types (Wiimote.h, `enum Extension`). -/
inductive Extension where
  | NONE
  | PARTIALLY_CONNECTED
  | NUNCHUK
  | CLASSIC_CONTROLLER
deriving DecidableEq, Repr

/-- Calibration settings for a joystick axis (Wiimote.h, `struct AxisSettings`). -/
structure AxisSettings where
  minValue : ℚ
  maxValue : ℚ
  center : ℚ
  flat : ℚ
deriving DecidableEq, Repr

/-- Button indices (Wiimote.h, `enum Button`). -/
def BUTTON_TWO : Nat := 0
def BUTTON_ONE : Nat := 1
def BUTTON_B : Nat := 2
def BUTTON_A : Nat := 3
def BUTTON_MINUS : Nat := 4
def BUTTON_HOME : Nat := 5
def BUTTON_LEFT : Nat := 6
def BUTTON_RIGHT : Nat := 7
def BUTTON_DOWN : Nat := 8
def BUTTON_UP : Nat := 9
def BUTTON_PLUS : Nat := 10
def BUTTON_Z : Nat := 11
def BUTTON_C : Nat := 12

/-- Size of the receiver's packet buffer, `unsigned char packet[21]`. -/
def packetBufferSize : Nat := 21

/-- The `read` call in which the receiver thread is blocked, together with the
contents of the local `packet` array at that point. -/
inductive Reader where
  /-- The read of the outer loop (Wiimote.cpp line 309); `packet` is a fresh array. -/
  | main
  /-- The wait for the acknowledgment of the enable-extension packet (line 328). -/
  | enableAck (packet : List Nat)
  /-- The wait for the reply to the extension type query (line 336). -/
  | extensionType (packet : List Nat)
  /-- The wait for the nunchuk calibration data (line 368). -/
  | calibration (packet : List Nat)
  /-- The wait for the acknowledgment of the IR mode write in `setReportingMode(true)`
  (line 176), which has a `packet` array of its own; `requestData` is the data request
  packet assembled before the wait. -/
  | irModeAck (packet : List Nat) (requestData : List Nat)
deriving DecidableEq, Repr

/-- The driver object (Wiimote.h, elements of `class Wiimote`), with the effects of
the driver recorded in the last five fields. -/
structure Wiimote where
  joystickAxes : Nat → AxisSettings
  accelerometerZeros : Nat → ℚ
  accelerometerGains : Nat → ℚ
  needExtensionCalibration : Bool
  readContinuously : Bool
  readAccelerometers : Bool
  readIRTracking : Bool
  ledMask : Nat
  rumble : Bool
  batteryLevel : Nat
  extensionDevice : Extension
  buttonState : Nat
  joystick : Nat → ℚ
  rawAccelerometers : Nat → Nat
  accelerometers : Nat → ℚ
  trackValids : Nat → Bool
  trackXs : Nat → ℚ
  trackYs : Nat → ℚ
  downloadActive : Bool
  downloadStartAddress : Nat
  /-- Number of outstanding bytes, a `size_t`. -/
  downloadSize : Nat
  /-- The requester's buffer; `none` is the null pointer. -/
  downloadDataBuffer : Option (List Nat)
  /-- Offset of `downloadDataPtr` from the start of the buffer. -/
  downloadDataPtr : Nat
  downloadError : Nat
  uploadActive : Bool
  uploadToRegister : Bool
  uploadStartAddress : Nat
  uploadSize : Nat
  uploadDataBuffer : List Nat
  /-- Offset of `uploadDataPtr` from the start of the upload data. -/
  uploadDataPtr : Nat
  uploadError : Nat
  /-- Packets written to `writeSocket`, oldest first. -/
  written : List (List Nat)
  /-- Number of broadcasts of `downloadCompleteCond`. -/
  downloadCompleteCond : Nat
  /-- Number of broadcasts of `uploadCompleteCond`. -/
  uploadCompleteCond : Nat
  /-- Number of invocations of the event callback list. -/
  eventCallbacks : Nat
  /-- Number of broadcasts of `eventCond`. -/
  eventCond : Nat
  /-- Where the receiver thread is blocked. -/
  reader : Reader

/-- Element `i` of a packet array, converted to `int`. An element that no `read`
stored (or that lies past the array) reads as 0 in the model. -/
def pkt (p : List Nat) (i : Nat) : Nat := p.getD i 0

/-- The bit pattern of `~x` for a 32-bit `int`. -/
def bitNot (x : Nat) : Nat := 4294967295 - x % 4294967296

/-- Width of `size_t` arithmetic. -/
def sizeModulus : Nat := 2 ^ 64

/-- Conversion of a `size_t` to `int`: the low 32 bits, read as two's complement. -/
def toInt (n : Nat) : Int :=
  if n % 4294967296 < 2147483648 then (n % 4294967296 : Nat) else (n % 4294967296 : Nat) - 4294967296

/-- The effect of `read(readSocket,packet,sizeof(packet))` on the `packet` array: at
most 21 bytes of the incoming report are stored at the start of the array, the rest
of the array keeps its contents. -/
def readInto (packet wire : List Nat) : List Nat :=
  wire.take packetBufferSize ++ packet.drop (wire.take packetBufferSize).length

/-- The value returned by `read`: the number of bytes stored. -/
def readSize (wire : List Nat) : Nat := (wire.take packetBufferSize).length

/-- `Wiimote::writePacket` (Wiimote.cpp lines 84-97). -/
def writePacket (w : Wiimote) (packet : List Nat) : Wiimote :=
  let packet :=
    if w.rumble then packet.set 2 ((pkt packet 2 ||| 0x01) % 256)
    else packet.set 2 ((pkt packet 2 &&& bitNot 0x01) % 256)
  { w with written := w.written ++ [packet] }

/-- The copy loop of `writeUploadPacket` (lines 120-121): the array under
construction and the offset of `uploadDataPtr`. -/
def copyUploadData (data : List Nat) (tempSize : Nat) (writeData : List Nat) (ptr : Nat) :
    List Nat × Nat :=
  (List.range tempSize).foldl
    (fun (acc : List Nat × Nat) i => (acc.1.set (7 + i) (pkt data acc.2), acc.2 + 1))
    (writeData, ptr)

/-- `Wiimote::writeUploadPacket` (lines 99-129). -/
def writeUploadPacket (w : Wiimote) : Wiimote :=
  let writeData : List Nat := [0x52, 0x16] ++ List.replicate 21 0x00
  let writeData := if w.uploadToRegister then writeData.set 2 (pkt writeData 2 ||| 0x04) else writeData
  let tempAddress := w.uploadStartAddress
  let writeData := writeData.set 5 (tempAddress &&& 0xff)
  let tempAddress := tempAddress >>> 8
  let writeData := writeData.set 4 (tempAddress &&& 0xff)
  let tempAddress := tempAddress >>> 8
  let writeData := writeData.set 3 (tempAddress &&& 0xff)
  let tempSize := if w.uploadSize > 16 then 16 else w.uploadSize
  let writeData := writeData.set 6 (tempSize % 256)
  let copied := copyUploadData w.uploadDataBuffer tempSize writeData w.uploadDataPtr
  let w := { w with uploadDataPtr := copied.2 }
  let w := writePacket w copied.1
  { w with uploadStartAddress := w.uploadStartAddress + tempSize,
           uploadSize := w.uploadSize - tempSize }

/-- The data request packet assembled by `setReportingMode` (lines 133-160). -/
def reportingModeRequest (w : Wiimote) : List Nat :=
  let requestData : List Nat := [0x52, 0x12, 0x00, 0x00]
  let requestData :=
    if w.readContinuously then requestData.set 2 (pkt requestData 2 ||| 0x04) else requestData
  if w.extensionDevice ≠ Extension.NONE then
    if w.readAccelerometers && w.readIRTracking then requestData.set 3 0x37
    else if w.readAccelerometers then requestData.set 3 0x35
    else if w.readIRTracking then requestData.set 3 0x36
    else requestData.set 3 0x32
  else
    if w.readAccelerometers && w.readIRTracking then requestData.set 3 0x33
    else if w.readAccelerometers then requestData.set 3 0x31
    else if w.readIRTracking then requestData.set 3 0x36
    else requestData.set 3 0x30

/-- The IR camera mode chosen by `setReportingMode` (lines 168-170 and 181-183): 0x01
unless the three conditions hold. -/
def irCameraMode (w : Wiimote) : Nat :=
  if w.extensionDevice == Extension.NONE && w.readAccelerometers && w.readIRTracking then 0x03
  else 0x01

/-- `Wiimote::updateCoreButtons` (lines 192-196). -/
def updateCoreButtons (w : Wiimote) (buttonData : List Nat) : Wiimote :=
  let buttons := (pkt buttonData 1 &&& 0x1f) ||| ((pkt buttonData 1 &&& 0x80) >>> 2)
    ||| ((pkt buttonData 0 &&& 0x1f) <<< 6)
  { w with buttonState := buttons }

/-- `Wiimote::getButtonState` (Wiimote.h lines 169-172). -/
def getButtonState (w : Wiimote) (buttonName : Nat) : Bool :=
  (w.buttonState &&& (1 <<< buttonName)) != 0x0

/-- `Wiimote::updateCoreAccelerometers` (lines 198-208). -/
def updateCoreAccelerometers (w : Wiimote) (buttonData accelerometerData : List Nat) : Wiimote :=
  let raw := w.rawAccelerometers
  let raw := Function.update raw 0
    ((pkt accelerometerData 0 <<< 1) ||| ((pkt buttonData 0 >>> 6) &&& 0x01))
  let raw := Function.update raw 1
    ((pkt accelerometerData 1 <<< 1) ||| ((pkt buttonData 1 >>> 5) &&& 0x01))
  let raw := Function.update raw 2
    ((pkt accelerometerData 2 <<< 1) ||| ((pkt buttonData 1 >>> 6) &&& 0x01))
  let acc := (List.range 3).foldl
    (fun (a : Nat → ℚ) i =>
      Function.update a i (((raw i : ℚ) - w.accelerometerZeros i) / w.accelerometerGains i))
    w.accelerometers
  { w with rawAccelerometers := raw, accelerometers := acc }


/-- The transform applied to every byte of extension data (line 214 and line 373):
`(b^0x17)+0x17`, stored into an `unsigned char`. -/
def decryptByte (b : Nat) : Nat := ((b ^^^ 0x17) + 0x17) % 256

/-- The joystick value computed from a raw value and the axis settings
(lines 224-234). -/
def joystickValue (ax : AxisSettings) (val : ℚ) : ℚ :=
  if val < ax.minValue then -1
  else if val < ax.center - ax.flat then
    (val - (ax.center - ax.flat)) / ((ax.center - ax.flat) - ax.minValue)
  else if val < ax.center + ax.flat then 0
  else if val < ax.maxValue then
    (val - (ax.center + ax.flat)) / (ax.maxValue - (ax.center + ax.flat))
  else 1

/-- `Wiimote::updateExtension` (lines 210-249). -/
def updateExtension (w : Wiimote) (extensionData : List Nat) : Wiimote :=
  let extensionData := (List.range 6).foldl
    (fun (d : List Nat) i => d.set i (decryptByte (pkt d i))) extensionData
  if w.extensionDevice = Extension.NUNCHUK then
    let buttons := w.buttonState ||| (((bitNot (pkt extensionData 5)) &&& 0x03) <<< 11)
    let w := { w with buttonState := buttons }
    let joy := (List.range 2).foldl
      (fun (j : Nat → ℚ) i =>
        Function.update j i (joystickValue (w.joystickAxes i) (pkt extensionData i : ℚ)))
      w.joystick
    let w := { w with joystick := joy }
    if w.readAccelerometers then
      let raw := w.rawAccelerometers
      let raw := Function.update raw 3
        ((pkt extensionData 2 <<< 2) ||| ((pkt extensionData 5 >>> 2) &&& 0x03))
      let raw := Function.update raw 4
        ((pkt extensionData 3 <<< 2) ||| ((pkt extensionData 5 >>> 4) &&& 0x03))
      let raw := Function.update raw 5
        ((pkt extensionData 4 <<< 2) ||| ((pkt extensionData 5 >>> 6) &&& 0x03))
      let acc := (List.range 3).foldl
        (fun (a : Nat → ℚ) i =>
          Function.update a (3 + i)
            (((raw (3 + i) : ℚ) - w.accelerometerZeros (3 + i)) / w.accelerometerGains (3 + i)))
        w.accelerometers
      { w with rawAccelerometers := raw, accelerometers := acc }
    else w
  else w

/-- Stores one decoded IR target (lines 260-267, 268-275 and 287-294). -/
def storeTarget (w : Wiimote) (slot x y : Nat) : Wiimote :=
  if x ≠ 0x3ff ∧ y ≠ 0x3ff then
    { w with trackValids := Function.update w.trackValids slot true,
             trackXs := Function.update w.trackXs slot (x : ℚ),
             trackYs := Function.update w.trackYs slot (y : ℚ) }
  else
    { w with trackValids := Function.update w.trackValids slot false }

/-- `Wiimote::updateIRTrackingBasic` (lines 251-277). -/
def updateIRTrackingBasic (w : Wiimote) (irTrackingData : List Nat) : Wiimote :=
  (List.range 2).foldl
    (fun (w : Wiimote) i =>
      let x0 := pkt irTrackingData (0 + i * 5) ||| ((pkt irTrackingData (2 + i * 5) &&& 0x30) <<< 4)
      let y0 := pkt irTrackingData (1 + i * 5) ||| ((pkt irTrackingData (2 + i * 5) &&& 0xc0) <<< 2)
      let x1 := pkt irTrackingData (3 + i * 5) ||| ((pkt irTrackingData (2 + i * 5) &&& 0x03) <<< 8)
      let y1 := pkt irTrackingData (4 + i * 5) ||| ((pkt irTrackingData (2 + i * 5) &&& 0x0c) <<< 6)
      let w := storeTarget w (0 + i * 2) x0 y0
      storeTarget w (1 + i * 2) x1 y1)
    w

/-- `Wiimote::updateIRTrackingExtended` (lines 279-296). -/
def updateIRTrackingExtended (w : Wiimote) (irTrackingData : List Nat) : Wiimote :=
  (List.range 4).foldl
    (fun (w : Wiimote) i =>
      let x := pkt irTrackingData (0 + i * 3) ||| ((pkt irTrackingData (2 + i * 3) &&& 0x30) <<< 4)
      let y := pkt irTrackingData (1 + i * 3) ||| ((pkt irTrackingData (2 + i * 3) &&& 0xc0) <<< 2)
      storeTarget w i x y)
    w

/-- The end of an iteration of the receiver's outer loop (lines 542-547): the event
callbacks are called, `eventCond` is broadcast, and the thread goes back to the read
at the top of the loop. -/
def notifyEvent (w : Wiimote) : Wiimote :=
  { w with eventCallbacks := w.eventCallbacks + 1, eventCond := w.eventCond + 1,
           reader := Reader.main }

/-- The end of `setReportingMode(true)` (lines 188-189) followed by the end of the
Status case and of the loop iteration. -/
def finishStatus (w : Wiimote) (requestData : List Nat) : Wiimote :=
  notifyEvent (writePacket w requestData)

/-- `setReportingMode(true)` as called at line 407, up to its first `read`
(lines 131-176). -/
def setReportingModeInside (w : Wiimote) : Wiimote :=
  let requestData := reportingModeRequest w
  if w.readIRTracking then
    let IRMode : List Nat :=
      [0x52, 0x16, 0x04, 0xb0, 0x00, 0x33, 0x01, 0x01] ++ List.replicate 15 0x00
    let IRMode := IRMode.set 7 (irCameraMode w)
    let w := writePacket w IRMode
    { w with reader := Reader.irModeAck [] requestData }
  else finishStatus w requestData

/-- The copy loop of the data download case (lines 432-433): the requester's buffer
and the offset of `downloadDataPtr` after copying `count` bytes. -/
def copyDownloadData (packet : List Nat) (count : Nat) (buffer : List Nat) (ptr : Nat) :
    List Nat × Nat :=
  (List.range count).foldl
    (fun (acc : List Nat × Nat) i => (acc.1.set acc.2 (pkt packet (7 + i)), acc.2 + 1))
    (buffer, ptr)

/-- The data download case of the receiver (lines 411-445). -/
def handleDownloadReply (w : Wiimote) (packet : List Nat) : Wiimote :=
  let w := updateCoreButtons w (packet.drop 2)
  if w.downloadActive then
    let w := { w with downloadError := pkt packet 4 &&& 0x0f }
    if w.downloadError ≠ 0 then
      { w with downloadCompleteCond := w.downloadCompleteCond + 1 }
    else
      let packetDataSize := (pkt packet 4 >>> 4) + 1
      let count := if toInt w.downloadSize ≤ 0 then 0
        else min packetDataSize (toInt w.downloadSize).toNat
      let copied := copyDownloadData packet count (w.downloadDataBuffer.getD []) w.downloadDataPtr
      let w := { w with downloadDataBuffer := w.downloadDataBuffer.map (fun _ => copied.1),
                        downloadDataPtr := copied.2 }
      let remaining := (w.downloadSize + sizeModulus - packetDataSize % sizeModulus) % sizeModulus
      let w := { w with downloadSize := remaining }
      if w.downloadSize = 0 then
        { w with downloadCompleteCond := w.downloadCompleteCond + 1 }
      else w
  else w

/-- The write acknowledgment case of the receiver (lines 447-471). -/
def handleUploadAck (w : Wiimote) (packet : List Nat) : Wiimote :=
  let w := updateCoreButtons w (packet.drop 2)
  if w.uploadActive then
    let w := { w with uploadError := pkt packet 5 &&& 0x0f }
    if w.uploadError ≠ 0 ∨ w.uploadSize = 0 then
      { w with uploadCompleteCond := w.uploadCompleteCond + 1 }
    else writeUploadPacket w
  else w

/-- The reset of the extension's state when a Status report shows no extension
(lines 395-403). -/
def resetExtension (w : Wiimote) : Wiimote :=
  let w := { w with buttonState := w.buttonState &&& 0xffff }
  let joy := (List.range 2).foldl (fun (j : Nat → ℚ) i => Function.update j i 0) w.joystick
  let acc := (List.range 3).foldl (fun (a : Nat → ℚ) i => Function.update a (3 + i) 0)
    w.accelerometers
  { w with joystick := joy, accelerometers := acc, extensionDevice := Extension.NONE }

/-- The Status report case of the receiver, up to the first nested `read`, or to the
end of the loop iteration when there is none (lines 315-334 and 393-409). -/
def handleStatus (w : Wiimote) (packet : List Nat) : Wiimote :=
  let w := { w with batteryLevel := pkt packet 7 }
  if pkt packet 4 &&& 0x02 ≠ 0 then
    let enableExtension : List Nat :=
      [0x52, 0x16, 0x04, 0xa4, 0x00, 0x40, 0x01] ++ List.replicate 16 0x00
    let w := writePacket w enableExtension
    { w with reader := Reader.enableAck packet }
  else
    setReportingModeInside (resetExtension w)

/-- The extension device type selected by the type code (lines 340-357); a code that
matches no case leaves the type as it is. -/
def extensionOfCode (current : Extension) (code : Nat) : Extension :=
  if code = 0x0000 then Extension.NONE
  else if code = 0xffff then Extension.PARTIALLY_CONNECTED
  else if code = 0xfefe then Extension.NUNCHUK
  else if code = 0xfdfd then Extension.CLASSIC_CONTROLLER
  else current

/-- The storing of the nunchuk calibration data (lines 371-389); `packetSize` is the
result of the `read` that delivered the data. -/
def storeCalibration (w : Wiimote) (packet : List Nat) (packetSize : Nat) : Wiimote :=
  let packet := (List.range (packetSize - 7)).foldl
    (fun (p : List Nat) i => p.set (7 + i) (decryptByte (pkt p (7 + i)))) packet
  let axes := (List.range 2).foldl
    (fun (a : Nat → AxisSettings) i =>
      Function.update a i
        { minValue := (pkt packet (16 + i * 3) : ℚ),
          maxValue := (pkt packet (15 + i * 3) : ℚ),
          center := (pkt packet (17 + i * 3) : ℚ),
          flat := ((pkt packet (15 + i * 3) : ℚ) - (pkt packet (16 + i * 3) : ℚ)) * (1 / 20) })
    w.joystickAxes
  let zg := (List.range 3).foldl
    (fun (zg : (Nat → ℚ) × (Nat → ℚ)) i =>
      let zeros := Function.update zg.1 (3 + i) ((pkt packet (7 + i) <<< 2 : Nat) : ℚ)
      (zeros, Function.update zg.2 (3 + i)
        (((pkt packet (11 + i) <<< 2 : Nat) : ℚ) - zeros (3 + i))))
    (w.accelerometerZeros, w.accelerometerGains)
  { w with joystickAxes := axes, accelerometerZeros := zg.1, accelerometerGains := zg.2 }

/-- The body of the receiver's outer loop for a packet just read (lines 310-548),
up to the first nested `read` if there is one. -/
def handlePacket (w : Wiimote) (packet : List Nat) (packetSize : Nat) : Wiimote :=
  if packetSize > 0 ∧ pkt packet 0 = 0xa1 then
    if pkt packet 1 = 0x20 then handleStatus w packet
    else if pkt packet 1 = 0x21 then notifyEvent (handleDownloadReply w packet)
    else if pkt packet 1 = 0x22 then notifyEvent (handleUploadAck w packet)
    else if pkt packet 1 = 0x30 then notifyEvent (updateCoreButtons w (packet.drop 2))
    else if pkt packet 1 = 0x31 then
      let w := updateCoreButtons w (packet.drop 2)
      notifyEvent (updateCoreAccelerometers w (packet.drop 2) (packet.drop 4))
    else if pkt packet 1 = 0x32 then
      let w := updateCoreButtons w (packet.drop 2)
      notifyEvent (updateExtension w (packet.drop 4))
    else if pkt packet 1 = 0x33 then
      let w := updateCoreButtons w (packet.drop 2)
      let w := updateCoreAccelerometers w (packet.drop 2) (packet.drop 4)
      notifyEvent (updateIRTrackingExtended w (packet.drop 7))
    else if pkt packet 1 = 0x35 then
      let w := updateCoreButtons w (packet.drop 2)
      let w := updateCoreAccelerometers w (packet.drop 2) (packet.drop 4)
      notifyEvent (updateExtension w (packet.drop 7))
    else if pkt packet 1 = 0x36 then
      let w := updateCoreButtons w (packet.drop 2)
      let w := updateIRTrackingBasic w (packet.drop 4)
      notifyEvent (updateExtension w (packet.drop 14))
    else if pkt packet 1 = 0x37 then
      let w := updateCoreButtons w (packet.drop 2)
      let w := updateCoreAccelerometers w (packet.drop 2) (packet.drop 4)
      let w := updateIRTrackingBasic w (packet.drop 7)
      notifyEvent (updateExtension w (packet.drop 17))
    else notifyEvent w
  else w

/-- One step of the receiver thread (`Wiimote::receiverThreadMethod`, lines 298-552,
with the wait loop of `setReportingMode(true)`, line 176): the report `wire` arrives
and the pending `read` returns; the thread runs until it blocks in the next `read`.
At the outer read the array is taken to be fresh, so that a byte the `read` did not
store reads as 0 there; the iteration with the array holding `previous` is
`handlePacket w (readInto previous wire) (readSize wire)`. -/
def receiverStep (w : Wiimote) (wire : List Nat) : Wiimote :=
  match w.reader with
  | Reader.main => handlePacket w (readInto [] wire) (readSize wire)
  | Reader.enableAck buffer =>
    let packet := readInto buffer wire
    if readSize wire = 0 ∨ pkt packet 1 ≠ 0x22 then { w with reader := Reader.enableAck packet }
    else
      let queryExtensionType : List Nat := [0x52, 0x17, 0x04, 0xa4, 0x00, 0xfe, 0x00, 0x02]
      let w := writePacket w queryExtensionType
      { w with reader := Reader.extensionType packet }
  | Reader.extensionType buffer =>
    let packet := readInto buffer wire
    if readSize wire = 0 ∨ pkt packet 1 ≠ 0x21 then
      { w with reader := Reader.extensionType packet }
    else
      let code := (pkt packet 7 <<< 8) ||| pkt packet 8
      let w := { w with extensionDevice := extensionOfCode w.extensionDevice code }
      if w.extensionDevice = Extension.NUNCHUK ∧ w.needExtensionCalibration = true then
        let calibration : List Nat := [0x52, 0x17, 0x04, 0xa4, 0x00, 0x20, 0x00, 0x10]
        let w := writePacket w calibration
        { w with reader := Reader.calibration packet }
      else setReportingModeInside w
  | Reader.calibration buffer =>
    let packet := readInto buffer wire
    if readSize wire = 0 ∨ pkt packet 1 ≠ 0x21 then
      { w with reader := Reader.calibration packet }
    else setReportingModeInside (storeCalibration w packet (readSize wire))
  | Reader.irModeAck buffer requestData =>
    let packet := readInto buffer wire
    if readSize wire = 0 ∨ pkt packet 1 ≠ 0x22 then
      { w with reader := Reader.irModeAck packet requestData }
    else finishStatus w requestData

/-- The receiver thread handling a sequence of incoming reports. -/
def receive (w : Wiimote) (incoming : List (List Nat)) : Wiimote :=
  incoming.foldl receiverStep w

/-- `Wiimote::downloadData` from the initialisation of the download to the write of
the read request (lines 563-585); the caller then waits on `downloadCompleteCond`. -/
def downloadDataBegin (w : Wiimote) (fromRegister : Bool) (address size : Nat) : Wiimote :=
  let w := { w with downloadActive := true, downloadStartAddress := address,
                    downloadSize := size &&& 0xffff }
  let w := { w with downloadDataBuffer := some (List.replicate w.downloadSize 0),
                    downloadDataPtr := 0, downloadError := 0 }
  let readData : List Nat := [0x52, 0x17, 0x00, 0x00, 0x00, 0x00, 0x00, 0x00]
  let readData := if fromRegister then readData.set 2 (pkt readData 2 ||| 0x04) else readData
  let readData := readData.set 5 (address &&& 0xff)
  let address := address >>> 8
  let readData := readData.set 4 (address &&& 0xff)
  let address := address >>> 8
  let readData := readData.set 3 (address &&& 0xff)
  let readData := readData.set 7 (size &&& 0xff)
  let size := size >>> 8
  let readData := readData.set 6 (size &&& 0xff)
  writePacket w readData

/-- `Wiimote::downloadData` after the wait (lines 590-599): the state and the
returned pointer, `none` being the null pointer. -/
def downloadDataEnd (w : Wiimote) : Wiimote × Option (List Nat) :=
  let w := { w with downloadActive := false }
  let result := w.downloadDataBuffer
  let w := { w with downloadDataBuffer := none }
  if w.downloadError ≠ 0 then (w, none) else (w, result)

/-- The wait on `downloadCompleteCond` (line 588): the receiver handles incoming
reports until it has broadcast the condition; the result is `none` when the reports
run out before that, the caller staying blocked. -/
def awaitDownloadComplete : Wiimote → List (List Nat) → Option (Wiimote × List (List Nat))
  | _, [] => none
  | w, wire :: rest =>
    if (receiverStep w wire).downloadCompleteCond ≠ w.downloadCompleteCond then
      some (receiverStep w wire, rest)
    else awaitDownloadComplete (receiverStep w wire) rest

/-- `Wiimote::downloadData` (lines 554-600) called while the reports `incoming`
arrive: the state, the returned pointer and the reports not yet handled when the
call returns; `none` when the call does not return. A call made while another
download is active waits for a completion that only that download's caller brings
about, and does not return. -/
def downloadData (w : Wiimote) (fromRegister : Bool) (address size : Nat)
    (incoming : List (List Nat)) : Option ((Wiimote × Option (List Nat)) × List (List Nat)) :=
  if w.downloadActive then none
  else
    match awaitDownloadComplete (downloadDataBegin w fromRegister address size) incoming with
    | none => none
    | some (w, rest) => some (downloadDataEnd w, rest)

/-- `Wiimote::uploadData` from the initialisation of the upload to the write of the
first upload packet (lines 611-621); the caller then waits on `uploadCompleteCond`. -/
def uploadDataBegin (w : Wiimote) (toRegister : Bool) (address : Nat) (data : List Nat)
    (size : Nat) : Wiimote :=
  let w := { w with uploadActive := true, uploadToRegister := toRegister,
                    uploadStartAddress := address, uploadSize := size &&& 0xffff,
                    uploadDataBuffer := data, uploadDataPtr := 0, uploadError := 0 }
  writeUploadPacket w

/-- `Wiimote::uploadData` after the wait (lines 626-628): the state and the returned
flag. -/
def uploadDataEnd (w : Wiimote) : Wiimote × Bool :=
  let w := { w with uploadActive := false }
  (w, w.uploadError == 0)

/-- The wait on `uploadCompleteCond` (line 624): the receiver handles incoming
reports until it has broadcast the condition; the result is `none` when the reports
run out before that, the caller staying blocked. -/
def awaitUploadComplete : Wiimote → List (List Nat) → Option (Wiimote × List (List Nat))
  | _, [] => none
  | w, wire :: rest =>
    if (receiverStep w wire).uploadCompleteCond ≠ w.uploadCompleteCond then
      some (receiverStep w wire, rest)
    else awaitUploadComplete (receiverStep w wire) rest

/-- `Wiimote::uploadData` (lines 602-629) called while the reports `incoming` arrive:
the state, the returned flag and the reports not yet handled when the call returns;
`none` when the call does not return. -/
def uploadData (w : Wiimote) (toRegister : Bool) (address : Nat) (data : List Nat) (size : Nat)
    (incoming : List (List Nat)) : Option ((Wiimote × Bool) × List (List Nat)) :=
  if w.uploadActive then none
  else
    match awaitUploadComplete (uploadDataBegin w toRegister address data size) incoming with
    | none => none
    | some (w, rest) => some (uploadDataEnd w, rest)

/-- `Wiimote::setReportingMode(false)` (lines 131-190) called from outside the
receiver thread while the reports `incoming` arrive: the state and the reports not
yet handled when the call returns; `none` when the call does not return. -/
def setReportingMode (w : Wiimote) (incoming : List (List Nat)) :
    Option (Wiimote × List (List Nat)) :=
  let requestData := reportingModeRequest w
  if w.readIRTracking then
    match uploadData w true 0xb00033 [irCameraMode w] 1 incoming with
    | none => none
    | some ((w, _), rest) => some (writePacket w requestData, rest)
  else some (writePacket w requestData, incoming)

/-- The driver state set up by the constructor before the receiver thread starts
(lines 632-639 and 759-770); members the constructor leaves unset are 0 here. -/
def initial : Wiimote :=
  { joystickAxes := fun _ => ⟨0, 0, 0, 0⟩
    accelerometerZeros := fun _ => 0
    accelerometerGains := fun _ => 0
    needExtensionCalibration := true
    readContinuously := false
    readAccelerometers := false
    readIRTracking := false
    ledMask := 0x1
    rumble := false
    batteryLevel := 0
    extensionDevice := Extension.NONE
    buttonState := 0x0
    joystick := fun _ => 0
    rawAccelerometers := fun _ => 0
    accelerometers := fun _ => 0
    trackValids := fun _ => false
    trackXs := fun _ => 0
    trackYs := fun _ => 0
    downloadActive := false
    downloadStartAddress := 0
    downloadSize := 0
    downloadDataBuffer := none
    downloadDataPtr := 0
    downloadError := 0
    uploadActive := false
    uploadToRegister := false
    uploadStartAddress := 0
    uploadSize := 0
    uploadDataBuffer := []
    uploadDataPtr := 0
    uploadError := 0
    written := [[0x52, 0x11, 0x10]]
    downloadCompleteCond := 0
    uploadCompleteCond := 0
    eventCallbacks := 0
    eventCond := 0
    reader := Reader.main }

/-! ## The layout of the streaming reports, as the specification states it -/

/-- The optional fields of a streaming report as the specification lays them out:
the byte offset of each field that is present. -/
structure ReportLayout where
  accelerometer : Option Nat
  irBasic : Option Nat
  irExtended : Option Nat
  extension : Option Nat
deriving DecidableEq, Repr

/-- The layout the specification gives for each of the seven streaming report
identifiers. -/
def specLayout (id : Nat) : Option ReportLayout :=
  if id = 0x30 then some ⟨none, none, none, none⟩
  else if id = 0x31 then some ⟨some 4, none, none, none⟩
  else if id = 0x32 then some ⟨none, none, none, some 4⟩
  else if id = 0x33 then some ⟨some 4, none, some 7, none⟩
  else if id = 0x35 then some ⟨some 4, none, none, some 7⟩
  else if id = 0x36 then some ⟨none, some 4, none, some 14⟩
  else if id = 0x37 then some ⟨some 4, some 7, none, some 17⟩
  else none

/-- The bytes of a field of `size` bytes at offset `offset` of a packet. -/
def field (packet : List Nat) (offset size : Nat) : List Nat := (packet.drop offset).take size

/-- Decoding of a streaming report by a layout: the 2-byte button prefix at offset 2,
then the 3-byte accelerometer triple, the 10-byte basic or 12-byte extended IR block
and the 6-byte extension block, each decoded from its own bytes only. -/
def decodeLayout (l : ReportLayout) (w : Wiimote) (packet : List Nat) : Wiimote :=
  let w := updateCoreButtons w (field packet 2 2)
  let w := match l.accelerometer with
    | some o => updateCoreAccelerometers w (field packet 2 2) (field packet o 3)
    | none => w
  let w := match l.irBasic with
    | some o => updateIRTrackingBasic w (field packet o 10)
    | none => w
  let w := match l.irExtended with
    | some o => updateIRTrackingExtended w (field packet o 12)
    | none => w
  match l.extension with
  | some o => updateExtension w (field packet o 6)
  | none => w

/-- The sizes of the fields that precede the IR block in a layout. -/
def sizeBeforeIR (l : ReportLayout) : Nat := if l.accelerometer.isSome then 3 else 0

/-- The sizes of the fields that precede the extension block in a layout. -/
def sizeBeforeExtension (l : ReportLayout) : Nat :=
  sizeBeforeIR l + (if l.irBasic.isSome then 10 else 0) + (if l.irExtended.isSome then 12 else 0)

/-- Every field of the layout starts at offset 4 plus the sizes of the fields present
before it, in the order accelerometer, IR block, extension block. -/
def contiguous (l : ReportLayout) : Bool :=
  l.accelerometer.all (fun o => o == 4) &&
  l.irBasic.all (fun o => o == 4 + sizeBeforeIR l) &&
  l.irExtended.all (fun o => o == 4 + sizeBeforeIR l) &&
  l.extension.all (fun o => o == 4 + sizeBeforeExtension l)

/-- The byte windows of a layout, in packet order: the button prefix, then each field
that is present, as (offset, size). -/
def windows (l : ReportLayout) : List (Nat × Nat) :=
  [(2, 2)] ++ (l.accelerometer.map (fun o => (o, 3))).toList
    ++ (l.irBasic.map (fun o => (o, 10))).toList
    ++ (l.irExtended.map (fun o => (o, 12))).toList
    ++ (l.extension.map (fun o => (o, 6))).toList

/-! ## Packets of the bulk transfers, as the specification states them -/

/-- An upload packet as the specification describes it: the header `0x52 0x16`, the
flag byte (bit 2: register space, bit 0: rumble), the 3-byte big-endian address, the
size, and the data bytes padded with zeros to 16 bytes. -/
def uploadPacket (rumble toRegister : Bool) (address size : Nat) (bytes : List Nat) : List Nat :=
  [0x52, 0x16, (if toRegister then 4 else 0) + (if rumble then 1 else 0),
    (address >>> 16) &&& 0xff, (address >>> 8) &&& 0xff, address &&& 0xff, size]
    ++ bytes ++ List.replicate (16 - bytes.length) 0

/-- A write acknowledgment (report 0x22) whose error nibble, the low nibble of byte 5,
is zero. -/
def CleanAck (wire : List Nat) : Prop :=
  pkt wire 0 = 0xa1 ∧ pkt wire 1 = 0x22 ∧ pkt wire 5 &&& 0x0f = 0

instance (wire : List Nat) : Decidable (CleanAck wire) := by
  unfold CleanAck; infer_instance

/-- The error nibble of a write acknowledgment: the low nibble of byte 5. -/
def errorNibble (wire : List Nat) : Nat := pkt wire 5 &&& 0x0f

/-- The number of upload packets still to be written when `s` bytes are left. -/
def chunksAfter (s : Nat) : Nat := (s + 15) / 16

/-- The upload packet number `k` of an upload of `s` bytes of `data` from offset `p`
to `address`, in terms of the bytes the copy loop reads. -/
def uploadChunk (rumble toRegister : Bool) (address : Nat) (data : List Nat) (p s k : Nat) :
    List Nat :=
  uploadPacket rumble toRegister (address + 16 * k) (min (s - 16 * k) 16)
    ((List.range (min (s - 16 * k) 16)).map (fun i => pkt data (p + 16 * k + i)))

/-- The part of the driver state an upload in progress depends on: the receiver is
at the outer read, an upload is active, and the named members have the given
values. -/
structure UploadInv (u : Wiimote) (r t : Bool) (data : List Nat) (B p s : Nat)
    (W : List (List Nat)) (c : Nat) : Prop where
  reader : u.reader = Reader.main
  active : u.uploadActive = true
  rumble : u.rumble = r
  toRegister : u.uploadToRegister = t
  data : u.uploadDataBuffer = data
  address : u.uploadStartAddress = B
  ptr : u.uploadDataPtr = p
  size : u.uploadSize = s
  written : u.written = W
  cond : u.uploadCompleteCond = c

/-- A write acknowledgment: a report with framing byte 0xa1 and identifier 0x22. -/
def FramedAck (wire : List Nat) : Prop := pkt wire 0 = 0xa1 ∧ pkt wire 1 = 0x22

instance (wire : List Nat) : Decidable (FramedAck wire) := by
  unfold FramedAck; infer_instance


/-- A data download reply: a report with framing byte 0xa1 and identifier 0x21. -/
def FramedReply (wire : List Nat) : Prop := pkt wire 0 = 0xa1 ∧ pkt wire 1 = 0x21

instance (wire : List Nat) : Decidable (FramedReply wire) := by
  unfold FramedReply; infer_instance

/-- The error nibble of a data download reply: the low nibble of byte 4. -/
def replyError (wire : List Nat) : Nat := pkt wire 4 &&& 0x0f

/-- The data size of a data download reply: the high nibble of byte 4, plus one. -/
def replySize (wire : List Nat) : Nat := (pkt wire 4 >>> 4) + 1

/-- The data bytes of a data download reply: `replySize` bytes starting at byte 7. -/
def replyData (wire : List Nat) : List Nat :=
  (List.range (replySize wire)).map (fun i => pkt wire (7 + i))

/-- A sequence of error-free data download replies for `s` outstanding bytes: the
data size of each reply is at most `limit` and at most the number of bytes still
outstanding, and the sizes sum to `s`. -/
def fitReplies (limit : Nat) : Nat → List (List Nat) → Bool
  | s, [] => s == 0
  | s, r :: rs =>
    decide (FramedReply r) && replyError r == 0 && decide (replySize r ≤ limit)
      && decide (replySize r ≤ s) && fitReplies limit (s - replySize r) rs

/-- The part of the driver state a download in progress depends on: the receiver is
at the outer read, a download is active, `acc` are the bytes stored in the buffer so
far and `s` is the number of outstanding bytes. -/
structure DownloadInv (u : Wiimote) (acc : List Nat) (s : Nat) (W : List (List Nat))
    (c : Nat) : Prop where
  reader : u.reader = Reader.main
  active : u.downloadActive = true
  buffer : u.downloadDataBuffer = some (acc ++ List.replicate s 0)
  ptr : u.downloadDataPtr = acc.length
  size : u.downloadSize = s
  written : u.written = W
  cond : u.downloadCompleteCond = c

/-- A data download reply as it arrives from the device: 23 bytes, error nibble 0,
size nibble 15 (16 data bytes), the data being 1 to 14 followed by `d14`, `d15`. -/
def reply16 (d14 d15 : Nat) : List Nat :=
  [0xa1, 0x21, 0x00, 0x00, 0xf0, 0x00, 0x00, 1, 2, 3, 4, 5, 6, 7, 8, 9, 10, 11, 12, 13, 14,
    d14, d15]

/-! ## Sample states and reports -/

/-- The initial state with a nunchuk attached and accelerometers requested. -/
def nunchukState : Wiimote :=
  { initial with extensionDevice := Extension.NUNCHUK, readAccelerometers := true }

/-! ## The coordinates computed by the IR decoders -/

/-- The coordinate `x0` of group `i` in basic mode (line 256). -/
def basicX0 (irTrackingData : List Nat) (i : Nat) : Nat :=
  pkt irTrackingData (0 + i * 5) ||| ((pkt irTrackingData (2 + i * 5) &&& 0x30) <<< 4)

/-- The coordinate `y0` of group `i` in basic mode (line 257). -/
def basicY0 (irTrackingData : List Nat) (i : Nat) : Nat :=
  pkt irTrackingData (1 + i * 5) ||| ((pkt irTrackingData (2 + i * 5) &&& 0xc0) <<< 2)

/-- The coordinate `x1` of group `i` in basic mode (line 258). -/
def basicX1 (irTrackingData : List Nat) (i : Nat) : Nat :=
  pkt irTrackingData (3 + i * 5) ||| ((pkt irTrackingData (2 + i * 5) &&& 0x03) <<< 8)

/-- The coordinate `y1` of group `i` in basic mode (line 259). -/
def basicY1 (irTrackingData : List Nat) (i : Nat) : Nat :=
  pkt irTrackingData (4 + i * 5) ||| ((pkt irTrackingData (2 + i * 5) &&& 0x0c) <<< 6)

/-- The coordinate `x` of target `i` in extended mode (line 284). -/
def extendedX (irTrackingData : List Nat) (i : Nat) : Nat :=
  pkt irTrackingData (0 + i * 3) ||| ((pkt irTrackingData (2 + i * 3) &&& 0x30) <<< 4)

/-- The coordinate `y` of target `i` in extended mode (line 285). -/
def extendedY (irTrackingData : List Nat) (i : Nat) : Nat :=
  pkt irTrackingData (1 + i * 3) ||| ((pkt irTrackingData (2 + i * 3) &&& 0xc0) <<< 2)

/-- The 5-byte group into which the specification packs two 10-bit coordinate pairs
in basic mode. -/
def packBasic (x0 y0 x1 y1 : Nat) : List Nat :=
  [x0 &&& 0xff, y0 &&& 0xff,
    ((y0 >>> 8) <<< 6) ||| ((x0 >>> 8) <<< 4) ||| ((y1 >>> 8) <<< 2) ||| (x1 >>> 8),
    x1 &&& 0xff, y1 &&& 0xff]

/-- The 10-byte basic-mode IR block: two packed groups, for targets 0, 1 and 2, 3. -/
def basicBlock (x0 y0 x1 y1 x2 y2 x3 y3 : Nat) : List Nat :=
  packBasic x0 y0 x1 y1 ++ packBasic x2 y2 x3 y3

/-- The initial state with the receiver waiting for the reply to the extension type
query, no extension being recorded. -/
def awaitingTypeNone : Wiimote :=
  { initial with reader := Reader.extensionType [] }

/-- The initial state with the receiver waiting for the reply to the extension type
query, a nunchuk being recorded from an earlier negotiation. -/
def awaitingTypeNunchuk : Wiimote :=
  { initial with reader := Reader.extensionType [], extensionDevice := Extension.NUNCHUK }

/-- The rest of an iteration of the receiver's outer loop: the nested reads take the
packets of `incoming` in order until the thread is back at the read at the top of the
loop; `none` when `incoming` ends while a nested read is still waiting. -/
def runUntilMain : Wiimote → List (List Nat) → Option Wiimote
  | w, [] =>
    match w.reader with
    | Reader.main => some w
    | _ => none
  | w, packet :: rest =>
    match w.reader with
    | Reader.main => some w
    | _ => runUntilMain (receiverStep w packet) rest

/-- One iteration of the receiver's outer loop (lines 305-548) together with the
nested reads it performs: the first packet of `incoming` is the one read at the top of
the loop. -/
def receiverIteration (w : Wiimote) : List (List Nat) → Option Wiimote
  | [] => none
  | packet :: rest => runUntilMain (receiverStep w packet) rest

/-- The set-reporting-mode packet the specification expects for the state `w`: byte 2
carries continuous reporting in bit 2 and rumble in bit 0, byte 3 is the identifier
`setReportingMode` looks up for the extension identity and the accelerometer and IR
flags of `w`. -/
def reportingModePacket (w : Wiimote) : List Nat :=
  [0x52, 0x12, (if w.readContinuously then 4 else 0) + (if w.rumble then 1 else 0),
    pkt (reportingModeRequest w) 3]

/-- The invariant of Status processing: at the top of the loop the last packet written
is the set-reporting-mode packet of the state; in the wait of `setReportingMode` the
assembled request is the one for the state. -/
def StatusInv (w : Wiimote) : Prop :=
  match w.reader with
  | Reader.main => w.written.getLast? = some (reportingModePacket w)
  | Reader.irModeAck _ requestData => requestData = reportingModeRequest w
  | _ => True

/-- The request flags of two states agree. -/
def SameFlags (u v : Wiimote) : Prop :=
  u.readContinuously = v.readContinuously ∧ u.readAccelerometers = v.readAccelerometers ∧
    u.readIRTracking = v.readIRTracking ∧ u.rumble = v.rumble

/-! ## The offsets of `packet` accessed by the receiver -/

/-- The offsets of `packet` accessed by `updateCoreButtons` (line 195) when called with
`packet+buttonData`. -/
def updateCoreButtonsOffsets (buttonData : Nat) : List Nat :=
  [buttonData + 1, buttonData + 1, buttonData + 0]

/-- The offsets of `packet` accessed by `updateCoreAccelerometers` (lines 201-203) when
called with `packet+buttonData` and `packet+accelerometerData`. -/
def updateCoreAccelerometersOffsets (buttonData accelerometerData : Nat) : List Nat :=
  [accelerometerData + 0, buttonData + 0, accelerometerData + 1, buttonData + 1,
    accelerometerData + 2, buttonData + 1]

/-- The offsets of `packet` accessed by `updateExtension` (lines 213-242) when called
with `packet+extensionData`: the decoding loop reads and writes six bytes whatever the
extension device is. -/
def updateExtensionOffsets (w : Wiimote) (extensionData : Nat) : List Nat :=
  (List.range 6).map (fun i => extensionData + i) ++
    (if w.extensionDevice = Extension.NUNCHUK then
      [extensionData + 5] ++ (List.range 2).map (fun i => extensionData + i) ++
        (if w.readAccelerometers then
          [extensionData + 2, extensionData + 5, extensionData + 3, extensionData + 5,
            extensionData + 4, extensionData + 5]
        else [])
    else [])

/-- The offsets of `packet` accessed by `updateIRTrackingBasic` (lines 256-259) when
called with `packet+irTrackingData`. -/
def updateIRTrackingBasicOffsets (irTrackingData : Nat) : List Nat :=
  ((List.range 2).map (fun i =>
    [irTrackingData + (0 + i * 5), irTrackingData + (2 + i * 5), irTrackingData + (1 + i * 5),
      irTrackingData + (2 + i * 5), irTrackingData + (3 + i * 5), irTrackingData + (2 + i * 5),
      irTrackingData + (4 + i * 5), irTrackingData + (2 + i * 5)])).flatten

/-- The offsets of `packet` accessed by `updateIRTrackingExtended` (lines 284-285) when
called with `packet+irTrackingData`. -/
def updateIRTrackingExtendedOffsets (irTrackingData : Nat) : List Nat :=
  ((List.range 4).map (fun i =>
    [irTrackingData + (0 + i * 3), irTrackingData + (2 + i * 3), irTrackingData + (1 + i * 3),
      irTrackingData + (2 + i * 3)])).flatten

/-- The offsets of `packet` accessed by the body of the receiver's outer loop for a
packet just read (lines 310-539), up to the first nested `read`, in the order of the
source; the cases are those of `handlePacket`. -/
def handlePacketOffsets (w : Wiimote) (packet : List Nat) (packetSize : Nat) : List Nat :=
  if packetSize > 0 then
    0 :: (if pkt packet 0 = 0xa1 then
      1 :: (
        if pkt packet 1 = 0x20 then [7, 4]
        else if pkt packet 1 = 0x21 then
          updateCoreButtonsOffsets 2 ++
            (if w.downloadActive then
              4 :: (if pkt packet 4 &&& 0x0f ≠ 0 then []
                else
                  let packetDataSize := (pkt packet 4 >>> 4) + 1
                  let count := if toInt w.downloadSize ≤ 0 then 0
                    else min packetDataSize (toInt w.downloadSize).toNat
                  4 :: (List.range count).map (fun i => 7 + i))
            else [])
        else if pkt packet 1 = 0x22 then
          updateCoreButtonsOffsets 2 ++ (if w.uploadActive then [5] else [])
        else if pkt packet 1 = 0x30 then updateCoreButtonsOffsets 2
        else if pkt packet 1 = 0x31 then
          updateCoreButtonsOffsets 2 ++ updateCoreAccelerometersOffsets 2 4
        else if pkt packet 1 = 0x32 then
          updateCoreButtonsOffsets 2 ++ updateExtensionOffsets w 4
        else if pkt packet 1 = 0x33 then
          updateCoreButtonsOffsets 2 ++ updateCoreAccelerometersOffsets 2 4 ++
            updateIRTrackingExtendedOffsets 7
        else if pkt packet 1 = 0x35 then
          updateCoreButtonsOffsets 2 ++ updateCoreAccelerometersOffsets 2 4 ++
            updateExtensionOffsets w 7
        else if pkt packet 1 = 0x36 then
          updateCoreButtonsOffsets 2 ++ updateIRTrackingBasicOffsets 4 ++
            updateExtensionOffsets w 14
        else if pkt packet 1 = 0x37 then
          updateCoreButtonsOffsets 2 ++ updateCoreAccelerometersOffsets 2 4 ++
            updateIRTrackingBasicOffsets 7 ++ updateExtensionOffsets w 17
        else [])
    else [])
  else []

/-- The offsets of `packet` accessed between the return of one `read` of the receiver
thread and its next `read`; the cases are those of `receiverStep`. -/
def receiverStepOffsets (w : Wiimote) (wire : List Nat) : List Nat :=
  match w.reader with
  | Reader.main => handlePacketOffsets w (readInto [] wire) (readSize wire)
  | Reader.enableAck _ => if readSize wire = 0 then [] else [1]
  | Reader.extensionType buffer =>
    if readSize wire = 0 then []
    else 1 :: (if pkt (readInto buffer wire) 1 ≠ 0x21 then [] else [7, 8])
  | Reader.calibration buffer =>
    if readSize wire = 0 then []
    else 1 :: (if pkt (readInto buffer wire) 1 ≠ 0x21 then []
      else
        (List.range (readSize wire - 7)).map (fun i => 7 + i) ++
          ((List.range 2).map (fun i => [16 + i * 3, 15 + i * 3, 17 + i * 3])).flatten ++
          ((List.range 3).map (fun i => [7 + i, 11 + i])).flatten)
  | Reader.irModeAck _ _ => if readSize wire = 0 then [] else [1]

/-- A report 0x37 as it arrives from the device: 23 bytes, the extension block being
bytes 17 to 22 and ending in `e4`, `e5`. -/
def report37 (e4 e5 : Nat) : List Nat :=
  [0xa1, 0x37, 0, 0, 0x80, 0x80, 0x80, 0xff, 0xff, 0xff, 0xff, 0xff, 0xff, 0xff, 0xff, 0xff,
    0xff, 0x80, 0x80, 0x80, 0x80, e4, e5]

/-- The nunchuk state with a joystick calibration for both axes: minimum 30, maximum
220, center 128, flat zone 10. -/
def calibratedNunchuk : Wiimote :=
  { nunchukState with joystickAxes := fun _ => { minValue := 30, maxValue := 220, center := 128, flat := 10 } }

/-! ## The constructor's live calibration -/

/-- The storing of the core accelerometer zeros and gains from the downloaded
calibration block (constructor, lines 814-819). -/
def storeCoreCalibration (w : Wiimote) (calibration : List Nat) : Wiimote :=
  let zg := (List.range 3).foldl
    (fun (zg : (Nat → ℚ) × (Nat → ℚ)) i =>
      let zeros := Function.update zg.1 i ((pkt calibration i <<< 1 : Nat) : ℚ)
      (zeros, Function.update zg.2 i
        (((pkt calibration (4 + i) <<< 1 : Nat) : ℚ) - zeros i)))
    (w.accelerometerZeros, w.accelerometerGains)
  { w with accelerometerZeros := zg.1, accelerometerGains := zg.2 }

/-- The constructor's fallback when the configuration file has no calibration
(lines 808-829): the 8-byte block at address 0x16 is downloaded while the reports
`incoming` arrive, and stored. The result is `none` when the download does not return
and `some none` when it fails and the constructor throws. -/
def liveCalibration (w : Wiimote) (incoming : List (List Nat)) :
    Option (Option Wiimote × List (List Nat)) :=
  match downloadData w false 0x000016 8 incoming with
  | none => none
  | some ((w, some calibration), rest) => some (some (storeCoreCalibration w calibration), rest)
  | some ((_, none), rest) => some (none, rest)

/-- The gain of core axis `i` after a live calibration, if the constructor got one. -/
def liveGain (w : Wiimote) (incoming : List (List Nat)) (i : Nat) : Option ℚ :=
  match liveCalibration w incoming with
  | some (some w, _) => some (w.accelerometerGains i)
  | _ => none

/-! ## Re-encoding of the button field -/

/-- An encoder from compacted button fields to 2-byte button prefixes: bits 6 to 10 of
the field go to bits 0 to 4 of byte 0, bits 0 to 4 to bits 0 to 4 of byte 1, and bit 5
to bit 7 of byte 1. -/
def encodeButtons (field : Nat) : List Nat :=
  [(field >>> 6) &&& 0x1f, (field &&& 0x1f) ||| ((field &&& 0x20) <<< 2)]

/-! ## The inverse of the extension transform -/

/-- The obfuscation that `decryptByte` undoes: subtract 0x17 modulo 256, then XOR
with 0x17. -/
def obfuscateByte (c : Nat) : Nat := ((c + 256 - 0x17) % 256) ^^^ 0x17

/-- `Wiimote::getNumButtons` (Wiimote.cpp lines 849-868). -/
def getNumButtons (w : Wiimote) : Nat :=
  match w.extensionDevice with
  | Extension.NONE => 11
  | Extension.PARTIALLY_CONNECTED => 11
  | Extension.NUNCHUK => 13
  | Extension.CLASSIC_CONTROLLER => 13

/-- Two states have the same joystick values, accelerometer values, IR targets, battery
level and extension identity: the device snapshot apart from the button field. -/
def SameOutsideButtons (u v : Wiimote) : Prop :=
  u.joystick = v.joystick ∧ u.rawAccelerometers = v.rawAccelerometers ∧
    u.accelerometers = v.accelerometers ∧ u.trackValids = v.trackValids ∧
    u.trackXs = v.trackXs ∧ u.trackYs = v.trackYs ∧ u.batteryLevel = v.batteryLevel ∧
    u.extensionDevice = v.extensionDevice

/-! ## Uploads among other reports -/

/-- The members of the driver state that an upload reads or writes. -/
def uploadView (w : Wiimote) :
    Bool × Bool × Bool × List Nat × Nat × Nat × Nat × List (List Nat) × Nat × Nat :=
  (w.uploadActive, w.rumble, w.uploadToRegister, w.uploadDataBuffer, w.uploadStartAddress,
    w.uploadDataPtr, w.uploadSize, w.written, w.uploadCompleteCond, w.uploadError)

/-- A report that arrives during an upload and is neither a Status report nor a write
acknowledgment: it carries its identifier byte, which is neither 0x20 nor 0x22. -/
def OtherReport (wire : List Nat) : Prop :=
  2 ≤ wire.length ∧ pkt wire 1 ≠ 0x20 ∧ pkt wire 1 ≠ 0x22

instance (wire : List Nat) : Decidable (OtherReport wire) := by
  unfold OtherReport; infer_instance

/-- The number of write acknowledgments among the reports. -/
def ackCount (incoming : List (List Nat)) : Nat :=
  (incoming.filter (fun x => decide (FramedAck x))).length

/-! ## Lemmas on bytes and packets -/

theorem and_one_shiftLeft_ne_zero (x i : Nat) : (x &&& (1 <<< i) != 0) = x.testBit i := by
  rw [Nat.one_shiftLeft]
  have h : x &&& 2 ^ i = if x.testBit i then 2 ^ i else 0 := by
    apply Nat.eq_of_testBit_eq
    intro j
    rw [Nat.testBit_and, Nat.testBit_two_pow]
    by_cases hij : i = j
    · subst hij
      cases hx : x.testBit i <;> simp [Nat.testBit_two_pow]
    · cases hx : x.testBit i <;> simp [Nat.testBit_two_pow, hij]
  rw [h]
  cases hx : x.testBit i <;> simp

theorem getButtonState_eq_testBit (w : Wiimote) (i : Nat) :
    getButtonState w i = w.buttonState.testBit i := by
  unfold getButtonState
  exact and_one_shiftLeft_ne_zero _ _

theorem compactButtons_testBit (b0 b1 i : Nat) :
    ((b1 &&& 0x1f) ||| ((b1 &&& 0x80) >>> 2) ||| ((b0 &&& 0x1f) <<< 6)).testBit i =
      ((decide (i < 5) && b1.testBit i) || (decide (i = 5) && b1.testBit 7)
        || (decide (6 ≤ i ∧ i < 11) && b0.testBit (i - 6))) := by
  have h1f : (0x1f : Nat) = 2 ^ 5 - 1 := by norm_num
  have h80 : (0x80 : Nat) = 2 ^ 7 := by norm_num
  rw [h1f, h80]
  simp only [Nat.testBit_or, Nat.testBit_and, Nat.testBit_shiftRight, Nat.testBit_shiftLeft,
    Nat.testBit_two_pow_sub_one, Nat.testBit_two_pow]
  by_cases h5 : i = 5
  · subst h5; simp
  · by_cases hlt : i < 5
    · have h6 : ¬ (6 ≤ i) := by omega
      have h7 : ¬ (7 = 2 + i) := by omega
      simp [hlt, h6, h5, h7, Bool.and_comm]
    · have h7 : ¬ (7 = 2 + i) := by omega
      by_cases h11 : i < 11
      · have h6 : 6 ≤ i := by omega
        have h6' : i - 6 < 5 := by omega
        simp [hlt, h6, h5, h7, h11, h6', Bool.and_comm]
      · have h6' : ¬ (i - 6 < 5) := by omega
        simp [hlt, h5, h7, h11, h6']

theorem pkt_cons_zero (a : Nat) (l : List Nat) : pkt (a :: l) 0 = a := rfl

theorem pkt_cons_succ (a : Nat) (l : List Nat) (i : Nat) : pkt (a :: l) (i + 1) = pkt l i := rfl

theorem pkt_nil (i : Nat) : pkt [] i = 0 := rfl

/-! ## Core buttons -/

/-- C2: for every button prefix `(b0, b1)`, after `updateCoreButtons` the state of
button `i` is bit `i` of `b1` for `i = 0..4` (TWO, ONE, B, A, MINUS), bit 7 of `b1`
for `i = 5` (HOME), bit `i - 6` of `b0` for `i = 6..10` (LEFT, RIGHT, DOWN, UP,
PLUS), and false for every other index; no other bit of the prefix enters. -/
theorem updateCoreButtons_getButtonState (w : Wiimote) (b0 b1 : Nat) (rest : List Nat)
    (i : Nat) :
    getButtonState (updateCoreButtons w (b0 :: b1 :: rest)) i =
      if i < 5 then b1.testBit i
      else if i = 5 then b1.testBit 7
      else if i < 11 then b0.testBit (i - 6)
      else false := by
  rw [getButtonState_eq_testBit]
  show ((b1 &&& 0x1f) ||| ((b1 &&& 0x80) >>> 2) ||| ((b0 &&& 0x1f) <<< 6)).testBit i = _
  rw [compactButtons_testBit]
  by_cases h5 : i = 5
  · subst h5; simp
  · by_cases hlt : i < 5
    · have h6 : ¬ (6 ≤ i) := by omega
      simp [hlt, h6, h5]
    · by_cases h11 : i < 11
      · have h6 : 6 ≤ i := by omega
        simp [hlt, h6, h5, h11]
      · simp [hlt, h5, h11]

/-! ## Control packets and the rumble bit -/

theorem pkt_eq_getElem (l : List Nat) (i : Nat) (h : i < l.length) : pkt l i = l[i] := by
  unfold pkt
  exact List.getD_eq_getElem _ _ h

theorem pkt_of_length_le (l : List Nat) (i : Nat) (h : l.length ≤ i) : pkt l i = 0 := by
  unfold pkt
  simp [List.getD_eq_getElem?_getD, List.getElem?_eq_none h]

theorem pkt_set_eq (l : List Nat) (i v : Nat) (h : i < l.length) : pkt (l.set i v) i = v := by
  unfold pkt
  simp [List.getD_eq_getElem?_getD, List.getElem?_set, h]

theorem pkt_set_ne (l : List Nat) (i j v : Nat) (h : i ≠ j) : pkt (l.set i v) j = pkt l j := by
  unfold pkt
  simp [List.getD_eq_getElem?_getD, List.getElem?_set, h]

theorem pkt_mem_lt (l : List Nat) (n : Nat) (hb : ∀ b ∈ l, b < n) (i : Nat) (h : i < l.length) :
    pkt l i < n := by
  rw [pkt_eq_getElem l i h]
  exact hb _ (List.getElem_mem _)

theorem byte_or_one (b : Nat) (hb : b < 256) : (b ||| 0x01) % 256 = b ||| 1 := by
  apply Nat.mod_eq_of_lt
  exact Nat.or_lt_two_pow (n := 8) hb (by norm_num)

theorem byte_and_not_one (b : Nat) (hb : b < 256) : (b &&& bitNot 0x01) % 256 = b &&& 4294967294 := by
  apply Nat.mod_eq_of_lt
  exact lt_of_le_of_lt Nat.and_le_left hb

theorem testBit_one (j : Nat) : Nat.testBit 1 j = decide (j = 0) := by
  rcases j with _ | j
  · rfl
  · simp [Nat.testBit_succ]

theorem testBit_4294967294 (j : Nat) : Nat.testBit 4294967294 j = (decide (j < 32) && !decide (j = 0)) := by
  have h := Nat.testBit_two_pow_sub_succ (x := 1) (n := 32) (by norm_num) j
  have h2 : (2:Nat) ^ 32 - (1 + 1) = 4294967294 := by norm_num
  rw [h2] at h
  rw [h, testBit_one]

theorem testBit_byte_high (b j : Nat) (hb : b < 256) (hj : 8 ≤ j) : b.testBit j = false := by
  apply Nat.testBit_lt_two_pow
  calc b < 2 ^ 8 := hb
    _ ≤ 2 ^ j := Nat.pow_le_pow_right (by norm_num) hj

theorem rumbleByte_testBit (r : Bool) (b j : Nat) (hb : b < 256) :
    (if r then (b ||| 0x01) % 256 else (b &&& bitNot 0x01) % 256).testBit j =
      if j = 0 then r else b.testBit j := by
  cases r
  · simp only [Bool.false_eq_true, if_false]
    rw [byte_and_not_one _ hb, Nat.testBit_and, testBit_4294967294]
    by_cases h0 : j = 0
    · simp [h0]
    · by_cases h32 : j < 32
      · simp [h32, h0]
      · simp [h32, h0, testBit_byte_high _ j hb (by omega)]
  · simp only [if_true]
    rw [byte_or_one _ hb, Nat.testBit_or, testBit_one]
    by_cases h0 : j = 0
    · simp [h0]
    · simp [h0]

theorem writePacket_eq (w : Wiimote) (packet : List Nat) :
    writePacket w packet = { w with written := w.written ++
      [packet.set 2 (if w.rumble then (pkt packet 2 ||| 0x01) % 256
        else (pkt packet 2 &&& bitNot 0x01) % 256)] } := by
  unfold writePacket
  cases w.rumble <;> simp

/-- C9: for every control packet of at least 3 bytes and either value of the rumble
flag, `writePacket` writes one packet of the same length in which bit 0 of byte 2 is
the rumble flag and every other bit of every byte is as the caller built it; nothing
else of the driver state changes. All packets the driver sends go through
`writePacket`. -/
theorem writePacket_rumble_bit (w : Wiimote) (packet : List Nat) (h3 : 3 ≤ packet.length)
    (hb : ∀ b ∈ packet, b < 256) :
    ∃ out : List Nat,
      writePacket w packet = { w with written := w.written ++ [out] } ∧
      out.length = packet.length ∧
      (∀ i, i ≠ 2 → pkt out i = pkt packet i) ∧
      (pkt out 2).testBit 0 = w.rumble ∧
      (∀ j, j ≠ 0 → (pkt out 2).testBit j = (pkt packet 2).testBit j) := by
  have hb2 : pkt packet 2 < 256 := pkt_mem_lt packet 256 hb 2 (by omega)
  refine ⟨_, writePacket_eq w packet, by simp, ?_, ?_, ?_⟩
  · intro i hi
    exact pkt_set_ne _ _ _ _ (Ne.symm hi)
  · rw [pkt_set_eq _ _ _ (by omega), rumbleByte_testBit _ _ _ hb2]
    simp
  · intro j hj
    rw [pkt_set_eq _ _ _ (by omega), rumbleByte_testBit _ _ _ hb2]
    simp [hj]

/-- C9, witness: the data request packet `0x52 0x12 0x04 0x30` written from the
initial state. -/
theorem writePacket_rumble_bit_witness :
    ∃ out : List Nat,
      writePacket initial [0x52, 0x12, 0x04, 0x30] =
        { initial with written := initial.written ++ [out] } ∧
      out.length = [0x52, 0x12, 0x04, 0x30].length ∧
      (∀ i, i ≠ 2 → pkt out i = pkt [0x52, 0x12, 0x04, 0x30] i) ∧
      (pkt out 2).testBit 0 = initial.rumble ∧
      (∀ j, j ≠ 0 → (pkt out 2).testBit j = (pkt [0x52, 0x12, 0x04, 0x30] 2).testBit j) :=
  writePacket_rumble_bit initial [0x52, 0x12, 0x04, 0x30] (by decide) (by decide)

/-! ## The read request of a download -/

theorem and_0xff (x : Nat) : x &&& 0xff = x % 256 := by
  have h : (0xff : Nat) = 2 ^ 8 - 1 := by norm_num
  rw [h, Nat.and_pow_two_sub_one_eq_mod]

theorem and_0xffff (x : Nat) : x &&& 0xffff = x % 65536 := by
  have h : (0xffff : Nat) = 2 ^ 16 - 1 := by norm_num
  rw [h, Nat.and_pow_two_sub_one_eq_mod]

theorem downloadDataBegin_written (w : Wiimote) (fromRegister : Bool) (address size : Nat) :
    (downloadDataBegin w fromRegister address size).written = w.written ++
      [[0x52, 0x17, (if fromRegister then 4 else 0) + (if w.rumble then 1 else 0),
        (address >>> 16) &&& 0xff, (address >>> 8) &&& 0xff, address &&& 0xff,
        (size >>> 8) &&& 0xff, size &&& 0xff]] := by
  have h16 : address >>> 8 >>> 8 = address >>> 16 := by rw [← Nat.shiftRight_add]
  cases hf : fromRegister <;> cases hr : w.rumble <;>
    simp [downloadDataBegin, writePacket_eq, hr, h16, pkt, bitNot]
  all_goals decide

/-- C7: for every address and length, the read request written by `downloadData` is
the 8 bytes `0x52, 0x17, f, a>>16 & 0xff, a>>8 & 0xff, a & 0xff, n>>8 & 0xff, n & 0xff`
with `f` = 4 iff `fromRegister`, plus 1 iff rumble is on; the number of outstanding
bytes is `n mod 65536`, which is the big-endian length in bytes 6 and 7. -/
theorem downloadData_request (w : Wiimote) (fromRegister : Bool) (address size : Nat) :
    (downloadDataBegin w fromRegister address size).written = w.written ++
      [[0x52, 0x17, (if fromRegister then 4 else 0) + (if w.rumble then 1 else 0),
        (address >>> 16) &&& 0xff, (address >>> 8) &&& 0xff, address &&& 0xff,
        (size >>> 8) &&& 0xff, size &&& 0xff]] ∧
    (downloadDataBegin w fromRegister address size).downloadSize = size % 65536 ∧
    256 * ((size >>> 8) &&& 0xff) + (size &&& 0xff) = size % 65536 := by
  refine ⟨downloadDataBegin_written w fromRegister address size, ?_, ?_⟩
  · simp [downloadDataBegin, writePacket_eq, and_0xffff]
  · rw [and_0xff, and_0xff, Nat.shiftRight_eq_div_pow]
    omega

/-! ## The report identifier chosen by `setReportingMode` -/

theorem reportingModeRequest_identifier (w : Wiimote) :
    pkt (reportingModeRequest w) 3 =
      if w.extensionDevice ≠ Extension.NONE then
        if w.readAccelerometers && w.readIRTracking then 0x37
        else if w.readAccelerometers then 0x35
        else if w.readIRTracking then 0x36
        else 0x32
      else
        if w.readAccelerometers && w.readIRTracking then 0x33
        else if w.readAccelerometers then 0x31
        else if w.readIRTracking then 0x36
        else 0x30 := by
  cases he : w.extensionDevice <;> cases ha : w.readAccelerometers <;>
    cases hi : w.readIRTracking <;> cases hc : w.readContinuously <;>
    simp [reportingModeRequest, pkt, he, ha, hi, hc]

/-- C10, counterexample: with no extension present, accelerometers not requested and
IR tracking requested, the identifier placed in the request is 0x36, a report that
carries an extension block. -/
theorem reportingMode_ir_only_has_extension_block :
    ({ initial with readIRTracking := true } : Wiimote).extensionDevice = Extension.NONE ∧
    pkt (reportingModeRequest { initial with readIRTracking := true }) 3 = 0x36 ∧
    ∃ l : ReportLayout,
      specLayout (pkt (reportingModeRequest { initial with readIRTracking := true }) 3) = some l ∧
      l.extension.isSome = true := by
  refine ⟨rfl, by decide, ⟨none, some 4, none, some 14⟩, by decide, rfl⟩

/-- C10, amended: the report identifier placed in the data request by
`setReportingMode` is a function of only (extension present, accelerometers
requested, IR tracking requested); the chosen report carries an accelerometer triple
iff accelerometers are requested, an IR block iff IR tracking is requested, and an
extension block iff an extension is present or IR tracking is requested without
accelerometers. -/
theorem reportingMode_identifier_appropriate :
    (∃ f : Bool → Bool → Bool → Nat, ∀ w : Wiimote,
      pkt (reportingModeRequest w) 3 =
        f (decide (w.extensionDevice ≠ Extension.NONE)) w.readAccelerometers w.readIRTracking) ∧
    (∀ w : Wiimote, ∃ l : ReportLayout,
      specLayout (pkt (reportingModeRequest w) 3) = some l ∧
      l.accelerometer.isSome = w.readAccelerometers ∧
      (l.irBasic.isSome || l.irExtended.isSome) = w.readIRTracking ∧
      l.extension.isSome = (decide (w.extensionDevice ≠ Extension.NONE)
        || (w.readIRTracking && !w.readAccelerometers))) := by
  constructor
  · refine ⟨fun e a i =>
      if e then (if a && i then 0x37 else if a then 0x35 else if i then 0x36 else 0x32)
      else (if a && i then 0x33 else if a then 0x31 else if i then 0x36 else 0x30), ?_⟩
    intro w
    rw [reportingModeRequest_identifier]
    cases he : w.extensionDevice <;> cases ha : w.readAccelerometers <;>
      cases hi : w.readIRTracking <;> simp
  · intro w
    rw [reportingModeRequest_identifier]
    cases he : w.extensionDevice <;> cases ha : w.readAccelerometers <;>
      cases hi : w.readIRTracking <;> simp [specLayout]

/-! ## The fields of the streaming reports -/

theorem pkt_take (d : List Nat) (n i : Nat) (h : i < n) : pkt (d.take n) i = pkt d i := by
  unfold pkt
  simp [List.getD_eq_getElem?_getD, List.getElem?_take, h]

theorem pkt_drop (d : List Nat) (k i : Nat) : pkt (d.drop k) i = pkt d (k + i) := by
  unfold pkt
  simp [List.getD_eq_getElem?_getD, List.getElem?_drop]

theorem range_two : List.range 2 = [0, 1] := rfl
theorem range_three : List.range 3 = [0, 1, 2] := rfl
theorem range_four : List.range 4 = [0, 1, 2, 3] := rfl
theorem range_six : List.range 6 = [0, 1, 2, 3, 4, 5] := rfl

theorem updateCoreButtons_take (w : Wiimote) (d : List Nat) :
    updateCoreButtons w (d.take 2) = updateCoreButtons w d := by
  simp [updateCoreButtons, pkt_take]

theorem updateCoreAccelerometers_take (w : Wiimote) (b a : List Nat) :
    updateCoreAccelerometers w (b.take 2) (a.take 3) = updateCoreAccelerometers w b a := by
  simp [updateCoreAccelerometers, pkt_take]

theorem updateIRTrackingBasic_take (w : Wiimote) (d : List Nat) :
    updateIRTrackingBasic w (d.take 10) = updateIRTrackingBasic w d := by
  simp [updateIRTrackingBasic, range_two, pkt_take]

theorem updateIRTrackingExtended_take (w : Wiimote) (d : List Nat) :
    updateIRTrackingExtended w (d.take 12) = updateIRTrackingExtended w d := by
  simp [updateIRTrackingExtended, range_four, pkt_take]

theorem decryptLoop_pkt (n : Nat) (d : List Nat) (j : Nat) :
    pkt ((List.range n).foldl (fun (d : List Nat) i => d.set i (decryptByte (pkt d i))) d) j =
      if j < n ∧ j < d.length then decryptByte (pkt d j) else pkt d j := by
  induction n with
  | zero => simp
  | succ n ih =>
    rw [List.range_succ, List.foldl_append]
    simp only [List.foldl_cons, List.foldl_nil]
    have hlen : ((List.range n).foldl (fun (d : List Nat) i => d.set i (decryptByte (pkt d i))) d).length = d.length := by
      clear ih
      induction n with
      | zero => simp
      | succ m ihm => rw [List.range_succ, List.foldl_append]; simp [ihm]
    by_cases hj : j = n
    · subst hj
      by_cases hl : j < d.length
      · rw [pkt_set_eq _ _ _ (by rw [hlen]; exact hl), ih]
        simp [hl]
      · rw [pkt_of_length_le _ _ (by simp [hlen]; omega)]
        simp [hl, pkt_of_length_le _ _ (Nat.le_of_not_lt hl)]
    · rw [pkt_set_ne _ _ _ _ (Ne.symm hj), ih]
      by_cases hjn : j < n
      · have : j < n + 1 := by omega
        simp [hjn, this]
      · have : ¬ j < n + 1 := by omega
        simp [hjn, this]

theorem decryptLoop_take (d : List Nat) (j : Nat) (hj : j < 6) :
    pkt ((List.range 6).foldl (fun (d : List Nat) i => d.set i (decryptByte (pkt d i))) (d.take 6)) j =
    pkt ((List.range 6).foldl (fun (d : List Nat) i => d.set i (decryptByte (pkt d i))) d) j := by
  rw [decryptLoop_pkt, decryptLoop_pkt, pkt_take _ _ _ hj]
  simp [hj]

theorem updateExtension_take (w : Wiimote) (d : List Nat) :
    updateExtension w (d.take 6) = updateExtension w d := by
  unfold updateExtension
  simp only [range_two, range_three, List.foldl_cons, List.foldl_nil, decryptLoop_take]
  simp [decryptLoop_take]

theorem readInto_nil (wire : List Nat) : readInto [] wire = wire.take 21 := by
  simp [readInto, packetBufferSize]

theorem readSize_pos (wire : List Nat) (i v : Nat) (h : pkt wire i = v) (hv : v ≠ 0) :
    readSize wire > 0 := by
  unfold readSize packetBufferSize
  rcases wire with _ | ⟨a, t⟩
  · rw [pkt_nil] at h; exact absurd h.symm hv
  · simp

theorem receiverStep_main (w : Wiimote) (wire : List Nat) (hm : w.reader = Reader.main) :
    receiverStep w wire = handlePacket w (wire.take 21) (readSize wire) := by
  unfold receiverStep
  rw [hm, readInto_nil]

theorem receiverStep_streaming (id : Nat) (l : ReportLayout) (hl : specLayout id = some l)
    (w : Wiimote) (wire : List Nat) (hm : w.reader = Reader.main)
    (h0 : pkt wire 0 = 0xa1) (h1 : pkt wire 1 = id) :
    receiverStep w wire = notifyEvent (decodeLayout l w (readInto [] wire)) := by
  have hs : readSize wire > 0 := readSize_pos wire 0 0xa1 h0 (by decide)
  have p0 : pkt (wire.take 21) 0 = 0xa1 := by rw [pkt_take _ _ _ (by decide), h0]
  have p1 : pkt (wire.take 21) 1 = id := by rw [pkt_take _ _ _ (by decide), h1]
  rw [receiverStep_main w wire hm, readInto_nil]
  unfold specLayout at hl
  unfold handlePacket decodeLayout field
  simp only [hs, p0, p1, true_and, if_true]
  split_ifs at hl with c0 c1 c2 c3 c4 c5 c6 <;> cases hl <;>
    simp [*, updateCoreButtons_take, updateCoreAccelerometers_take, updateIRTrackingBasic_take,
      updateIRTrackingExtended_take, updateExtension_take]

theorem specLayout_contiguous (id : Nat) (l : ReportLayout) (hl : specLayout id = some l) :
    contiguous l = true ∧ (windows l).Pairwise (fun a b => a.1 + a.2 ≤ b.1) := by
  unfold specLayout at hl
  split_ifs at hl <;> cases hl <;>
    simp [contiguous, sizeBeforeExtension, sizeBeforeIR, windows]

/-- C1: for each of the seven streaming report identifiers the specification's layout
exists, the receiver's handling of a report with that identifier is the decoding of
exactly the fields of the layout, each from its own bytes (3 for the accelerometer
triple, 10 or 12 for the IR block, 6 for the extension block) at the layout's
offsets, and the layout is contiguous: every field starts at 4 plus the sizes of the
fields before it, so the byte windows are in increasing order without overlap. -/
theorem streaming_report_fields (id : Nat)
    (hid : id ∈ [0x30, 0x31, 0x32, 0x33, 0x35, 0x36, 0x37]) :
    ∃ l : ReportLayout, specLayout id = some l ∧
      (∀ (w : Wiimote) (wire : List Nat), w.reader = Reader.main →
        pkt wire 0 = 0xa1 → pkt wire 1 = id →
        receiverStep w wire = notifyEvent (decodeLayout l w (readInto [] wire))) ∧
      contiguous l = true ∧ (windows l).Pairwise (fun a b => a.1 + a.2 ≤ b.1) := by
  have hex : ∃ l, specLayout id = some l := by
    simp only [List.mem_cons, List.mem_singleton, List.not_mem_nil, or_false] at hid
    rcases hid with h | h | h | h | h | h | h <;> subst h <;> exact ⟨_, rfl⟩
  obtain ⟨l, hl⟩ := hex
  exact ⟨l, hl, fun w wire hm h0 h1 => receiverStep_streaming id l hl w wire hm h0 h1,
    specLayout_contiguous id l hl⟩

/-- C1, witness: the report identifier 0x37. -/
theorem streaming_report_fields_witness :
    ∃ l : ReportLayout, specLayout 0x37 = some l ∧
      (∀ (w : Wiimote) (wire : List Nat), w.reader = Reader.main →
        pkt wire 0 = 0xa1 → pkt wire 1 = 0x37 →
        receiverStep w wire = notifyEvent (decodeLayout l w (readInto [] wire))) ∧
      contiguous l = true ∧ (windows l).Pairwise (fun a b => a.1 + a.2 ≤ b.1) :=
  streaming_report_fields 0x37 (by decide)

/-! ## Uploads -/

theorem copyUploadData_eq (data : List Nat) (p t : Nat) (ht : t ≤ 16) (hd : List Nat)
    (hhd : hd.length = 7) :
    copyUploadData data t (hd ++ List.replicate 16 0) p =
      (hd ++ (List.range t).map (fun i => pkt data (p + i))
        ++ List.replicate (16 - t) 0, p + t) := by
  unfold copyUploadData
  induction t with
  | zero => simp
  | succ t ih =>
    rw [List.range_succ, List.foldl_append, ih (by omega)]
    simp only [List.foldl_cons, List.foldl_nil, List.map_append, List.map_cons, List.map_nil]
    have hrep : List.replicate (16 - t) 0 = 0 :: List.replicate (16 - (t + 1)) 0 := by
      have : 16 - t = (16 - (t + 1)) + 1 := by omega
      rw [this, List.replicate_succ]
    rw [hrep, List.set_append]
    have hl : (hd ++ List.map (fun i => pkt data (p + i)) (List.range t)).length = 7 + t := by
      simp [hhd]
    simp [hl]
    omega

theorem min_16 (s : Nat) : (if s > 16 then 16 else s) = min s 16 := by
  split_ifs <;> omega

theorem writeUploadPacket_eq (w : Wiimote) :
    writeUploadPacket w = { w with
      uploadDataPtr := w.uploadDataPtr + min w.uploadSize 16,
      written := w.written ++ [uploadPacket w.rumble w.uploadToRegister w.uploadStartAddress
        (min w.uploadSize 16)
        ((List.range (min w.uploadSize 16)).map (fun i => pkt w.uploadDataBuffer (w.uploadDataPtr + i)))],
      uploadStartAddress := w.uploadStartAddress + min w.uploadSize 16,
      uploadSize := w.uploadSize - min w.uploadSize 16 } := by
  have h16 : w.uploadStartAddress >>> 8 >>> 8 = w.uploadStartAddress >>> 16 := by
    rw [← Nat.shiftRight_add]
  have hmin : min w.uploadSize 16 ≤ 16 := Nat.min_le_right _ _
  have hmod : min w.uploadSize 16 % 256 = min w.uploadSize 16 := Nat.mod_eq_of_lt (by omega)
  have hhead : ∀ t : Nat,
      (((((if w.uploadToRegister then
        ([0x52, 0x16] ++ List.replicate 21 0x00 : List Nat).set 2
          (pkt ([0x52, 0x16] ++ List.replicate 21 0x00) 2 ||| 0x04)
        else [0x52, 0x16] ++ List.replicate 21 0x00).set 5 (w.uploadStartAddress &&& 0xff)).set 4
          (w.uploadStartAddress >>> 8 &&& 0xff)).set 3
          (w.uploadStartAddress >>> 8 >>> 8 &&& 0xff)).set 6 t) =
      [0x52, 0x16, if w.uploadToRegister then 4 else 0, w.uploadStartAddress >>> 16 &&& 0xff,
        w.uploadStartAddress >>> 8 &&& 0xff, w.uploadStartAddress &&& 0xff, t]
        ++ List.replicate 16 0 := by
    intro t
    rw [h16]
    cases w.uploadToRegister <;> rfl
  unfold writeUploadPacket
  simp only [min_16, hhead, hmod]
  rw [copyUploadData_eq _ _ _ hmin _ (by rfl), writePacket_eq]
  cases hr : w.rumble <;> cases ht : w.uploadToRegister <;>
    simp [uploadPacket, pkt, bitNot, hr, ht]
  all_goals decide

theorem receiverStep_ack (u : Wiimote) (a : List Nat) (hm : u.reader = Reader.main)
    (ha : u.uploadActive = true) (h0 : pkt a 0 = 0xa1) (h1 : pkt a 1 = 0x22) :
    receiverStep u a = notifyEvent
      (if pkt a 5 &&& 0x0f ≠ 0 ∨ u.uploadSize = 0 then
        { updateCoreButtons u ((a.take 21).drop 2) with
            uploadError := pkt a 5 &&& 0x0f,
            uploadCompleteCond := u.uploadCompleteCond + 1 }
      else writeUploadPacket
        { updateCoreButtons u ((a.take 21).drop 2) with uploadError := pkt a 5 &&& 0x0f }) := by
  have hs : readSize a > 0 := readSize_pos a 0 0xa1 h0 (by decide)
  have p0 : pkt (a.take 21) 0 = 0xa1 := by rw [pkt_take _ _ _ (by decide), h0]
  have p1 : pkt (a.take 21) 1 = 0x22 := by rw [pkt_take _ _ _ (by decide), h1]
  have p5 : pkt (a.take 21) 5 = pkt a 5 := pkt_take _ _ _ (by decide)
  rw [receiverStep_main u a hm]
  unfold handlePacket
  simp only [hs, p0, p1, true_and, if_true]
  simp [handleUploadAck, updateCoreButtons, ha, p5]

/-- An acknowledgment that ends the upload: error nibble nonzero or nothing left. -/
theorem receiverStep_ack_complete (u : Wiimote) (a : List Nat) (r t : Bool) (data : List Nat)
    (B p s : Nat) (W : List (List Nat)) (c : Nat) (hu : UploadInv u r t data B p s W c)
    (h0 : pkt a 0 = 0xa1) (h1 : pkt a 1 = 0x22) (hc : errorNibble a ≠ 0 ∨ s = 0) :
    UploadInv (receiverStep u a) r t data B p s W (c + 1) ∧
      (receiverStep u a).uploadError = errorNibble a := by
  have hstep := receiverStep_ack u a hu.reader hu.active h0 h1
  have hc' : pkt a 5 &&& 0x0f ≠ 0 ∨ u.uploadSize = 0 := by
    rw [hu.size]; exact hc
  rw [if_pos hc'] at hstep
  rw [hstep]
  refine ⟨⟨rfl, ?_, ?_, ?_, ?_, ?_, ?_, ?_, ?_, ?_⟩, rfl⟩
  · exact hu.active
  · exact hu.rumble
  · exact hu.toRegister
  · exact hu.data
  · exact hu.address
  · exact hu.ptr
  · exact hu.size
  · exact hu.written
  · show u.uploadCompleteCond + 1 = c + 1
    rw [hu.cond]

/-- An error-free acknowledgment with bytes left: the next packet is written. -/
theorem receiverStep_ack_next (u : Wiimote) (a : List Nat) (r t : Bool) (data : List Nat)
    (B p s : Nat) (W : List (List Nat)) (c : Nat) (hu : UploadInv u r t data B p s W c)
    (h0 : pkt a 0 = 0xa1) (h1 : pkt a 1 = 0x22) (he : errorNibble a = 0) (hs : s ≠ 0) :
    UploadInv (receiverStep u a) r t data (B + min s 16) (p + min s 16) (s - min s 16)
      (W ++ [uploadChunk r t B data p s 0]) c ∧
      (receiverStep u a).uploadError = 0 := by
  have hstep := receiverStep_ack u a hu.reader hu.active h0 h1
  have hc' : ¬ (pkt a 5 &&& 0x0f ≠ 0 ∨ u.uploadSize = 0) := by
    rw [hu.size]
    unfold errorNibble at he
    simp [he, hs]
  rw [if_neg hc', writeUploadPacket_eq] at hstep
  rw [hstep]
  unfold errorNibble at he
  refine ⟨⟨rfl, ?_, ?_, ?_, ?_, ?_, ?_, ?_, ?_, ?_⟩, ?_⟩
  · exact hu.active
  · exact hu.rumble
  · exact hu.toRegister
  · exact hu.data
  · show u.uploadStartAddress + min u.uploadSize 16 = _
    rw [hu.address, hu.size]
  · show u.uploadDataPtr + min u.uploadSize 16 = _
    rw [hu.ptr, hu.size]
  · show u.uploadSize - min u.uploadSize 16 = _
    rw [hu.size]
  · show u.written ++ [uploadPacket u.rumble u.uploadToRegister u.uploadStartAddress
      (min u.uploadSize 16)
      ((List.range (min u.uploadSize 16)).map (fun i => pkt u.uploadDataBuffer (u.uploadDataPtr + i)))] = _
    rw [hu.written, hu.rumble, hu.toRegister, hu.address, hu.size, hu.data, hu.ptr]
    simp [uploadChunk]
  · exact hu.cond
  · exact he

theorem uploadChunk_succ (r t : Bool) (B : Nat) (data : List Nat) (p s k : Nat) :
    uploadChunk r t B data p s (k + 1) = uploadChunk r t (B + 16) data (p + 16) (s - 16) k := by
  have e1 : B + 16 * (k + 1) = B + 16 + 16 * k := by omega
  have e2 : s - 16 * (k + 1) = s - 16 - 16 * k := by omega
  have e3 : ∀ i, p + 16 * (k + 1) + i = p + 16 + 16 * k + i := by intro i; omega
  unfold uploadChunk
  simp only [e1, e2, e3]

theorem receive_cons (u : Wiimote) (a : List Nat) (rest : List (List Nat)) :
    receive u (a :: rest) = receive (receiverStep u a) rest := rfl

theorem receive_nil (u : Wiimote) : receive u [] = u := rfl

/-- The state after error-free acknowledgments during an upload, starting after a
packet has been written with `s` bytes left. -/
theorem receive_cleanAcks (acks : List (List Nat)) :
    ∀ (u : Wiimote) (r t : Bool) (data : List Nat) (B p s : Nat) (W : List (List Nat)) (c : Nat),
      UploadInv u r t data B p s W c → (∀ a ∈ acks, CleanAck a) →
      acks.length ≤ chunksAfter s + 1 →
      ∃ B' p' s',
        UploadInv (receive u acks) r t data B' p' s'
          (W ++ (List.range (min acks.length (chunksAfter s))).map (uploadChunk r t B data p s))
          (c + if acks.length = chunksAfter s + 1 then 1 else 0) ∧
        s' = s - 16 * acks.length := by
  induction acks with
  | nil =>
    intro u r t data B p s W c hu _ _
    exact ⟨B, p, s, by simpa [receive_nil] using hu, by simp⟩
  | cons a rest ih =>
    intro u r t data B p s W c hu hclean hlen
    obtain ⟨a0, a1, a5⟩ := hclean a (List.mem_cons_self _ _)
    have hrest : ∀ b ∈ rest, CleanAck b := fun b hb => hclean b (List.mem_cons_of_mem _ hb)
    simp only [List.length_cons] at hlen
    rw [receive_cons]
    by_cases hs : s = 0
    · subst hs
      have hr : rest = [] := by
        have : chunksAfter 0 = 0 := rfl
        rw [this] at hlen
        exact List.length_eq_zero.mp (by omega)
      subst hr
      have h := (receiverStep_ack_complete u a r t data B p 0 W c hu a0 a1 (Or.inr rfl)).1
      refine ⟨B, p, 0, ?_, by simp⟩
      simpa [receive_nil, chunksAfter] using h
    · have h := (receiverStep_ack_next u a r t data B p s W c hu a0 a1 a5 hs).1
      have hK : chunksAfter s = chunksAfter (s - min s 16) + 1 := by
        unfold chunksAfter; omega
      obtain ⟨B', p', s', hinv, hs'⟩ := ih _ r t data _ _ _ _ c h hrest (by omega)
      refine ⟨B', p', s', ?_, ?_⟩
      · have hcount : min (rest.length + 1) (chunksAfter s) =
            min rest.length (chunksAfter (s - min s 16)) + 1 := by
          rw [hK]; omega
        have hcond : (if rest.length + 1 = chunksAfter s + 1 then 1 else 0) =
            (if rest.length = chunksAfter (s - min s 16) + 1 then 1 else 0) := by
          rw [hK]; simp
        have hlist : W ++ (List.range (min (rest.length + 1) (chunksAfter s))).map
              (uploadChunk r t B data p s) =
            W ++ [uploadChunk r t B data p s 0] ++
              (List.range (min rest.length (chunksAfter (s - min s 16)))).map
                (uploadChunk r t (B + min s 16) data (p + min s 16) (s - min s 16)) := by
          rw [hcount, List.range_succ_eq_map, List.map_cons, List.map_map, List.append_assoc]
          congr 1
          simp only [List.singleton_append]
          congr 1
          apply List.map_congr_left
          intro k hk
          have hk' : k < chunksAfter (s - min s 16) := by
            have := List.mem_range.mp hk; omega
          have h16 : min s 16 = 16 := by
            unfold chunksAfter at hk'; omega
          simp [uploadChunk_succ, h16]
        simp only [List.length_cons]
        rw [hlist, hcond]
        exact hinv
      · rw [hs']; simp only [List.length_cons]; omega

theorem uploadDataBegin_inv (w : Wiimote) (hm : w.reader = Reader.main) (toRegister : Bool)
    (address : Nat) (data : List Nat) (size : Nat) :
    UploadInv (uploadDataBegin w toRegister address data size) w.rumble toRegister data
      (address + min (size % 65536) 16) (min (size % 65536) 16)
      (size % 65536 - min (size % 65536) 16)
      (w.written ++ [uploadChunk w.rumble toRegister address data 0 (size % 65536) 0])
      w.uploadCompleteCond ∧
    (uploadDataBegin w toRegister address data size).uploadError = 0 := by
  unfold uploadDataBegin
  rw [writeUploadPacket_eq]
  refine ⟨⟨hm, rfl, rfl, rfl, rfl, ?_, ?_, ?_, ?_, rfl⟩, rfl⟩
  · simp [and_0xffff]
  · simp [and_0xffff]
  · simp [and_0xffff]
  · simp [and_0xffff, uploadChunk]

theorem range_map_pkt (data : List Nat) (q m : Nat) (h : m ≤ data.length - q) :
    (List.range m).map (fun i => pkt data (q + i)) = (data.drop q).take m := by
  apply List.ext_getElem
  · simp; omega
  · intro i h1 h2
    simp only [List.length_map, List.length_range] at h1
    simp [pkt_eq_getElem data (q + i) (by omega)]

theorem uploadChunk_eq (r t : Bool) (A : Nat) (data : List Nat) (n k : Nat)
    (hlen : data.length = n) :
    uploadChunk r t A data 0 n k =
      uploadPacket r t (A + 16 * k) (min 16 (n - 16 * k))
        ((data.drop (16 * k)).take (min 16 (n - 16 * k))) := by
  unfold uploadChunk
  rw [Nat.min_comm (n - 16 * k) 16]
  have h := range_map_pkt data (16 * k) (min 16 (n - 16 * k)) (by omega)
  simp only [Nat.zero_add]
  rw [h]

theorem awaitUploadComplete_acks (acks : List (List Nat)) :
    ∀ (u : Wiimote) (r t : Bool) (data : List Nat) (B p s : Nat) (W : List (List Nat)) (c : Nat),
      UploadInv u r t data B p s W c → (∀ a ∈ acks, FramedAck a) →
      (∀ u' rest, awaitUploadComplete u acks = some (u', rest) →
        ∃ processed, acks = processed ++ rest ∧
          (u'.uploadError = 0 ↔ ∀ a ∈ processed, errorNibble a = 0)) ∧
      ((∃ a ∈ acks, errorNibble a ≠ 0) ∨ chunksAfter s + 1 ≤ acks.length →
        (awaitUploadComplete u acks).isSome = true) := by
  induction acks with
  | nil =>
    intro u r t data B p s W c _ _
    constructor
    · intro u' rest h
      simp [awaitUploadComplete] at h
    · intro h
      rcases h with ⟨a, ha, _⟩ | h
      · simp at ha
      · simp at h
  | cons a rest0 ih =>
    intro u r t data B p s W c hu hf
    obtain ⟨a0, a1⟩ := hf a (List.mem_cons_self _ _)
    have hrest : ∀ b ∈ rest0, FramedAck b := fun b hb => hf b (List.mem_cons_of_mem _ hb)
    by_cases hc : errorNibble a ≠ 0 ∨ s = 0
    · obtain ⟨hinv, herr⟩ := receiverStep_ack_complete u a r t data B p s W c hu a0 a1 hc
      have hne : (receiverStep u a).uploadCompleteCond ≠ u.uploadCompleteCond := by
        rw [hinv.cond, hu.cond]; omega
      have hres : awaitUploadComplete u (a :: rest0) = some (receiverStep u a, rest0) := by
        simp [awaitUploadComplete, hne]
      constructor
      · intro u' rest h
        rw [hres] at h
        simp only [Option.some.injEq, Prod.mk.injEq] at h
        obtain ⟨h1, h2⟩ := h
        subst h1 h2
        refine ⟨[a], by simp, ?_⟩
        rw [herr]
        simp
      · intro _
        rw [hres]; rfl
    · have he : errorNibble a = 0 := by
        by_contra h; exact hc (Or.inl h)
      have hs : s ≠ 0 := fun h => hc (Or.inr h)
      obtain ⟨hinv, _⟩ := receiverStep_ack_next u a r t data B p s W c hu a0 a1 he hs
      have heq : (receiverStep u a).uploadCompleteCond = u.uploadCompleteCond := by
        rw [hinv.cond, hu.cond]
      have hres : awaitUploadComplete u (a :: rest0) =
          awaitUploadComplete (receiverStep u a) rest0 := by
        simp [awaitUploadComplete, heq]
      obtain ⟨ih1, ih2⟩ := ih _ r t data _ _ _ _ c hinv hrest
      constructor
      · intro u' rest h
        rw [hres] at h
        obtain ⟨processed, hp, hiff⟩ := ih1 u' rest h
        refine ⟨a :: processed, by simp [hp], ?_⟩
        rw [hiff]
        simp [he]
      · intro h
        rw [hres]
        apply ih2
        rcases h with ⟨b, hb, hbe⟩ | h
        · left
          rcases List.mem_cons.mp hb with hba | hbr
          · subst hba; exact absurd he hbe
          · exact ⟨b, hbr, hbe⟩
        · right
          have hK : chunksAfter s = chunksAfter (s - min s 16) + 1 := by
            unfold chunksAfter; omega
          simp only [List.length_cons] at h
          omega

/-! ## Downloads -/

theorem receiverStep_reply (u : Wiimote) (a : List Nat) (hm : u.reader = Reader.main)
    (h0 : pkt a 0 = 0xa1) (h1 : pkt a 1 = 0x21) :
    receiverStep u a = notifyEvent (handleDownloadReply u (a.take 21)) := by
  have hs : readSize a > 0 := readSize_pos a 0 0xa1 h0 (by decide)
  have p0 : pkt (a.take 21) 0 = 0xa1 := by rw [pkt_take _ _ _ (by decide), h0]
  have p1 : pkt (a.take 21) 1 = 0x21 := by rw [pkt_take _ _ _ (by decide), h1]
  rw [receiverStep_main u a hm]
  unfold handlePacket
  simp [hs, p0, p1]

theorem copyDownloadData_eq (packet acc : List Nat) (s d : Nat) (hd : d ≤ s) :
    copyDownloadData packet d (acc ++ List.replicate s 0) acc.length =
      (acc ++ (List.range d).map (fun i => pkt packet (7 + i)) ++ List.replicate (s - d) 0,
        acc.length + d) := by
  unfold copyDownloadData
  induction d with
  | zero => simp
  | succ d ih =>
    rw [List.range_succ, List.foldl_append, ih (by omega)]
    simp only [List.foldl_cons, List.foldl_nil, List.map_append, List.map_cons, List.map_nil]
    have hrep : List.replicate (s - d) 0 = 0 :: List.replicate (s - (d + 1)) 0 := by
      have : s - d = (s - (d + 1)) + 1 := by omega
      rw [this, List.replicate_succ]
    rw [hrep, List.set_append]
    have hl : (acc ++ List.map (fun i => pkt packet (7 + i)) (List.range d)).length
        = acc.length + d := by simp
    simp [hl]
    omega

theorem toInt_small (s : Nat) (h : s < 2147483648) : toInt s = (s : Int) := by
  unfold toInt
  have : s % 4294967296 = s := Nat.mod_eq_of_lt (by omega)
  rw [this]
  simp [h]

/-- An error-free reply carrying at most the outstanding number of bytes. -/
theorem receiverStep_reply_data (u : Wiimote) (r acc : List Nat) (s : Nat)
    (W : List (List Nat)) (c : Nat) (hu : DownloadInv u acc s W c) (hf : FramedReply r)
    (he : replyError r = 0) (hd : replySize r ≤ s) (hs : s ≤ 65535) :
    DownloadInv (receiverStep u r)
      (acc ++ (List.range (replySize r)).map (fun i => pkt (r.take 21) (7 + i)))
      (s - replySize r) W (c + if s = replySize r then 1 else 0) ∧
    (receiverStep u r).downloadError = 0 := by
  have p4 : pkt (r.take 21) 4 = pkt r 4 := pkt_take _ _ _ (by decide)
  have hpos : 0 < replySize r := by unfold replySize; omega
  have hti : toInt s = (s : Int) := toInt_small s (by omega)
  have hnle : ¬ ((s : Int) ≤ 0) := by omega
  have hmin : min (replySize r) s = replySize r := by omega
  have hsub : (s + sizeModulus - replySize r % sizeModulus) % sizeModulus = s - replySize r := by
    unfold sizeModulus
    have h1 : replySize r % 2 ^ 64 = replySize r := Nat.mod_eq_of_lt (by norm_num; omega)
    rw [h1]
    have h2 : s + 2 ^ 64 - replySize r = (s - replySize r) + 2 ^ 64 := by omega
    rw [h2, Nat.add_mod_right]
    exact Nat.mod_eq_of_lt (by norm_num; omega)
  rw [receiverStep_reply u r hu.reader hf.1 hf.2]
  unfold replyError at he
  unfold replySize at hd hmin hsub hpos
  unfold handleDownloadReply
  simp only [updateCoreButtons, hu.active, if_true, p4, he, ne_eq, not_true_eq_false, if_false,
    hu.size, hti, hnle, Int.toNat_ofNat, hmin, hu.buffer, Option.getD_some, hu.ptr,
    copyDownloadData_eq _ _ _ _ hd, hsub, Option.map_some']
  unfold replySize
  by_cases hz : s - (pkt r 4 >>> 4 + 1) = 0
  · have hsd : s = pkt r 4 >>> 4 + 1 := by omega
    simp only [hz, if_true, notifyEvent]
    refine ⟨⟨rfl, rfl, ?_, ?_, rfl, hu.written, ?_⟩, trivial⟩
    · simp [hz]
    · simp
    · simp [hu.cond, ← hsd]
  · have hsd : ¬ (s = pkt r 4 >>> 4 + 1) := by omega
    simp only [hz, if_false, notifyEvent]
    refine ⟨⟨rfl, rfl, ?_, ?_, rfl, hu.written, ?_⟩, trivial⟩
    · simp
    · simp
    · simp [hu.cond, hsd]

/-- A reply with a nonzero error nibble: the download is completed at once. -/
theorem receiverStep_reply_error (u : Wiimote) (r acc : List Nat) (s : Nat)
    (W : List (List Nat)) (c : Nat) (hu : DownloadInv u acc s W c) (hf : FramedReply r)
    (he : replyError r ≠ 0) :
    DownloadInv (receiverStep u r) acc s W (c + 1) ∧
    (receiverStep u r).downloadError = replyError r := by
  have p4 : pkt (r.take 21) 4 = pkt r 4 := pkt_take _ _ _ (by decide)
  rw [receiverStep_reply u r hu.reader hf.1 hf.2]
  unfold replyError at he ⊢
  unfold handleDownloadReply
  simp only [updateCoreButtons, hu.active, if_true, p4, ne_eq, he, not_false_eq_true, notifyEvent]
  exact ⟨⟨rfl, rfl, hu.buffer, hu.ptr, hu.size, hu.written, by simp [hu.cond]⟩, trivial⟩

theorem replyData_take (r : List Nat) (h : replySize r ≤ 14) :
    (List.range (replySize r)).map (fun i => pkt (r.take 21) (7 + i)) = replyData r := by
  unfold replyData
  apply List.map_congr_left
  intro i hi
  have := List.mem_range.mp hi
  exact pkt_take _ _ _ (by omega)

theorem fitReplies_zero (limit : Nat) (rs : List (List Nat)) (h : fitReplies limit 0 rs = true) :
    rs = [] := by
  cases rs with
  | nil => rfl
  | cons r rs =>
    simp only [fitReplies, Bool.and_eq_true, decide_eq_true_eq] at h
    have : 0 < replySize r := by unfold replySize; omega
    omega

theorem awaitDownloadComplete_fit (replies : List (List Nat)) :
    ∀ (u : Wiimote) (acc : List Nat) (s : Nat) (W : List (List Nat)) (c : Nat),
      DownloadInv u acc s W c → 0 < s → s ≤ 65535 → fitReplies 14 s replies = true →
      ∀ rest, ∃ u', awaitDownloadComplete u (replies ++ rest) = some (u', rest) ∧
        DownloadInv u' (acc ++ (replies.map replyData).flatten) 0 W (c + 1) ∧
        u'.downloadError = 0 := by
  induction replies with
  | nil =>
    intro u acc s W c _ hpos _ hfit
    simp [fitReplies] at hfit
    omega
  | cons r rs ih =>
    intro u acc s W c hu hpos hs hfit rest
    simp only [fitReplies, Bool.and_eq_true, decide_eq_true_eq, beq_iff_eq] at hfit
    obtain ⟨⟨⟨⟨hf, he⟩, h14⟩, hd⟩, hrs⟩ := hfit
    obtain ⟨hinv, herr⟩ := receiverStep_reply_data u r acc s W c hu hf he hd hs
    rw [replyData_take r h14] at hinv
    by_cases hsd : s = replySize r
    · have hrs0 : rs = [] := by
        apply fitReplies_zero 14
        rw [hsd, Nat.sub_self] at hrs
        exact hrs
      subst hrs0
      have hne : (receiverStep u r).downloadCompleteCond ≠ u.downloadCompleteCond := by
        rw [hinv.cond, hu.cond]; simp [hsd]
      refine ⟨receiverStep u r, by simp [awaitDownloadComplete, hne], ?_, herr⟩
      have h0 : s - replySize r = 0 := by omega
      rw [h0] at hinv
      simpa [hsd] using hinv
    · have heq : (receiverStep u r).downloadCompleteCond = u.downloadCompleteCond := by
        rw [hinv.cond, hu.cond]; simp [hsd]
      have hres : awaitDownloadComplete u (r :: rs ++ rest) =
          awaitDownloadComplete (receiverStep u r) (rs ++ rest) := by
        simp [awaitDownloadComplete, heq]
      simp only [hsd, if_false, Nat.add_zero] at hinv
      obtain ⟨u', hu', hinv', herr'⟩ := ih _ _ _ _ _ hinv (by omega) (by omega) hrs rest
      refine ⟨u', by rw [hres]; exact hu', ?_, herr'⟩
      simpa [List.append_assoc] using hinv'

theorem downloadDataBegin_inv (w : Wiimote) (hm : w.reader = Reader.main) (fromRegister : Bool)
    (address size : Nat) :
    DownloadInv (downloadDataBegin w fromRegister address size) [] (size % 65536)
      (w.written ++
        [[0x52, 0x17, (if fromRegister then 4 else 0) + (if w.rumble then 1 else 0),
          (address >>> 16) &&& 0xff, (address >>> 8) &&& 0xff, address &&& 0xff,
          (size >>> 8) &&& 0xff, size &&& 0xff]])
      w.downloadCompleteCond ∧
    (downloadDataBegin w fromRegister address size).downloadError = 0 := by
  refine ⟨⟨?_, ?_, ?_, ?_, ?_, downloadDataBegin_written w fromRegister address size, ?_⟩, ?_⟩
  all_goals simp [downloadDataBegin, writePacket_eq, and_0xffff, hm]

/-- A download whose error-free replies fit the receive buffer returns the
concatenation of the replies' data. -/
theorem downloadData_fit (w : Wiimote) (hm : w.reader = Reader.main)
    (ha : w.downloadActive = false) (fromRegister : Bool) (address n : Nat) (h1 : 1 ≤ n)
    (hn : n ≤ 65535) (replies : List (List Nat)) (hfit : fitReplies 14 n replies = true)
    (rest : List (List Nat)) :
    ∃ w', downloadData w fromRegister address n (replies ++ rest) =
        some ((w', some ((replies.map replyData).flatten)), rest) ∧
      w'.downloadActive = false ∧ w'.downloadDataBuffer = none ∧
      w'.downloadCompleteCond = w.downloadCompleteCond + 1 := by
  have hmod : n % 65536 = n := Nat.mod_eq_of_lt (by omega)
  obtain ⟨hb, _⟩ := downloadDataBegin_inv w hm fromRegister address n
  rw [hmod] at hb
  obtain ⟨u', hu', hinv, herr⟩ :=
    awaitDownloadComplete_fit replies _ _ _ _ _ hb (by omega) hn hfit rest
  refine ⟨(downloadDataEnd u').1, ?_, ?_, ?_, ?_⟩
  · unfold downloadData
    simp only [ha, Bool.false_eq_true, if_false, hu']
    simp [downloadDataEnd, herr, hinv.buffer]
  · simp [downloadDataEnd, herr]
  · simp [downloadDataEnd, herr]
  · simp [downloadDataEnd, herr, hinv.cond]

/-! ## Reports that do not complete a download -/

theorem writePacket_dcc (w : Wiimote) (p : List Nat) :
    (writePacket w p).downloadCompleteCond = w.downloadCompleteCond := by
  rw [writePacket_eq]

theorem notifyEvent_dcc (w : Wiimote) :
    (notifyEvent w).downloadCompleteCond = w.downloadCompleteCond := rfl

theorem updateCoreButtons_dcc (w : Wiimote) (d : List Nat) :
    (updateCoreButtons w d).downloadCompleteCond = w.downloadCompleteCond := rfl

theorem updateCoreAccelerometers_dcc (w : Wiimote) (b a : List Nat) :
    (updateCoreAccelerometers w b a).downloadCompleteCond = w.downloadCompleteCond := rfl

theorem storeTarget_dcc (w : Wiimote) (slot x y : Nat) :
    (storeTarget w slot x y).downloadCompleteCond = w.downloadCompleteCond := by
  unfold storeTarget
  split_ifs <;> rfl

theorem updateIRTrackingBasic_dcc (w : Wiimote) (d : List Nat) :
    (updateIRTrackingBasic w d).downloadCompleteCond = w.downloadCompleteCond := by
  simp [updateIRTrackingBasic, range_two, storeTarget_dcc]

theorem updateIRTrackingExtended_dcc (w : Wiimote) (d : List Nat) :
    (updateIRTrackingExtended w d).downloadCompleteCond = w.downloadCompleteCond := by
  simp [updateIRTrackingExtended, range_four, storeTarget_dcc]

theorem updateExtension_dcc (w : Wiimote) (d : List Nat) :
    (updateExtension w d).downloadCompleteCond = w.downloadCompleteCond := by
  unfold updateExtension
  simp only []
  split_ifs <;> rfl

theorem finishStatus_dcc (w : Wiimote) (p : List Nat) :
    (finishStatus w p).downloadCompleteCond = w.downloadCompleteCond := by
  unfold finishStatus
  rw [notifyEvent_dcc, writePacket_dcc]

theorem setReportingModeInside_dcc (w : Wiimote) :
    (setReportingModeInside w).downloadCompleteCond = w.downloadCompleteCond := by
  unfold setReportingModeInside
  by_cases h : w.readIRTracking = true
  · simp only [if_pos h]
    exact writePacket_dcc _ _
  · simp only [if_neg h]
    exact finishStatus_dcc _ _

theorem handleStatus_dcc (w : Wiimote) (p : List Nat) :
    (handleStatus w p).downloadCompleteCond = w.downloadCompleteCond := by
  unfold handleStatus
  by_cases h : pkt p 4 &&& 0x02 ≠ 0
  · simp only [if_pos h]
    exact writePacket_dcc _ _
  · simp only [if_neg h]
    rw [setReportingModeInside_dcc]
    rfl

theorem writeUploadPacket_dcc (w : Wiimote) :
    (writeUploadPacket w).downloadCompleteCond = w.downloadCompleteCond := by
  rw [writeUploadPacket_eq]

theorem handleUploadAck_dcc (w : Wiimote) (p : List Nat) :
    (handleUploadAck w p).downloadCompleteCond = w.downloadCompleteCond := by
  unfold handleUploadAck
  simp only []
  split_ifs
  · rfl
  · exact writeUploadPacket_dcc _
  · rfl

theorem handlePacket_dcc (w : Wiimote) (p : List Nat) (n : Nat) (h : pkt p 1 ≠ 0x21) :
    (handlePacket w p n).downloadCompleteCond = w.downloadCompleteCond := by
  unfold handlePacket
  by_cases hf : n > 0 ∧ pkt p 0 = 0xa1
  · rw [if_pos hf]
    by_cases h20 : pkt p 1 = 0x20
    · rw [if_pos h20]; exact handleStatus_dcc _ _
    · rw [if_neg h20, if_neg h]
      repeat' split
      all_goals
        simp only [notifyEvent_dcc, handleUploadAck_dcc, updateExtension_dcc,
          updateIRTrackingBasic_dcc, updateIRTrackingExtended_dcc, updateCoreButtons_dcc,
          updateCoreAccelerometers_dcc]
  · rw [if_neg hf]

/-- A report other than a data download reply leaves `downloadCompleteCond` alone. -/
theorem receiverStep_dcc (w : Wiimote) (wire : List Nat) (h : pkt wire 1 ≠ 0x21) :
    (receiverStep w wire).downloadCompleteCond = w.downloadCompleteCond := by
  cases hr : w.reader with
  | main =>
    rw [receiverStep_main w wire hr]
    exact handlePacket_dcc w _ _ (by rw [pkt_take _ _ _ (by decide)]; exact h)
  | enableAck buffer =>
    unfold receiverStep
    rw [hr]
    simp only []
    split_ifs <;> simp only [writePacket_dcc]
  | extensionType buffer =>
    unfold receiverStep
    rw [hr]
    simp only []
    split_ifs <;> simp only [writePacket_dcc, setReportingModeInside_dcc]
  | calibration buffer =>
    unfold receiverStep
    rw [hr]
    simp only []
    split_ifs
    · rfl
    · rw [setReportingModeInside_dcc]; rfl
  | irModeAck buffer requestData =>
    unfold receiverStep
    rw [hr]
    simp only []
    split_ifs <;> simp only [finishStatus_dcc]

theorem awaitDownloadComplete_blocked (incoming : List (List Nat)) :
    ∀ (u : Wiimote), (∀ p ∈ incoming, pkt p 1 ≠ 0x21) → awaitDownloadComplete u incoming = none := by
  induction incoming with
  | nil => intro u _; rfl
  | cons p rest ih =>
    intro u h
    have hp := receiverStep_dcc u p (h p (List.mem_cons_self _ _))
    simp only [awaitDownloadComplete, hp, ne_eq, not_true_eq_false, if_false]
    exact ih _ (fun q hq => h q (List.mem_cons_of_mem _ hq))

theorem awaitDownloadComplete_error (u : Wiimote) (acc : List Nat) (s : Nat)
    (W : List (List Nat)) (c : Nat) (hu : DownloadInv u acc s W c) (r : List Nat)
    (hf : FramedReply r) (he : replyError r ≠ 0) (rest : List (List Nat)) :
    awaitDownloadComplete u (r :: rest) = some (receiverStep u r, rest) := by
  obtain ⟨hinv, _⟩ := receiverStep_reply_error u r acc s W c hu hf he
  have hne : (receiverStep u r).downloadCompleteCond ≠ u.downloadCompleteCond := by
    rw [hinv.cond, hu.cond]; omega
  simp [awaitDownloadComplete, hne]

/-- C6, counterexample: a download of length 0 from the initial state, with no reply
arriving, has no bytes outstanding and yet does not return. -/
theorem download_zero_length_blocks :
    (downloadDataBegin initial false 0x16 0).downloadSize = 0 ∧
    downloadData initial false 0x16 0 [] = none := by
  exact ⟨by decide, rfl⟩

/-- C6, amended: a download of length 0 writes the single read request, with length
bytes 0, 0, and allocates an empty buffer, and `downloadData` writes no further
packet; it does not complete at once: it stays blocked while no data download reply
arrives, and it returns the null pointer once a reply with a nonzero error nibble
has been handled. -/
theorem download_zero_length (w : Wiimote) (hm : w.reader = Reader.main)
    (ha : w.downloadActive = false) (fromRegister : Bool) (address : Nat) :
    (downloadDataBegin w fromRegister address 0).written = w.written ++
      [[0x52, 0x17, (if fromRegister then 4 else 0) + (if w.rumble then 1 else 0),
        (address >>> 16) &&& 0xff, (address >>> 8) &&& 0xff, address &&& 0xff, 0, 0]] ∧
    (downloadDataBegin w fromRegister address 0).downloadDataBuffer = some [] ∧
    (∀ incoming : List (List Nat), (∀ p ∈ incoming, pkt p 1 ≠ 0x21) →
      downloadData w fromRegister address 0 incoming = none) ∧
    (∀ (r : List Nat) (rest : List (List Nat)), FramedReply r → replyError r ≠ 0 →
      ∃ w', downloadData w fromRegister address 0 (r :: rest) = some ((w', none), rest) ∧
        w'.written = (downloadDataBegin w fromRegister address 0).written) := by
  obtain ⟨hb, _⟩ := downloadDataBegin_inv w hm fromRegister address 0
  refine ⟨?_, ?_, ?_, ?_⟩
  · rw [downloadDataBegin_written]
    simp
  · rw [hb.buffer]
    simp
  · intro incoming h
    unfold downloadData
    simp only [ha, Bool.false_eq_true, if_false, awaitDownloadComplete_blocked incoming _ h]
  · intro r rest hf he
    obtain ⟨hinv, herr⟩ := receiverStep_reply_error _ r _ _ _ _ hb hf he
    refine ⟨(downloadDataEnd (receiverStep (downloadDataBegin w fromRegister address 0) r)).1,
      ?_, ?_⟩
    · unfold downloadData
      simp only [ha, Bool.false_eq_true, if_false,
        awaitDownloadComplete_error _ _ _ _ _ hb r hf he rest]
      have : (receiverStep (downloadDataBegin w fromRegister address 0) r).downloadError ≠ 0 := by
        rw [herr]; exact he
      simp [downloadDataEnd, this]
    · have : (receiverStep (downloadDataBegin w fromRegister address 0) r).downloadError ≠ 0 := by
        rw [herr]; exact he
      simp [downloadDataEnd, this, hinv.written, hb.written]

/-- C6, witness: a download of length 0 from register 0xa400fe, from the initial
state. -/
theorem download_zero_length_witness :
    (downloadDataBegin initial true 0xa400fe 0).written = initial.written ++
      [[0x52, 0x17, (if true then 4 else 0) + (if initial.rumble then 1 else 0),
        (0xa400fe >>> 16) &&& 0xff, (0xa400fe >>> 8) &&& 0xff, 0xa400fe &&& 0xff, 0, 0]] ∧
    (downloadDataBegin initial true 0xa400fe 0).downloadDataBuffer = some [] ∧
    (∀ incoming : List (List Nat), (∀ p ∈ incoming, pkt p 1 ≠ 0x21) →
      downloadData initial true 0xa400fe 0 incoming = none) ∧
    (∀ (r : List Nat) (rest : List (List Nat)), FramedReply r → replyError r ≠ 0 →
      ∃ w', downloadData initial true 0xa400fe 0 (r :: rest) = some ((w', none), rest) ∧
        w'.written = (downloadDataBegin initial true 0xa400fe 0).written) :=
  download_zero_length initial rfl rfl true 0xa400fe

/-- C5, counterexample: a download that receives a reply with error nibble 8 returns
the null pointer, and so does one that receives error nibble 7: the value returned
to the caller carries no error code. -/
theorem download_error_code_not_returned :
    (downloadData initial false 0x16 8 [[0xa1, 0x21, 0, 0, 0x08, 0, 0x16]]).map
        (fun r => r.1.2) = some none ∧
    (downloadData initial false 0x16 8 [[0xa1, 0x21, 0, 0, 0x07, 0, 0x16]]).map
        (fun r => r.1.2) = some none := by
  exact ⟨by decide, by decide⟩

/-- C5, amended: when a reply with error nibble 8 arrives during an active download
A (with any partial data `acc` stored so far), completion is signalled at that
reply, A returns the null pointer, the code 8 stays in `downloadError`, the
download-active flag is cleared, and a subsequent download B whose error-free
replies carry at most 14 data bytes each returns exactly the concatenation of B's
reply data. -/
theorem download_error_frees_slot (u : Wiimote) (acc : List Nat) (s : Nat)
    (W : List (List Nat)) (c : Nat) (hu : DownloadInv u acc s W c) (r : List Nat)
    (hf : FramedReply r) (he : replyError r = 8) (rest : List (List Nat)) :
    awaitDownloadComplete u (r :: rest) = some (receiverStep u r, rest) ∧
    (downloadDataEnd (receiverStep u r)).2 = none ∧
    (downloadDataEnd (receiverStep u r)).1.downloadError = 8 ∧
    (downloadDataEnd (receiverStep u r)).1.downloadActive = false ∧
    (∀ (fromRegister : Bool) (address n : Nat) (replies rest' : List (List Nat)),
      1 ≤ n → n ≤ 65535 → fitReplies 14 n replies = true →
      ∃ w', downloadData (downloadDataEnd (receiverStep u r)).1 fromRegister address n
          (replies ++ rest') = some ((w', some ((replies.map replyData).flatten)), rest')) := by
  have he' : replyError r ≠ 0 := by rw [he]; decide
  obtain ⟨hinv, herr⟩ := receiverStep_reply_error u r acc s W c hu hf he'
  have h8 : (receiverStep u r).downloadError = 8 := by rw [herr, he]
  have hne : (receiverStep u r).downloadError ≠ 0 := by rw [h8]; decide
  refine ⟨awaitDownloadComplete_error u acc s W c hu r hf he' rest, ?_, ?_, ?_, ?_⟩
  · simp [downloadDataEnd, hne]
  · simp [downloadDataEnd, hne, h8]
  · simp [downloadDataEnd, hne]
  · intro fromRegister address n replies rest' h1 hn hfit
    obtain ⟨w', hw', _⟩ := downloadData_fit (downloadDataEnd (receiverStep u r)).1
      (by simp [downloadDataEnd, hne, hinv.reader]) (by simp [downloadDataEnd, hne])
      fromRegister address n h1 hn replies hfit rest'
    exact ⟨w', hw'⟩

/-- C5, witness: the download of 8 bytes from address 0x16 started from the initial
state, answered by a reply with error nibble 8. -/
theorem download_error_frees_slot_witness :
    awaitDownloadComplete (downloadDataBegin initial false 0x16 8)
        ([0xa1, 0x21, 0, 0, 0x08, 0, 0x16] :: []) =
      some (receiverStep (downloadDataBegin initial false 0x16 8)
        [0xa1, 0x21, 0, 0, 0x08, 0, 0x16], []) ∧
    (downloadDataEnd (receiverStep (downloadDataBegin initial false 0x16 8)
      [0xa1, 0x21, 0, 0, 0x08, 0, 0x16])).2 = none ∧
    (downloadDataEnd (receiverStep (downloadDataBegin initial false 0x16 8)
      [0xa1, 0x21, 0, 0, 0x08, 0, 0x16])).1.downloadError = 8 ∧
    (downloadDataEnd (receiverStep (downloadDataBegin initial false 0x16 8)
      [0xa1, 0x21, 0, 0, 0x08, 0, 0x16])).1.downloadActive = false ∧
    (∀ (fromRegister : Bool) (address n : Nat) (replies rest' : List (List Nat)),
      1 ≤ n → n ≤ 65535 → fitReplies 14 n replies = true →
      ∃ w', downloadData (downloadDataEnd (receiverStep (downloadDataBegin initial false 0x16 8)
          [0xa1, 0x21, 0, 0, 0x08, 0, 0x16])).1 fromRegister address n
          (replies ++ rest') = some ((w', some ((replies.map replyData).flatten)), rest')) :=
  download_error_frees_slot (downloadDataBegin initial false 0x16 8) _ _ _ _
    (downloadDataBegin_inv initial rfl false 0x16 8).1 [0xa1, 0x21, 0, 0, 0x08, 0, 0x16]
    (by decide) (by decide) []

/-- C4, failing input: a download of 16 bytes answered by one error-free reply that
carries 16 data bytes (a 23-byte report). The reply fits the download and its data
are the bytes 1 to 16, but `read` stores only 21 bytes of it in `packet`, and the
buffer returned to the caller is not the reply's data: it is the same for two
replies that differ in their last two data bytes. -/
theorem download_sixteen_byte_reply :
    fitReplies 16 16 [reply16 15 16] = true ∧
    replyData (reply16 15 16) = [1, 2, 3, 4, 5, 6, 7, 8, 9, 10, 11, 12, 13, 14, 15, 16] ∧
    (downloadData initial false 0 16 [reply16 15 16]).map (fun r => r.1.2) ≠
      some (some (replyData (reply16 15 16))) ∧
    replyData (reply16 15 16) ≠ replyData (reply16 99 98) ∧
    (downloadData initial false 0 16 [reply16 15 16]).map (fun r => r.1.2) =
      (downloadData initial false 0 16 [reply16 99 98]).map (fun r => r.1.2) := by
  refine ⟨by decide, by decide, by decide, by decide, by decide⟩

/-! ## Accelerometer values -/

theorem shiftLeft_two_or (x r : Nat) (h : r < 4) : (x <<< 2) ||| r = 4 * x + r := by
  rw [Nat.shiftLeft_eq, Nat.mul_comm]
  exact (Nat.mul_add_lt_is_or (i := 2) h x).symm

theorem shiftLeft_one_or (x r : Nat) (h : r < 2) : (x <<< 1) ||| r = 2 * x + r := by
  rw [Nat.shiftLeft_eq, Nat.mul_comm]
  exact (Nat.mul_add_lt_is_or (i := 1) h x).symm

theorem and_three_lt (y : Nat) : y &&& 3 < 4 :=
  Nat.lt_of_le_of_lt Nat.and_le_right (by decide)

theorem and_three (y : Nat) : y &&& 3 = y % 4 := by
  have h : (3 : Nat) = 2 ^ 2 - 1 := by norm_num
  rw [h, Nat.and_pow_two_sub_one_eq_mod]

theorem decryptByte_lt (b : Nat) : decryptByte b < 256 := by
  unfold decryptByte
  exact Nat.mod_lt _ (by decide)

theorem decryptLoop_block (d : List Nat) (hd : d.length = 6) (j : Nat) (hj : j < 6) :
    pkt ((List.range 6).foldl (fun (d : List Nat) i => d.set i (decryptByte (pkt d i))) d) j =
      decryptByte (pkt d j) := by
  rw [decryptLoop_pkt]
  simp [hj, hd]

theorem updateExtension_raw (w : Wiimote) (block : List Nat) (hb : block.length = 6)
    (hn : w.extensionDevice = Extension.NUNCHUK) (ha : w.readAccelerometers = true) (i : Nat)
    (hi : i < 3) :
    (updateExtension w block).rawAccelerometers (3 + i) =
      (decryptByte (pkt block (2 + i)) <<< 2) |||
        ((decryptByte (pkt block 5) >>> (2 + 2 * i)) &&& 0x03) := by
  unfold updateExtension
  simp only [hn, ha, if_true]
  interval_cases i <;>
    simp [Function.update, decryptLoop_block block hb]

/-- C12: with extension identity NUNCHUK and accelerometers requested, for every
6-byte extension block, with `d j` the de-obfuscated byte `j`, the raw extension
accelerometer value of axis `i` is `4 * d (2+i) + ((d 5 >> (2+2i)) & 3)`; it is below
1024, its upper 8 bits are `d (2+i)` and its lower 2 bits the field of byte 5; byte 5
is made up of the two button bits and the three 2-bit fields, which do not overlap. -/
theorem extension_accelerometer_raw (w : Wiimote) (block : List Nat) (hb : block.length = 6)
    (hn : w.extensionDevice = Extension.NUNCHUK) (ha : w.readAccelerometers = true) (i : Nat)
    (hi : i < 3) :
    (updateExtension w block).rawAccelerometers (3 + i) =
      4 * decryptByte (pkt block (2 + i)) +
        ((decryptByte (pkt block 5) >>> (2 + 2 * i)) &&& 3) ∧
    (updateExtension w block).rawAccelerometers (3 + i) < 1024 ∧
    (updateExtension w block).rawAccelerometers (3 + i) / 4 = decryptByte (pkt block (2 + i)) ∧
    (updateExtension w block).rawAccelerometers (3 + i) % 4 =
      ((decryptByte (pkt block 5) >>> (2 + 2 * i)) &&& 3) ∧
    decryptByte (pkt block 5) =
      (decryptByte (pkt block 5) &&& 3) + 4 * ((decryptByte (pkt block 5) >>> 2) &&& 3)
        + 16 * ((decryptByte (pkt block 5) >>> 4) &&& 3)
        + 64 * ((decryptByte (pkt block 5) >>> 6) &&& 3) := by
  have hraw := updateExtension_raw w block hb hn ha i hi
  rw [shiftLeft_two_or _ _ (and_three_lt _)] at hraw
  have hlt := and_three_lt (decryptByte (pkt block 5) >>> (2 + 2 * i))
  have hd := decryptByte_lt (pkt block (2 + i))
  have h5 := decryptByte_lt (pkt block 5)
  refine ⟨hraw, ?_, ?_, ?_, ?_⟩
  · rw [hraw]; omega
  · rw [hraw]; omega
  · rw [hraw]; omega
  · simp only [and_three, Nat.shiftRight_eq_div_pow]
    omega

/-- C12, witness: the extension block `00 01 02 03 04 05` decoded with a nunchuk
attached and accelerometers requested, axis 1. -/
theorem extension_accelerometer_raw_witness :
    (updateExtension nunchukState [0, 1, 2, 3, 4, 5]).rawAccelerometers (3 + 1) =
      4 * decryptByte (pkt [0, 1, 2, 3, 4, 5] (2 + 1)) +
        ((decryptByte (pkt [0, 1, 2, 3, 4, 5] 5) >>> (2 + 2 * 1)) &&& 3) ∧
    (updateExtension nunchukState [0, 1, 2, 3, 4, 5]).rawAccelerometers (3 + 1) < 1024 ∧
    (updateExtension nunchukState [0, 1, 2, 3, 4, 5]).rawAccelerometers (3 + 1) / 4 =
      decryptByte (pkt [0, 1, 2, 3, 4, 5] (2 + 1)) ∧
    (updateExtension nunchukState [0, 1, 2, 3, 4, 5]).rawAccelerometers (3 + 1) % 4 =
      ((decryptByte (pkt [0, 1, 2, 3, 4, 5] 5) >>> (2 + 2 * 1)) &&& 3) ∧
    decryptByte (pkt [0, 1, 2, 3, 4, 5] 5) =
      (decryptByte (pkt [0, 1, 2, 3, 4, 5] 5) &&& 3)
        + 4 * ((decryptByte (pkt [0, 1, 2, 3, 4, 5] 5) >>> 2) &&& 3)
        + 16 * ((decryptByte (pkt [0, 1, 2, 3, 4, 5] 5) >>> 4) &&& 3)
        + 64 * ((decryptByte (pkt [0, 1, 2, 3, 4, 5] 5) >>> 6) &&& 3) :=
  extension_accelerometer_raw nunchukState [0, 1, 2, 3, 4, 5] rfl rfl rfl 1 (by decide)

theorem updateCoreAccelerometers_raw (w : Wiimote) (b a : List Nat) :
    (updateCoreAccelerometers w b a).rawAccelerometers 0 =
        2 * pkt a 0 + (pkt b 0 >>> 6) % 2 ∧
    (updateCoreAccelerometers w b a).rawAccelerometers 1 =
        2 * pkt a 1 + (pkt b 1 >>> 5) % 2 ∧
    (updateCoreAccelerometers w b a).rawAccelerometers 2 =
        2 * pkt a 2 + (pkt b 1 >>> 6) % 2 := by
  unfold updateCoreAccelerometers
  simp only [Function.update]
  simp [shiftLeft_one_or, Nat.mod_lt]

/-- C13, counterexample: with accelerometer byte 1 for the first axis and a button
prefix of zeros, the raw value is 2: its upper 8 bits as a 10-bit value are 0, not the
accelerometer byte, and its lower 2 bits are not zero although every bit of the
prefix is. -/
theorem core_accelerometer_not_ten_bit :
    (updateCoreAccelerometers initial [0, 0] [1, 0, 0]).rawAccelerometers 0 = 2 ∧
    (updateCoreAccelerometers initial [0, 0] [1, 0, 0]).rawAccelerometers 0 / 4 ≠
      pkt [1, 0, 0] 0 ∧
    (updateCoreAccelerometers initial [0, 0] [1, 0, 0]).rawAccelerometers 0 % 4 ≠ 0 := by
  refine ⟨by decide, by decide, by decide⟩

/-- C13, amended: each raw core accelerometer value produced by
`updateCoreAccelerometers` is a 9-bit value (0..511) whose upper 8 bits are the
axis's accelerometer byte and whose lowest bit is one bit of the button prefix: bit 6
of byte 0 for axis 0, bit 5 of byte 1 for axis 1, bit 6 of byte 1 for axis 2. -/
theorem core_accelerometer_raw (w : Wiimote) (b a : List Nat) (ha : ∀ x ∈ a, x < 256)
    (i : Nat) (hi : i < 3) :
    (updateCoreAccelerometers w b a).rawAccelerometers i < 512 ∧
    (updateCoreAccelerometers w b a).rawAccelerometers i / 2 = pkt a i ∧
    ((updateCoreAccelerometers w b a).rawAccelerometers i).testBit 0 =
      (if i = 0 then (pkt b 0).testBit 6
       else if i = 1 then (pkt b 1).testBit 5 else (pkt b 1).testBit 6) := by
  obtain ⟨h0, h1, h2⟩ := updateCoreAccelerometers_raw w b a
  have hlt : pkt a i < 256 := by
    by_cases hl : i < a.length
    · exact pkt_mem_lt a 256 ha i hl
    · rw [pkt_of_length_le a i (by omega)]; decide
  interval_cases i
  · rw [h0]
    refine ⟨by omega, by omega, ?_⟩
    simp [Nat.testBit_to_div_mod, Nat.shiftRight_eq_div_pow]
    omega
  · rw [h1]
    refine ⟨by omega, by omega, ?_⟩
    simp [Nat.testBit_to_div_mod, Nat.shiftRight_eq_div_pow]
    omega
  · rw [h2]
    refine ⟨by omega, by omega, ?_⟩
    simp [Nat.testBit_to_div_mod, Nat.shiftRight_eq_div_pow]
    omega

/-- C13, witness: the accelerometer triple `80 81 82` with button prefix `40 20`. -/
theorem core_accelerometer_raw_witness :
    (updateCoreAccelerometers initial [0x40, 0x20] [0x80, 0x81, 0x82]).rawAccelerometers 1
      < 512 ∧
    (updateCoreAccelerometers initial [0x40, 0x20] [0x80, 0x81, 0x82]).rawAccelerometers 1 / 2
      = pkt [0x80, 0x81, 0x82] 1 ∧
    ((updateCoreAccelerometers initial [0x40, 0x20] [0x80, 0x81, 0x82]).rawAccelerometers
        1).testBit 0 =
      (if 1 = 0 then (pkt [0x40, 0x20] 0).testBit 6
       else if 1 = 1 then (pkt [0x40, 0x20] 1).testBit 5 else (pkt [0x40, 0x20] 1).testBit 6) :=
  core_accelerometer_raw initial [0x40, 0x20] [0x80, 0x81, 0x82] (by decide) 1 (by decide)

/-! ## IR targets -/

theorem updateIRTrackingBasic_eq (w : Wiimote) (d : List Nat) :
    updateIRTrackingBasic w d =
      storeTarget (storeTarget (storeTarget (storeTarget w 0 (basicX0 d 0) (basicY0 d 0))
        1 (basicX1 d 0) (basicY1 d 0)) 2 (basicX0 d 1) (basicY0 d 1))
        3 (basicX1 d 1) (basicY1 d 1) := by
  simp [updateIRTrackingBasic, range_two, basicX0, basicY0, basicX1, basicY1]

theorem updateIRTrackingExtended_eq (w : Wiimote) (d : List Nat) :
    updateIRTrackingExtended w d =
      storeTarget (storeTarget (storeTarget (storeTarget w 0 (extendedX d 0) (extendedY d 0))
        1 (extendedX d 1) (extendedY d 1)) 2 (extendedX d 2) (extendedY d 2))
        3 (extendedX d 3) (extendedY d 3) := by
  simp [updateIRTrackingExtended, range_four, extendedX, extendedY]

theorem storeTarget_trackValids (w : Wiimote) (s x y t : Nat) :
    (storeTarget w s x y).trackValids t =
      if t = s then decide (x ≠ 0x3ff ∧ y ≠ 0x3ff) else w.trackValids t := by
  unfold storeTarget
  by_cases h : x ≠ 0x3ff ∧ y ≠ 0x3ff
  · rw [if_pos h]
    by_cases ht : t = s
    · subst ht; simp [h]
    · simp [Function.update, ht]
  · rw [if_neg h]
    by_cases ht : t = s
    · subst ht; simp [h]
    · simp [Function.update, ht]

theorem storeTarget_trackXs (w : Wiimote) (s x y t : Nat) :
    (storeTarget w s x y).trackXs t =
      if t = s ∧ x ≠ 0x3ff ∧ y ≠ 0x3ff then (x : ℚ) else w.trackXs t := by
  unfold storeTarget
  by_cases h : x ≠ 0x3ff ∧ y ≠ 0x3ff
  · rw [if_pos h]
    by_cases ht : t = s
    · subst ht; simp [h]
    · simp [Function.update, ht]
  · rw [if_neg h]
    simp [h]

theorem storeTarget_trackYs (w : Wiimote) (s x y t : Nat) :
    (storeTarget w s x y).trackYs t =
      if t = s ∧ x ≠ 0x3ff ∧ y ≠ 0x3ff then (y : ℚ) else w.trackYs t := by
  unfold storeTarget
  by_cases h : x ≠ 0x3ff ∧ y ≠ 0x3ff
  · rw [if_pos h]
    by_cases ht : t = s
    · subst ht; simp [h]
    · simp [Function.update, ht]
  · rw [if_neg h]
    simp [h]

theorem decide_eq_false_iff_or (x y : Nat) :
    (decide (x ≠ 0x3ff ∧ y ≠ 0x3ff) = false) ↔ (x = 0x3ff ∨ y = 0x3ff) := by
  simp only [decide_eq_false_iff_not]
  constructor
  · intro h
    by_contra hc
    push_neg at hc
    exact h hc
  · rintro (h | h) ⟨hx, hy⟩
    · exact hx h
    · exact hy h

theorem updateIRTrackingBasic_trackValids (w : Wiimote) (d : List Nat) :
    (updateIRTrackingBasic w d).trackValids 0 =
        decide (basicX0 d 0 ≠ 0x3ff ∧ basicY0 d 0 ≠ 0x3ff) ∧
    (updateIRTrackingBasic w d).trackValids 1 =
        decide (basicX1 d 0 ≠ 0x3ff ∧ basicY1 d 0 ≠ 0x3ff) ∧
    (updateIRTrackingBasic w d).trackValids 2 =
        decide (basicX0 d 1 ≠ 0x3ff ∧ basicY0 d 1 ≠ 0x3ff) ∧
    (updateIRTrackingBasic w d).trackValids 3 =
        decide (basicX1 d 1 ≠ 0x3ff ∧ basicY1 d 1 ≠ 0x3ff) := by
  rw [updateIRTrackingBasic_eq]
  simp [storeTarget_trackValids]

theorem updateIRTrackingExtended_trackValids (w : Wiimote) (d : List Nat) :
    (updateIRTrackingExtended w d).trackValids 0 =
        decide (extendedX d 0 ≠ 0x3ff ∧ extendedY d 0 ≠ 0x3ff) ∧
    (updateIRTrackingExtended w d).trackValids 1 =
        decide (extendedX d 1 ≠ 0x3ff ∧ extendedY d 1 ≠ 0x3ff) ∧
    (updateIRTrackingExtended w d).trackValids 2 =
        decide (extendedX d 2 ≠ 0x3ff ∧ extendedY d 2 ≠ 0x3ff) ∧
    (updateIRTrackingExtended w d).trackValids 3 =
        decide (extendedX d 3 ≠ 0x3ff ∧ extendedY d 3 ≠ 0x3ff) := by
  rw [updateIRTrackingExtended_eq]
  simp [storeTarget_trackValids]

/-- C14: in both IR decoders, for every input block and every target slot, the
slot's valid flag after decoding is false iff the slot's decoded x or decoded y is
0x3FF; so a pair (0x3FF, 0x3FF) gives valid = false, and in basic mode the validity of
a slot depends on its own coordinates only: the four validity combinations of the
two slots of a group are all attained. -/
theorem ir_valid_iff_not_sentinel (w : Wiimote) (d : List Nat) :
    (((updateIRTrackingBasic w d).trackValids 0 = false ↔
        (basicX0 d 0 = 0x3ff ∨ basicY0 d 0 = 0x3ff)) ∧
      ((updateIRTrackingBasic w d).trackValids 1 = false ↔
        (basicX1 d 0 = 0x3ff ∨ basicY1 d 0 = 0x3ff)) ∧
      ((updateIRTrackingBasic w d).trackValids 2 = false ↔
        (basicX0 d 1 = 0x3ff ∨ basicY0 d 1 = 0x3ff)) ∧
      ((updateIRTrackingBasic w d).trackValids 3 = false ↔
        (basicX1 d 1 = 0x3ff ∨ basicY1 d 1 = 0x3ff))) ∧
    (((updateIRTrackingExtended w d).trackValids 0 = false ↔
        (extendedX d 0 = 0x3ff ∨ extendedY d 0 = 0x3ff)) ∧
      ((updateIRTrackingExtended w d).trackValids 1 = false ↔
        (extendedX d 1 = 0x3ff ∨ extendedY d 1 = 0x3ff)) ∧
      ((updateIRTrackingExtended w d).trackValids 2 = false ↔
        (extendedX d 2 = 0x3ff ∨ extendedY d 2 = 0x3ff)) ∧
      ((updateIRTrackingExtended w d).trackValids 3 = false ↔
        (extendedX d 3 = 0x3ff ∨ extendedY d 3 = 0x3ff))) ∧
    ((updateIRTrackingBasic w [0, 0, 0x00, 0, 0]).trackValids 0 = true ∧
      (updateIRTrackingBasic w [0, 0, 0x00, 0, 0]).trackValids 1 = true) ∧
    ((updateIRTrackingBasic w [0, 0, 0x03, 0xff, 0]).trackValids 0 = true ∧
      (updateIRTrackingBasic w [0, 0, 0x03, 0xff, 0]).trackValids 1 = false) ∧
    ((updateIRTrackingBasic w [0xff, 0, 0x30, 0, 0]).trackValids 0 = false ∧
      (updateIRTrackingBasic w [0xff, 0, 0x30, 0, 0]).trackValids 1 = true) ∧
    ((updateIRTrackingBasic w [0xff, 0xff, 0xff, 0xff, 0xff]).trackValids 0 = false ∧
      (updateIRTrackingBasic w [0xff, 0xff, 0xff, 0xff, 0xff]).trackValids 1 = false) := by
  obtain ⟨b0, b1, b2, b3⟩ := updateIRTrackingBasic_trackValids w d
  obtain ⟨e0, e1, e2, e3⟩ := updateIRTrackingExtended_trackValids w d
  refine ⟨⟨?_, ?_, ?_, ?_⟩, ⟨?_, ?_, ?_, ?_⟩, ⟨?_, ?_⟩, ⟨?_, ?_⟩, ⟨?_, ?_⟩, ⟨?_, ?_⟩⟩
  · rw [b0]; exact decide_eq_false_iff_or _ _
  · rw [b1]; exact decide_eq_false_iff_or _ _
  · rw [b2]; exact decide_eq_false_iff_or _ _
  · rw [b3]; exact decide_eq_false_iff_or _ _
  · rw [e0]; exact decide_eq_false_iff_or _ _
  · rw [e1]; exact decide_eq_false_iff_or _ _
  · rw [e2]; exact decide_eq_false_iff_or _ _
  · rw [e3]; exact decide_eq_false_iff_or _ _
  · rw [(updateIRTrackingBasic_trackValids w _).1]; decide
  · rw [(updateIRTrackingBasic_trackValids w _).2.1]; decide
  · rw [(updateIRTrackingBasic_trackValids w _).1]; decide
  · rw [(updateIRTrackingBasic_trackValids w _).2.1]; decide
  · rw [(updateIRTrackingBasic_trackValids w _).1]; decide
  · rw [(updateIRTrackingBasic_trackValids w _).2.1]; decide
  · rw [(updateIRTrackingBasic_trackValids w _).1]; decide
  · rw [(updateIRTrackingBasic_trackValids w _).2.1]; decide

theorem pkt_lt_of_bytes (d : List Nat) (hd : ∀ b ∈ d, b < 256) (k : Nat) : pkt d k < 256 := by
  by_cases hl : k < d.length
  · exact pkt_mem_lt d 256 hd k hl
  · rw [pkt_of_length_le d k (by omega)]; decide

theorem or_high_lt (a y m s : Nat) (ha : a < 256) (hm : m * 2 ^ s < 1024) :
    a ||| ((y &&& m) <<< s) < 1024 := by
  have h1 : (y &&& m) <<< s < 2 ^ 10 := by
    rw [Nat.shiftLeft_eq]
    have : y &&& m ≤ m := Nat.and_le_right
    calc (y &&& m) * 2 ^ s ≤ m * 2 ^ s := Nat.mul_le_mul_right _ this
      _ < 2 ^ 10 := hm
  have h2 : a < 2 ^ 10 := by omega
  exact Nat.or_lt_two_pow h2 h1

theorem basic_coordinates_lt (d : List Nat) (hd : ∀ b ∈ d, b < 256) (i : Nat) :
    basicX0 d i < 1024 ∧ basicY0 d i < 1024 ∧ basicX1 d i < 1024 ∧ basicY1 d i < 1024 := by
  unfold basicX0 basicY0 basicX1 basicY1
  exact ⟨or_high_lt _ _ _ _ (pkt_lt_of_bytes d hd _) (by decide),
    or_high_lt _ _ _ _ (pkt_lt_of_bytes d hd _) (by decide),
    or_high_lt _ _ _ _ (pkt_lt_of_bytes d hd _) (by decide),
    or_high_lt _ _ _ _ (pkt_lt_of_bytes d hd _) (by decide)⟩

theorem low_or_high (x : Nat) : (x &&& 0xff) ||| ((x >>> 8) * 256) = x := by
  rw [and_0xff, Nat.shiftRight_eq_div_pow, Nat.lor_comm]
  have h := Nat.mul_add_lt_is_or (i := 8) (Nat.mod_lt x (by decide : 0 < 2 ^ 8)) (x / 2 ^ 8)
  rw [Nat.mul_comm (x / 2 ^ 8) 256]
  have e : (2:Nat) ^ 8 = 256 := by norm_num
  rw [e] at h ⊢
  rw [← h]
  exact Nat.div_add_mod x 256

theorem packed_high_bits :
    ∀ a < 4, ∀ b < 4, ∀ c < 4, ∀ e < 4,
      ((((a <<< 6) ||| (b <<< 4) ||| (c <<< 2) ||| e) &&& 0x30) <<< 4 = b * 256) ∧
      ((((a <<< 6) ||| (b <<< 4) ||| (c <<< 2) ||| e) &&& 0xc0) <<< 2 = a * 256) ∧
      ((((a <<< 6) ||| (b <<< 4) ||| (c <<< 2) ||| e) &&& 0x03) <<< 8 = e * 256) ∧
      ((((a <<< 6) ||| (b <<< 4) ||| (c <<< 2) ||| e) &&& 0x0c) <<< 6 = c * 256) := by
  decide

theorem high_lt (x : Nat) (h : x < 1024) : x >>> 8 < 4 := by
  rw [Nat.shiftRight_eq_div_pow]
  omega

theorem packBasic_decode (x0 y0 x1 y1 : Nat) (hx0 : x0 < 1024) (hy0 : y0 < 1024)
    (hx1 : x1 < 1024) (hy1 : y1 < 1024) (d : List Nat)
    (h0 : pkt d 0 = pkt (packBasic x0 y0 x1 y1) 0) (h1 : pkt d 1 = pkt (packBasic x0 y0 x1 y1) 1)
    (h2 : pkt d 2 = pkt (packBasic x0 y0 x1 y1) 2) (h3 : pkt d 3 = pkt (packBasic x0 y0 x1 y1) 3)
    (h4 : pkt d 4 = pkt (packBasic x0 y0 x1 y1) 4) :
    (pkt d 0 ||| ((pkt d 2 &&& 0x30) <<< 4) = x0) ∧
    (pkt d 1 ||| ((pkt d 2 &&& 0xc0) <<< 2) = y0) ∧
    (pkt d 3 ||| ((pkt d 2 &&& 0x03) <<< 8) = x1) ∧
    (pkt d 4 ||| ((pkt d 2 &&& 0x0c) <<< 6) = y1) := by
  obtain ⟨p1, p2, p3, p4⟩ := packed_high_bits (y0 >>> 8) (high_lt y0 hy0) (x0 >>> 8)
    (high_lt x0 hx0) (y1 >>> 8) (high_lt y1 hy1) (x1 >>> 8) (high_lt x1 hx1)
  rw [h0, h1, h2, h3, h4]
  simp only [packBasic, pkt, List.getD_cons_zero, List.getD_cons_succ]
  rw [p1, p2, p3, p4]
  exact ⟨low_or_high x0, low_or_high y0, low_or_high x1, low_or_high y1⟩

theorem updateIRTrackingBasic_track (w : Wiimote) (d : List Nat) :
    ((updateIRTrackingBasic w d).trackXs 0 =
        (if basicX0 d 0 ≠ 0x3ff ∧ basicY0 d 0 ≠ 0x3ff then (basicX0 d 0 : ℚ) else w.trackXs 0) ∧
      (updateIRTrackingBasic w d).trackYs 0 =
        (if basicX0 d 0 ≠ 0x3ff ∧ basicY0 d 0 ≠ 0x3ff then (basicY0 d 0 : ℚ) else w.trackYs 0)) ∧
    ((updateIRTrackingBasic w d).trackXs 1 =
        (if basicX1 d 0 ≠ 0x3ff ∧ basicY1 d 0 ≠ 0x3ff then (basicX1 d 0 : ℚ) else w.trackXs 1) ∧
      (updateIRTrackingBasic w d).trackYs 1 =
        (if basicX1 d 0 ≠ 0x3ff ∧ basicY1 d 0 ≠ 0x3ff then (basicY1 d 0 : ℚ) else w.trackYs 1)) ∧
    ((updateIRTrackingBasic w d).trackXs 2 =
        (if basicX0 d 1 ≠ 0x3ff ∧ basicY0 d 1 ≠ 0x3ff then (basicX0 d 1 : ℚ) else w.trackXs 2) ∧
      (updateIRTrackingBasic w d).trackYs 2 =
        (if basicX0 d 1 ≠ 0x3ff ∧ basicY0 d 1 ≠ 0x3ff then (basicY0 d 1 : ℚ) else w.trackYs 2)) ∧
    ((updateIRTrackingBasic w d).trackXs 3 =
        (if basicX1 d 1 ≠ 0x3ff ∧ basicY1 d 1 ≠ 0x3ff then (basicX1 d 1 : ℚ) else w.trackXs 3) ∧
      (updateIRTrackingBasic w d).trackYs 3 =
        (if basicX1 d 1 ≠ 0x3ff ∧ basicY1 d 1 ≠ 0x3ff then (basicY1 d 1 : ℚ) else w.trackYs 3)) := by
  rw [updateIRTrackingBasic_eq]
  simp [storeTarget_trackXs, storeTarget_trackYs]

theorem basicBlock_coordinates (x0 y0 x1 y1 x2 y2 x3 y3 : Nat)
    (hx0 : x0 < 1024) (hy0 : y0 < 1024) (hx1 : x1 < 1024) (hy1 : y1 < 1024)
    (hx2 : x2 < 1024) (hy2 : y2 < 1024) (hx3 : x3 < 1024) (hy3 : y3 < 1024) :
    (basicX0 (basicBlock x0 y0 x1 y1 x2 y2 x3 y3) 0 = x0 ∧
      basicY0 (basicBlock x0 y0 x1 y1 x2 y2 x3 y3) 0 = y0 ∧
      basicX1 (basicBlock x0 y0 x1 y1 x2 y2 x3 y3) 0 = x1 ∧
      basicY1 (basicBlock x0 y0 x1 y1 x2 y2 x3 y3) 0 = y1) ∧
    (basicX0 (basicBlock x0 y0 x1 y1 x2 y2 x3 y3) 1 = x2 ∧
      basicY0 (basicBlock x0 y0 x1 y1 x2 y2 x3 y3) 1 = y2 ∧
      basicX1 (basicBlock x0 y0 x1 y1 x2 y2 x3 y3) 1 = x3 ∧
      basicY1 (basicBlock x0 y0 x1 y1 x2 y2 x3 y3) 1 = y3) := by
  constructor
  · exact packBasic_decode x0 y0 x1 y1 hx0 hy0 hx1 hy1 _ rfl rfl rfl rfl rfl
  · have h := packBasic_decode x2 y2 x3 y3 hx2 hy2 hx3 hy3
      ((basicBlock x0 y0 x1 y1 x2 y2 x3 y3).drop 5) rfl rfl rfl rfl rfl
    simp only [pkt_drop] at h
    exact h

/-- C15: basic-mode IR decoding inverts the packing: for 10-bit values, the block
made of the two packed 5-byte groups decodes to `(x0,y0)`, `(x1,y1)` for targets 0, 1
and `(x2,y2)`, `(x3,y3)` for targets 2, 3; the decoder stores these coordinates for
every target that does not carry the sentinel; and for every block of bytes all
decoded coordinates are below 1024. -/
theorem basic_decoding_inverts_packing (w : Wiimote) (x0 y0 x1 y1 x2 y2 x3 y3 : Nat)
    (hx0 : x0 < 1024) (hy0 : y0 < 1024) (hx1 : x1 < 1024) (hy1 : y1 < 1024)
    (hx2 : x2 < 1024) (hy2 : y2 < 1024) (hx3 : x3 < 1024) (hy3 : y3 < 1024)
    (d : List Nat) (hd : ∀ b ∈ d, b < 256) (i : Nat) :
    (basicX0 (basicBlock x0 y0 x1 y1 x2 y2 x3 y3) 0 = x0 ∧
      basicY0 (basicBlock x0 y0 x1 y1 x2 y2 x3 y3) 0 = y0 ∧
      basicX1 (basicBlock x0 y0 x1 y1 x2 y2 x3 y3) 0 = x1 ∧
      basicY1 (basicBlock x0 y0 x1 y1 x2 y2 x3 y3) 0 = y1) ∧
    (basicX0 (basicBlock x0 y0 x1 y1 x2 y2 x3 y3) 1 = x2 ∧
      basicY0 (basicBlock x0 y0 x1 y1 x2 y2 x3 y3) 1 = y2 ∧
      basicX1 (basicBlock x0 y0 x1 y1 x2 y2 x3 y3) 1 = x3 ∧
      basicY1 (basicBlock x0 y0 x1 y1 x2 y2 x3 y3) 1 = y3) ∧
    ((updateIRTrackingBasic w (basicBlock x0 y0 x1 y1 x2 y2 x3 y3)).trackXs 0 =
        (if x0 ≠ 0x3ff ∧ y0 ≠ 0x3ff then (x0 : ℚ) else w.trackXs 0) ∧
      (updateIRTrackingBasic w (basicBlock x0 y0 x1 y1 x2 y2 x3 y3)).trackYs 0 =
        (if x0 ≠ 0x3ff ∧ y0 ≠ 0x3ff then (y0 : ℚ) else w.trackYs 0) ∧
      (updateIRTrackingBasic w (basicBlock x0 y0 x1 y1 x2 y2 x3 y3)).trackXs 1 =
        (if x1 ≠ 0x3ff ∧ y1 ≠ 0x3ff then (x1 : ℚ) else w.trackXs 1) ∧
      (updateIRTrackingBasic w (basicBlock x0 y0 x1 y1 x2 y2 x3 y3)).trackYs 1 =
        (if x1 ≠ 0x3ff ∧ y1 ≠ 0x3ff then (y1 : ℚ) else w.trackYs 1) ∧
      (updateIRTrackingBasic w (basicBlock x0 y0 x1 y1 x2 y2 x3 y3)).trackXs 2 =
        (if x2 ≠ 0x3ff ∧ y2 ≠ 0x3ff then (x2 : ℚ) else w.trackXs 2) ∧
      (updateIRTrackingBasic w (basicBlock x0 y0 x1 y1 x2 y2 x3 y3)).trackYs 2 =
        (if x2 ≠ 0x3ff ∧ y2 ≠ 0x3ff then (y2 : ℚ) else w.trackYs 2) ∧
      (updateIRTrackingBasic w (basicBlock x0 y0 x1 y1 x2 y2 x3 y3)).trackXs 3 =
        (if x3 ≠ 0x3ff ∧ y3 ≠ 0x3ff then (x3 : ℚ) else w.trackXs 3) ∧
      (updateIRTrackingBasic w (basicBlock x0 y0 x1 y1 x2 y2 x3 y3)).trackYs 3 =
        (if x3 ≠ 0x3ff ∧ y3 ≠ 0x3ff then (y3 : ℚ) else w.trackYs 3)) ∧
    (basicX0 d i < 1024 ∧ basicY0 d i < 1024 ∧ basicX1 d i < 1024 ∧ basicY1 d i < 1024) := by
  obtain ⟨⟨a0, a1, a2, a3⟩, ⟨a4, a5, a6, a7⟩⟩ :=
    basicBlock_coordinates x0 y0 x1 y1 x2 y2 x3 y3 hx0 hy0 hx1 hy1 hx2 hy2 hx3 hy3
  obtain ⟨⟨t0, t1⟩, ⟨t2, t3⟩, ⟨t4, t5⟩, ⟨t6, t7⟩⟩ :=
    updateIRTrackingBasic_track w (basicBlock x0 y0 x1 y1 x2 y2 x3 y3)
  rw [a0, a1] at t0 t1
  rw [a2, a3] at t2 t3
  rw [a4, a5] at t4 t5
  rw [a6, a7] at t6 t7
  exact ⟨⟨a0, a1, a2, a3⟩, ⟨a4, a5, a6, a7⟩, ⟨t0, t1, t2, t3, t4, t5, t6, t7⟩,
    basic_coordinates_lt d hd i⟩

/-- C15, witness: the targets (1, 2), (1023, 3), (512, 767) and (300, 1023). -/
theorem basic_decoding_inverts_packing_witness :
    (basicX0 (basicBlock 1 2 1023 3 512 767 300 1023) 0 = 1 ∧
      basicY0 (basicBlock 1 2 1023 3 512 767 300 1023) 0 = 2 ∧
      basicX1 (basicBlock 1 2 1023 3 512 767 300 1023) 0 = 1023 ∧
      basicY1 (basicBlock 1 2 1023 3 512 767 300 1023) 0 = 3) ∧
    (basicX0 (basicBlock 1 2 1023 3 512 767 300 1023) 1 = 512 ∧
      basicY0 (basicBlock 1 2 1023 3 512 767 300 1023) 1 = 767 ∧
      basicX1 (basicBlock 1 2 1023 3 512 767 300 1023) 1 = 300 ∧
      basicY1 (basicBlock 1 2 1023 3 512 767 300 1023) 1 = 1023) ∧
    ((updateIRTrackingBasic initial (basicBlock 1 2 1023 3 512 767 300 1023)).trackXs 0 =
        (if (1 : Nat) ≠ 0x3ff ∧ (2 : Nat) ≠ 0x3ff then ((1 : Nat) : ℚ) else initial.trackXs 0) ∧
      (updateIRTrackingBasic initial (basicBlock 1 2 1023 3 512 767 300 1023)).trackYs 0 =
        (if (1 : Nat) ≠ 0x3ff ∧ (2 : Nat) ≠ 0x3ff then ((2 : Nat) : ℚ) else initial.trackYs 0) ∧
      (updateIRTrackingBasic initial (basicBlock 1 2 1023 3 512 767 300 1023)).trackXs 1 =
        (if (1023 : Nat) ≠ 0x3ff ∧ (3 : Nat) ≠ 0x3ff then ((1023 : Nat) : ℚ) else initial.trackXs 1) ∧
      (updateIRTrackingBasic initial (basicBlock 1 2 1023 3 512 767 300 1023)).trackYs 1 =
        (if (1023 : Nat) ≠ 0x3ff ∧ (3 : Nat) ≠ 0x3ff then ((3 : Nat) : ℚ) else initial.trackYs 1) ∧
      (updateIRTrackingBasic initial (basicBlock 1 2 1023 3 512 767 300 1023)).trackXs 2 =
        (if (512 : Nat) ≠ 0x3ff ∧ (767 : Nat) ≠ 0x3ff then ((512 : Nat) : ℚ) else initial.trackXs 2) ∧
      (updateIRTrackingBasic initial (basicBlock 1 2 1023 3 512 767 300 1023)).trackYs 2 =
        (if (512 : Nat) ≠ 0x3ff ∧ (767 : Nat) ≠ 0x3ff then ((767 : Nat) : ℚ) else initial.trackYs 2) ∧
      (updateIRTrackingBasic initial (basicBlock 1 2 1023 3 512 767 300 1023)).trackXs 3 =
        (if (300 : Nat) ≠ 0x3ff ∧ (1023 : Nat) ≠ 0x3ff then ((300 : Nat) : ℚ) else initial.trackXs 3) ∧
      (updateIRTrackingBasic initial (basicBlock 1 2 1023 3 512 767 300 1023)).trackYs 3 =
        (if (300 : Nat) ≠ 0x3ff ∧ (1023 : Nat) ≠ 0x3ff then ((1023 : Nat) : ℚ) else initial.trackYs 3)) ∧
    (basicX0 [0xff, 0xff, 0xff, 0xff, 0xff] 0 < 1024 ∧ basicY0 [0xff, 0xff, 0xff, 0xff, 0xff] 0 < 1024 ∧ basicX1 [0xff, 0xff, 0xff, 0xff, 0xff] 0 < 1024 ∧ basicY1 [0xff, 0xff, 0xff, 0xff, 0xff] 0 < 1024) :=
  basic_decoding_inverts_packing initial 1 2 1023 3 512 767 300 1023 (by decide) (by decide)
    (by decide) (by decide) (by decide) (by decide) (by decide) (by decide)
    [0xff, 0xff, 0xff, 0xff, 0xff] (by decide) 0

/-! ## The extension type -/

theorem pkt_readInto (buffer wire : List Nat) (k : Nat) (h : k < wire.length) (h21 : k < 21) :
    pkt (readInto buffer wire) k = pkt wire k := by
  unfold readInto packetBufferSize pkt
  rw [List.getD_eq_getElem?_getD, List.getD_eq_getElem?_getD,
    List.getElem?_append_left (by simp; omega), List.getElem?_take]
  simp [h21]

theorem readSize_ne_zero (wire : List Nat) (h : 0 < wire.length) : readSize wire ≠ 0 := by
  unfold readSize packetBufferSize
  rcases wire with _ | ⟨a, t⟩
  · simp at h
  · simp

theorem writePacket_extensionDevice (w : Wiimote) (p : List Nat) :
    (writePacket w p).extensionDevice = w.extensionDevice := by
  rw [writePacket_eq]

theorem setReportingModeInside_extensionDevice (w : Wiimote) :
    (setReportingModeInside w).extensionDevice = w.extensionDevice := by
  unfold setReportingModeInside
  by_cases h : w.readIRTracking = true
  · simp only [if_pos h]
    exact writePacket_extensionDevice _ _
  · simp only [if_neg h]
    unfold finishStatus notifyEvent
    simp only [writePacket_extensionDevice]

theorem receiverStep_extensionType (w : Wiimote) (buffer wire : List Nat)
    (hr : w.reader = Reader.extensionType buffer) (hlen : 9 ≤ wire.length)
    (h1 : pkt wire 1 = 0x21) :
    (receiverStep w wire).extensionDevice =
      extensionOfCode w.extensionDevice ((pkt wire 7 <<< 8) ||| pkt wire 8) := by
  have hs : readSize wire ≠ 0 := readSize_ne_zero wire (by omega)
  have p1 : pkt (readInto buffer wire) 1 = 0x21 := by
    rw [pkt_readInto _ _ _ (by omega) (by decide)]; exact h1
  have p7 : pkt (readInto buffer wire) 7 = pkt wire 7 :=
    pkt_readInto _ _ _ (by omega) (by decide)
  have p8 : pkt (readInto buffer wire) 8 = pkt wire 8 :=
    pkt_readInto _ _ _ (by omega) (by decide)
  unfold receiverStep
  rw [hr]
  simp only [hs, p1, p7, p8, ne_eq, not_true_eq_false, or_self, if_false]
  split_ifs
  · simp only [writePacket_extensionDevice]
  · rw [setReportingModeInside_extensionDevice]

/-- C16, counterexample: the reply to the type query carries the unrecognized code
0x1234; with a nunchuk recorded before, the identity afterwards is NUNCHUK, with none
recorded it is NONE: the result depends on the identity held before. -/
theorem unrecognized_code_keeps_identity :
    (receiverStep awaitingTypeNunchuk [0xa1, 0x21, 0, 0, 0x10, 0, 0xfe, 0x12, 0x34]).extensionDevice
      = Extension.NUNCHUK ∧
    (receiverStep awaitingTypeNone [0xa1, 0x21, 0, 0, 0x10, 0, 0xfe, 0x12, 0x34]).extensionDevice
      = Extension.NONE := by
  exact ⟨by decide, by decide⟩

/-- C16, amended: the type code is `(byte 7 << 8) | byte 8` of the reply to the type
query; the codes 0x0000, 0xffff, 0xfefe and 0xfdfd give NONE, PARTIALLY_CONNECTED,
NUNCHUK and CLASSIC_CONTROLLER, and every other code leaves the extension identity as
it was before the reply. -/
theorem extension_type_mapping (w : Wiimote) (buffer wire : List Nat)
    (hr : w.reader = Reader.extensionType buffer) (hlen : 9 ≤ wire.length)
    (h1 : pkt wire 1 = 0x21) :
    (pkt wire 7 <<< 8 ||| pkt wire 8 = 0x0000 →
      (receiverStep w wire).extensionDevice = Extension.NONE) ∧
    (pkt wire 7 <<< 8 ||| pkt wire 8 = 0xffff →
      (receiverStep w wire).extensionDevice = Extension.PARTIALLY_CONNECTED) ∧
    (pkt wire 7 <<< 8 ||| pkt wire 8 = 0xfefe →
      (receiverStep w wire).extensionDevice = Extension.NUNCHUK) ∧
    (pkt wire 7 <<< 8 ||| pkt wire 8 = 0xfdfd →
      (receiverStep w wire).extensionDevice = Extension.CLASSIC_CONTROLLER) ∧
    (pkt wire 7 <<< 8 ||| pkt wire 8 ∉ [0x0000, 0xffff, 0xfefe, 0xfdfd] →
      (receiverStep w wire).extensionDevice = w.extensionDevice) := by
  rw [receiverStep_extensionType w buffer wire hr hlen h1]
  refine ⟨?_, ?_, ?_, ?_, ?_⟩
  · intro h; simp [extensionOfCode, h]
  · intro h; simp [extensionOfCode, h]
  · intro h; simp [extensionOfCode, h]
  · intro h; simp [extensionOfCode, h]
  · intro h
    simp only [List.mem_cons, List.mem_singleton, List.not_mem_nil, or_false, not_or] at h
    obtain ⟨h0, h1, h2, h3⟩ := h
    simp [extensionOfCode, h0, h1, h2, h3]

/-- C16, witness: the reply with code 0xfefe received while a nunchuk negotiation is
under way from the initial state. -/
theorem extension_type_mapping_witness :
    (pkt [0xa1, 0x21, 0, 0, 0x10, 0, 0xfe, 0xfe, 0xfe] 7 <<< 8 |||
        pkt [0xa1, 0x21, 0, 0, 0x10, 0, 0xfe, 0xfe, 0xfe] 8 = 0x0000 →
      (receiverStep awaitingTypeNone [0xa1, 0x21, 0, 0, 0x10, 0, 0xfe, 0xfe, 0xfe]).extensionDevice
        = Extension.NONE) ∧
    (pkt [0xa1, 0x21, 0, 0, 0x10, 0, 0xfe, 0xfe, 0xfe] 7 <<< 8 |||
        pkt [0xa1, 0x21, 0, 0, 0x10, 0, 0xfe, 0xfe, 0xfe] 8 = 0xffff →
      (receiverStep awaitingTypeNone [0xa1, 0x21, 0, 0, 0x10, 0, 0xfe, 0xfe, 0xfe]).extensionDevice
        = Extension.PARTIALLY_CONNECTED) ∧
    (pkt [0xa1, 0x21, 0, 0, 0x10, 0, 0xfe, 0xfe, 0xfe] 7 <<< 8 |||
        pkt [0xa1, 0x21, 0, 0, 0x10, 0, 0xfe, 0xfe, 0xfe] 8 = 0xfefe →
      (receiverStep awaitingTypeNone [0xa1, 0x21, 0, 0, 0x10, 0, 0xfe, 0xfe, 0xfe]).extensionDevice
        = Extension.NUNCHUK) ∧
    (pkt [0xa1, 0x21, 0, 0, 0x10, 0, 0xfe, 0xfe, 0xfe] 7 <<< 8 |||
        pkt [0xa1, 0x21, 0, 0, 0x10, 0, 0xfe, 0xfe, 0xfe] 8 = 0xfdfd →
      (receiverStep awaitingTypeNone [0xa1, 0x21, 0, 0, 0x10, 0, 0xfe, 0xfe, 0xfe]).extensionDevice
        = Extension.CLASSIC_CONTROLLER) ∧
    (pkt [0xa1, 0x21, 0, 0, 0x10, 0, 0xfe, 0xfe, 0xfe] 7 <<< 8 |||
        pkt [0xa1, 0x21, 0, 0, 0x10, 0, 0xfe, 0xfe, 0xfe] 8 ∉ [0x0000, 0xffff, 0xfefe, 0xfdfd] →
      (receiverStep awaitingTypeNone [0xa1, 0x21, 0, 0, 0x10, 0, 0xfe, 0xfe, 0xfe]).extensionDevice
        = awaitingTypeNone.extensionDevice) :=
  extension_type_mapping awaitingTypeNone [] [0xa1, 0x21, 0, 0, 0x10, 0, 0xfe, 0xfe, 0xfe] rfl
    (by decide) (by decide)

/-! ## Reports at the outer read -/

theorem receiverStep_buttons (w : Wiimote) (p : List Nat) (hm : w.reader = Reader.main)
    (h0 : pkt p 0 = 0xa1) (h1 : pkt p 1 = 0x30) :
    receiverStep w p = notifyEvent (updateCoreButtons w ((p.take 21).drop 2)) := by
  have hs : readSize p > 0 := readSize_pos p 0 0xa1 h0 (by decide)
  have p0 : pkt (p.take 21) 0 = 0xa1 := by rw [pkt_take _ _ _ (by decide), h0]
  have p1 : pkt (p.take 21) 1 = 0x30 := by rw [pkt_take _ _ _ (by decide), h1]
  rw [receiverStep_main w p hm]
  unfold handlePacket
  simp [hs, p0, p1]

theorem receiverStep_status_clear (w : Wiimote) (s : List Nat) (hm : w.reader = Reader.main)
    (hir : w.readIRTracking = false) (h0 : pkt s 0 = 0xa1) (h1 : pkt s 1 = 0x20)
    (h4 : pkt s 4 &&& 0x02 = 0) :
    receiverStep w s =
      finishStatus (resetExtension { w with batteryLevel := pkt s 7 })
        (reportingModeRequest (resetExtension { w with batteryLevel := pkt s 7 })) := by
  have hs : readSize s > 0 := readSize_pos s 0 0xa1 h0 (by decide)
  have p0 : pkt (s.take 21) 0 = 0xa1 := by rw [pkt_take _ _ _ (by decide), h0]
  have p1 : pkt (s.take 21) 1 = 0x20 := by rw [pkt_take _ _ _ (by decide), h1]
  have p4 : pkt (s.take 21) 4 = pkt s 4 := pkt_take _ _ _ (by decide)
  have p7 : pkt (s.take 21) 7 = pkt s 7 := pkt_take _ _ _ (by decide)
  rw [receiverStep_main w s hm]
  unfold handlePacket
  simp only [hs, p0, p1, true_and, if_true]
  unfold handleStatus
  simp only [p4, p7, h4, ne_eq, not_true_eq_false, if_false]
  unfold setReportingModeInside
  have hir' : (resetExtension { w with batteryLevel := pkt s 7 }).readIRTracking = false := hir
  simp [hir']

theorem getButtonState_A (w : Wiimote) (p : List Nat) :
    getButtonState (notifyEvent (updateCoreButtons w ((p.take 21).drop 2))) BUTTON_A =
      (pkt p 3).testBit 3 := by
  rw [getButtonState_eq_testBit]
  show ((pkt ((p.take 21).drop 2) 1 &&& 0x1f) ||| ((pkt ((p.take 21).drop 2) 1 &&& 0x80) >>> 2)
    ||| ((pkt ((p.take 21).drop 2) 0 &&& 0x1f) <<< 6)).testBit BUTTON_A = _
  rw [compactButtons_testBit, pkt_drop, pkt_take _ _ _ (by decide)]
  simp [BUTTON_A]

/-- C18: for every driver state with the receiver at its outer read and IR tracking
not requested, the stream of a Status report with the presence bit clear, a report
0x30 with button A's bit set and a report 0x30 with button A's bit clear produces one
callback invocation and one `eventCond` broadcast per report, three in all; button A
reads true after the second report and false after the third, and the extension
identity is NONE. -/
theorem status_then_buttons (w : Wiimote) (hm : w.reader = Reader.main)
    (hir : w.readIRTracking = false) (s p2 p3 : List Nat)
    (hs0 : pkt s 0 = 0xa1) (hs1 : pkt s 1 = 0x20) (hs4 : pkt s 4 &&& 0x02 = 0)
    (h20 : pkt p2 0 = 0xa1) (h21 : pkt p2 1 = 0x30) (h2A : (pkt p2 3).testBit 3 = true)
    (h30 : pkt p3 0 = 0xa1) (h31 : pkt p3 1 = 0x30) (h3A : (pkt p3 3).testBit 3 = false) :
    ((receive w [s]).eventCallbacks = w.eventCallbacks + 1 ∧
      (receive w [s, p2]).eventCallbacks = w.eventCallbacks + 2 ∧
      (receive w [s, p2, p3]).eventCallbacks = w.eventCallbacks + 3) ∧
    ((receive w [s]).eventCond = w.eventCond + 1 ∧
      (receive w [s, p2]).eventCond = w.eventCond + 2 ∧
      (receive w [s, p2, p3]).eventCond = w.eventCond + 3) ∧
    getButtonState (receive w [s, p2]) BUTTON_A = true ∧
    getButtonState (receive w [s, p2, p3]) BUTTON_A = false ∧
    ((receive w [s]).extensionDevice = Extension.NONE ∧
      (receive w [s, p2]).extensionDevice = Extension.NONE ∧
      (receive w [s, p2, p3]).extensionDevice = Extension.NONE) ∧
    (receive w [s, p2, p3]).reader = Reader.main := by
  have e1 := receiverStep_status_clear w s hm hir hs0 hs1 hs4
  have m1 : (receiverStep w s).reader = Reader.main := by rw [e1]; rfl
  have e2 := receiverStep_buttons (receiverStep w s) p2 m1 h20 h21
  have m2 : (receiverStep (receiverStep w s) p2).reader = Reader.main := by rw [e2]; rfl
  have e3 := receiverStep_buttons (receiverStep (receiverStep w s) p2) p3 m2 h30 h31
  have c1 : (receiverStep w s).eventCallbacks = w.eventCallbacks + 1 := by
    rw [e1]; simp [finishStatus, notifyEvent, writePacket_eq, resetExtension]
  have d1 : (receiverStep w s).eventCond = w.eventCond + 1 := by
    rw [e1]; simp [finishStatus, notifyEvent, writePacket_eq, resetExtension]
  have x1 : (receiverStep w s).extensionDevice = Extension.NONE := by
    rw [e1]; simp [finishStatus, notifyEvent, writePacket_eq, resetExtension]
  simp only [receive, List.foldl_cons, List.foldl_nil]
  refine ⟨⟨c1, ?_, ?_⟩, ⟨d1, ?_, ?_⟩, ?_, ?_, ⟨x1, ?_, ?_⟩, ?_⟩
  · rw [e2]; show (receiverStep w s).eventCallbacks + 1 = _; rw [c1]
  · rw [e3]; show (receiverStep (receiverStep w s) p2).eventCallbacks + 1 = _
    rw [e2]; show (receiverStep w s).eventCallbacks + 1 + 1 = _; rw [c1]
  · rw [e2]; show (receiverStep w s).eventCond + 1 = _; rw [d1]
  · rw [e3]; show (receiverStep (receiverStep w s) p2).eventCond + 1 = _
    rw [e2]; show (receiverStep w s).eventCond + 1 + 1 = _; rw [d1]
  · rw [e2, getButtonState_A, h2A]
  · rw [e3, getButtonState_A, h3A]
  · rw [e2]; exact x1
  · rw [e3]; show (receiverStep (receiverStep w s) p2).extensionDevice = _
    rw [e2]; exact x1
  · rw [e3]; rfl

theorem status_then_buttons_witness :
    ((receive initial [[0xa1, 0x20, 0, 0, 0, 0, 0, 0x64], [0xa1, 0x30, 0, 0x08]]).eventCallbacks
        = initial.eventCallbacks + 2 ∧
      getButtonState (receive initial [[0xa1, 0x20, 0, 0, 0, 0, 0, 0x64], [0xa1, 0x30, 0, 0x08]])
        BUTTON_A = true ∧
      getButtonState (receive initial [[0xa1, 0x20, 0, 0, 0, 0, 0, 0x64], [0xa1, 0x30, 0, 0x08],
        [0xa1, 0x30, 0, 0]]) BUTTON_A = false) ∧
    (receive initial [[0xa1, 0x20, 0, 0, 0, 0, 0, 0x64], [0xa1, 0x30, 0, 0x08],
        [0xa1, 0x30, 0, 0]]).eventCond = initial.eventCond + 3 :=
  have h := status_then_buttons initial rfl rfl [0xa1, 0x20, 0, 0, 0, 0, 0, 0x64]
    [0xa1, 0x30, 0, 0x08] [0xa1, 0x30, 0, 0] (by decide) (by decide) (by decide) (by decide)
    (by decide) (by decide) (by decide) (by decide) (by decide)
  ⟨⟨h.1.2.1, h.2.2.1, h.2.2.2.1⟩, h.2.1.2.2⟩

/-! ## Packets that are not reports -/

theorem handlePacket_unframed (w : Wiimote) (packet : List Nat) (n : Nat)
    (h : pkt packet 0 ≠ 0xa1) : handlePacket w packet n = w := by
  unfold handlePacket
  rw [if_neg (fun c => h c.2)]

theorem handlePacket_unknown (w : Wiimote) (packet : List Nat) (n : Nat) (hn : n > 0)
    (h0 : pkt packet 0 = 0xa1)
    (h : pkt packet 1 ∉ [0x20, 0x21, 0x22, 0x30, 0x31, 0x32, 0x33, 0x35, 0x36, 0x37]) :
    handlePacket w packet n = notifyEvent w := by
  simp only [List.mem_cons, List.mem_singleton, List.not_mem_nil, or_false, not_or] at h
  obtain ⟨a, b, c, d, e, f, g, i, j, k⟩ := h
  unfold handlePacket
  rw [if_pos ⟨hn, h0⟩, if_neg a, if_neg b, if_neg c, if_neg d, if_neg e, if_neg f, if_neg g,
    if_neg i, if_neg j, if_neg k]

/-- A packet read at the top of the receive loop that carries the bytes the loop tests:
whatever the array `previous` held before the read, a packet whose first byte is not
0xa1, and a packet of at least two bytes whose identifier is none of the ten, changes
nothing but the event counters, which advance when the framing byte is 0xa1. -/
theorem outer_read_drops (w : Wiimote) (previous wire : List Nat)
    (h : pkt wire 0 ≠ 0xa1 ∨ (2 ≤ wire.length ∧
      pkt wire 1 ∉ [0x20, 0x21, 0x22, 0x30, 0x31, 0x32, 0x33, 0x35, 0x36, 0x37])) :
    handlePacket w (readInto previous wire) (readSize wire) =
      if pkt wire 0 = 0xa1 then notifyEvent w else w := by
  by_cases h0 : pkt wire 0 = 0xa1
  · rw [if_pos h0]
    have h1 : 2 ≤ wire.length ∧
        pkt wire 1 ∉ [0x20, 0x21, 0x22, 0x30, 0x31, 0x32, 0x33, 0x35, 0x36, 0x37] := by
      rcases h with h | h
      · exact absurd h0 h
      · exact h
    apply handlePacket_unknown _ _ _ (readSize_pos wire 0 0xa1 h0 (by decide))
    · rw [pkt_readInto _ _ _ (by omega) (by decide), h0]
    · rw [pkt_readInto _ _ _ (by omega) (by decide)]; exact h1.2
  · rw [if_neg h0]
    rcases wire with _ | ⟨a, t⟩
    · unfold handlePacket
      rw [if_neg (fun c => absurd c.1 (by decide))]
    · apply handlePacket_unframed
      rw [pkt_readInto _ _ _ (by simp) (by decide)]; exact h0

/-- C20, failing input: packets that are not dropped. While the receiver waits for the
acknowledgment of the enable-extension packet, the packet `00 22`, whose framing byte
is not 0xa1, is taken for the acknowledgment: the type query is written and the
receiver goes on to wait for the type; the packet `55 21 .. fd fd`, again not framed,
is then taken for the reply and sets the extension identity. At the top of the loop,
with the array still holding the report `a1 30 00 08`, the 1-byte packet `a1` is
handled as a report 0x30 and sets button A. -/
theorem misframed_packet_accepted :
    (receive initial [[0xa1, 0x20, 0, 0, 0x02, 0, 0, 0x64]]).written =
      initial.written ++
        [[0x52, 0x16, 0x04, 0xa4, 0x00, 0x40, 0x01, 0, 0, 0, 0, 0, 0, 0, 0, 0, 0, 0, 0, 0, 0, 0, 0]] ∧
    (receive initial [[0xa1, 0x20, 0, 0, 0x02, 0, 0, 0x64], [0x00, 0x22]]).written =
      initial.written ++
        [[0x52, 0x16, 0x04, 0xa4, 0x00, 0x40, 0x01, 0, 0, 0, 0, 0, 0, 0, 0, 0, 0, 0, 0, 0, 0, 0, 0],
          [0x52, 0x17, 0x04, 0xa4, 0x00, 0xfe, 0x00, 0x02]] ∧
    ((receive initial [[0xa1, 0x20, 0, 0, 0x02, 0, 0, 0x64], [0x00, 0x22]]).extensionDevice =
        Extension.NONE ∧
      (receive initial [[0xa1, 0x20, 0, 0, 0x02, 0, 0, 0x64], [0x00, 0x22],
        [0x55, 0x21, 0, 0, 0x10, 0, 0xfe, 0xfd, 0xfd]]).extensionDevice =
        Extension.CLASSIC_CONTROLLER) ∧
    (getButtonState initial BUTTON_A = false ∧
      getButtonState
        (handlePacket initial (readInto [0xa1, 0x30, 0x00, 0x08] [0xa1]) (readSize [0xa1]))
        BUTTON_A = true) := by
  refine ⟨by decide, by decide, ⟨by decide, by decide⟩, by decide, by decide⟩

/-! ## The reporting mode after a Status report -/

theorem reportingModeRequest_congr (u v : Wiimote) (hf : SameFlags u v)
    (he : u.extensionDevice = v.extensionDevice) :
    reportingModeRequest u = reportingModeRequest v := by
  obtain ⟨h1, h2, h3, _⟩ := hf
  unfold reportingModeRequest
  rw [h1, h2, h3, he]

theorem reportingModePacket_congr (u v : Wiimote) (hf : SameFlags u v)
    (he : u.extensionDevice = v.extensionDevice) :
    reportingModePacket u = reportingModePacket v := by
  unfold reportingModePacket
  rw [reportingModeRequest_congr u v hf he, hf.1, hf.2.2.2]

theorem rumbled_request (u : Wiimote) :
    (reportingModeRequest u).set 2
      (if u.rumble then (pkt (reportingModeRequest u) 2 ||| 0x01) % 256
        else (pkt (reportingModeRequest u) 2 &&& bitNot 0x01) % 256) = reportingModePacket u := by
  unfold reportingModePacket
  cases he : u.extensionDevice <;> cases ha : u.readAccelerometers <;>
    cases hi : u.readIRTracking <;> cases hc : u.readContinuously <;> cases hr : u.rumble <;>
    simp [reportingModeRequest, pkt, bitNot, he, ha, hi, hc] <;> decide

theorem finishStatus_written (u : Wiimote) :
    (finishStatus u (reportingModeRequest u)).written = u.written ++ [reportingModePacket u] := by
  unfold finishStatus notifyEvent
  rw [writePacket_eq]
  show u.written ++ [_] = _
  rw [rumbled_request]

theorem finishStatus_sameFlags (u : Wiimote) (rd : List Nat) :
    SameFlags (finishStatus u rd) u ∧ (finishStatus u rd).extensionDevice = u.extensionDevice ∧
      (finishStatus u rd).reader = Reader.main := by
  unfold finishStatus notifyEvent
  rw [writePacket_eq]
  exact ⟨⟨rfl, rfl, rfl, rfl⟩, rfl, rfl⟩

theorem finishStatus_inv (u : Wiimote) (rd : List Nat) (h : rd = reportingModeRequest u) :
    StatusInv (finishStatus u rd) := by
  subst h
  obtain ⟨hf, he, hr⟩ := finishStatus_sameFlags u (reportingModeRequest u)
  unfold StatusInv
  rw [hr]
  show (finishStatus u (reportingModeRequest u)).written.getLast? = _
  rw [finishStatus_written, reportingModePacket_congr _ u hf he]
  simp

theorem writePacket_sameFlags (u : Wiimote) (p : List Nat) (r : Reader) :
    SameFlags { writePacket u p with reader := r } u ∧
      ({ writePacket u p with reader := r } : Wiimote).extensionDevice = u.extensionDevice := by
  rw [writePacket_eq]
  exact ⟨⟨rfl, rfl, rfl, rfl⟩, rfl⟩

theorem SameFlags.trans {u v x : Wiimote} (h1 : SameFlags u v) (h2 : SameFlags v x) :
    SameFlags u x :=
  ⟨h1.1.trans h2.1, h1.2.1.trans h2.2.1, h1.2.2.1.trans h2.2.2.1, h1.2.2.2.trans h2.2.2.2⟩

theorem setReportingModeInside_inv (u : Wiimote) :
    StatusInv (setReportingModeInside u) ∧ SameFlags (setReportingModeInside u) u ∧
      (setReportingModeInside u).extensionDevice = u.extensionDevice := by
  refine ⟨?_, ?_, setReportingModeInside_extensionDevice u⟩
  · unfold setReportingModeInside
    by_cases h : u.readIRTracking = true
    · simp only [if_pos h]
      unfold StatusInv
      simp only []
      obtain ⟨hf, he⟩ := writePacket_sameFlags u
        (([0x52, 0x16, 0x04, 0xb0, 0x00, 0x33, 0x01, 0x01] ++ List.replicate 15 0x00).set 7
          (irCameraMode u)) (Reader.irModeAck [] (reportingModeRequest u))
      exact (reportingModeRequest_congr _ u hf he).symm
    · simp only [if_neg h]
      exact finishStatus_inv u _ rfl
  · unfold setReportingModeInside
    by_cases h : u.readIRTracking = true
    · simp only [if_pos h]
      exact (writePacket_sameFlags u _ _).1
    · simp only [if_neg h]
      exact (finishStatus_sameFlags u _).1

theorem storeCalibration_sameFlags (u : Wiimote) (packet : List Nat) (n : Nat) :
    SameFlags (storeCalibration u packet n) u ∧
      (storeCalibration u packet n).extensionDevice = u.extensionDevice :=
  ⟨⟨rfl, rfl, rfl, rfl⟩, rfl⟩

theorem receiverStep_nested_inv (u : Wiimote) (wire : List Nat) (hn : u.reader ≠ Reader.main)
    (hi : StatusInv u) :
    StatusInv (receiverStep u wire) ∧ SameFlags (receiverStep u wire) u := by
  cases hr : u.reader with
  | main => exact absurd hr hn
  | enableAck b =>
    unfold receiverStep
    rw [hr]
    simp only []
    split_ifs
    · exact ⟨trivial, rfl, rfl, rfl, rfl⟩
    · exact ⟨trivial, (writePacket_sameFlags u _ _).1⟩
  | extensionType b =>
    unfold receiverStep
    rw [hr]
    simp only []
    split_ifs
    · exact ⟨trivial, rfl, rfl, rfl, rfl⟩
    · exact ⟨trivial, (writePacket_sameFlags _ _ _).1⟩
    · exact ⟨(setReportingModeInside_inv _).1, (setReportingModeInside_inv _).2.1⟩
  | calibration b =>
    unfold receiverStep
    rw [hr]
    simp only []
    split_ifs
    · exact ⟨trivial, rfl, rfl, rfl, rfl⟩
    · exact ⟨(setReportingModeInside_inv _).1, (setReportingModeInside_inv _).2.1⟩
  | irModeAck b rd =>
    have hrd : rd = reportingModeRequest u := by
      unfold StatusInv at hi
      rw [hr] at hi
      exact hi
    unfold receiverStep
    rw [hr]
    simp only []
    split_ifs
    · exact ⟨hrd, rfl, rfl, rfl, rfl⟩
    · exact ⟨finishStatus_inv u rd hrd, (finishStatus_sameFlags u rd).1⟩

theorem receiverStep_status_inv (w : Wiimote) (s : List Nat) (hm : w.reader = Reader.main)
    (h0 : pkt s 0 = 0xa1) (h1 : pkt s 1 = 0x20) :
    StatusInv (receiverStep w s) ∧ SameFlags (receiverStep w s) w := by
  have hs : readSize s > 0 := readSize_pos s 0 0xa1 h0 (by decide)
  have p0 : pkt (s.take 21) 0 = 0xa1 := by rw [pkt_take _ _ _ (by decide), h0]
  have p1 : pkt (s.take 21) 1 = 0x20 := by rw [pkt_take _ _ _ (by decide), h1]
  rw [receiverStep_main w s hm]
  unfold handlePacket
  simp only [hs, p0, p1, true_and, if_true]
  unfold handleStatus
  split_ifs
  · exact ⟨trivial, (writePacket_sameFlags _ _ _).1⟩
  · exact ⟨(setReportingModeInside_inv _).1, (setReportingModeInside_inv _).2.1⟩

theorem runUntilMain_main (u : Wiimote) (rest : List (List Nat)) (h : u.reader = Reader.main) :
    runUntilMain u rest = some u := by
  cases rest <;> simp [runUntilMain, h]

theorem runUntilMain_nil (u : Wiimote) (h : u.reader ≠ Reader.main) :
    runUntilMain u [] = none := by
  cases hr : u.reader <;> simp [runUntilMain, hr]
  exact h hr

theorem runUntilMain_cons (u : Wiimote) (p : List Nat) (rest : List (List Nat))
    (h : u.reader ≠ Reader.main) :
    runUntilMain u (p :: rest) = runUntilMain (receiverStep u p) rest := by
  cases hr : u.reader <;> simp [runUntilMain, hr]
  exact absurd hr h

theorem runUntilMain_inv (rest : List (List Nat)) :
    ∀ (u w1 : Wiimote), StatusInv u → runUntilMain u rest = some w1 →
      w1.reader = Reader.main ∧ StatusInv w1 ∧ SameFlags w1 u := by
  induction rest with
  | nil =>
    intro u w1 hi h
    by_cases hm : u.reader = Reader.main
    · rw [runUntilMain_main u _ hm] at h
      cases h
      exact ⟨hm, hi, rfl, rfl, rfl, rfl⟩
    · rw [runUntilMain_nil u hm] at h
      cases h
  | cons p rest ih =>
    intro u w1 hi h
    by_cases hm : u.reader = Reader.main
    · rw [runUntilMain_main u _ hm] at h
      cases h
      exact ⟨hm, hi, rfl, rfl, rfl, rfl⟩
    · rw [runUntilMain_cons u p rest hm] at h
      obtain ⟨hi1, hf1⟩ := receiverStep_nested_inv u p hm hi
      obtain ⟨a, b, c⟩ := ih _ w1 hi1 h
      exact ⟨a, b, c.trans hf1⟩

theorem setReportingModeInside_reader (u : Wiimote) :
    (setReportingModeInside u).reader = Reader.main ∨
      ∃ b rd, (setReportingModeInside u).reader = Reader.irModeAck b rd := by
  unfold setReportingModeInside
  by_cases h : u.readIRTracking = true
  · simp only [if_pos h]
    exact Or.inr ⟨_, _, rfl⟩
  · simp only [if_neg h]
    exact Or.inl rfl

theorem runUntilMain_irModeAck (u : Wiimote) (l : List (List Nat))
    (h : ∃ b rd, u.reader = Reader.irModeAck b rd) :
    ∃ w1, runUntilMain u ([0xa1, 0x22] :: l) = some w1 := by
  obtain ⟨b, rd, hr⟩ := h
  have hn : u.reader ≠ Reader.main := by rw [hr]; exact fun c => Reader.noConfusion c
  have p1 : pkt (readInto b [0xa1, 0x22]) 1 = 0x22 :=
    pkt_readInto _ _ _ (by decide) (by decide)
  have hs : readSize [0xa1, 0x22] ≠ 0 := by decide
  rw [runUntilMain_cons u _ l hn]
  refine ⟨_, runUntilMain_main _ l ?_⟩
  unfold receiverStep
  rw [hr]
  simp only [hs, p1, ne_eq, not_true_eq_false, or_self, if_false]
  rfl

theorem runUntilMain_irModeAck_reply (u : Wiimote) (l : List (List Nat))
    (h : ∃ b rd, u.reader = Reader.irModeAck b rd) :
    ∃ w1, runUntilMain u ([0xa1, 0x21] :: [0xa1, 0x22] :: l) = some w1 := by
  obtain ⟨b, rd, hr⟩ := h
  have hn : u.reader ≠ Reader.main := by rw [hr]; exact fun c => Reader.noConfusion c
  have p1 : pkt (readInto b [0xa1, 0x21]) 1 = 0x21 :=
    pkt_readInto _ _ _ (by decide) (by decide)
  rw [runUntilMain_cons u _ _ hn]
  apply runUntilMain_irModeAck
  unfold receiverStep
  rw [hr]
  simp only [p1, ne_eq, or_true, if_true, show ¬ ((0x21 : Nat) = 0x22) by decide, not_false_eq_true]
  exact ⟨_, _, rfl⟩

theorem runUntilMain_calibration (u : Wiimote) (l : List (List Nat))
    (h : ∃ b, u.reader = Reader.calibration b) :
    ∃ w1, runUntilMain u ([0xa1, 0x21] :: [0xa1, 0x22] :: l) = some w1 := by
  obtain ⟨b, hr⟩ := h
  have hn : u.reader ≠ Reader.main := by rw [hr]; exact fun c => Reader.noConfusion c
  have p1 : pkt (readInto b [0xa1, 0x21]) 1 = 0x21 :=
    pkt_readInto _ _ _ (by decide) (by decide)
  have hs : readSize [0xa1, 0x21] ≠ 0 := by decide
  rw [runUntilMain_cons u _ _ hn]
  have e : receiverStep u [0xa1, 0x21] =
      setReportingModeInside (storeCalibration u (readInto b [0xa1, 0x21])
        (readSize [0xa1, 0x21])) := by
    unfold receiverStep
    rw [hr]
    simp only [hs, p1, ne_eq, not_true_eq_false, or_self, if_false]
  rw [e]
  rcases setReportingModeInside_reader (storeCalibration u (readInto b [0xa1, 0x21])
    (readSize [0xa1, 0x21])) with hm | hi
  · exact ⟨_, runUntilMain_main _ _ hm⟩
  · exact runUntilMain_irModeAck _ l hi

theorem runUntilMain_extensionType (u : Wiimote) (l : List (List Nat))
    (h : ∃ b, u.reader = Reader.extensionType b) :
    ∃ w1, runUntilMain u ([0xa1, 0x21] :: [0xa1, 0x21] :: [0xa1, 0x22] :: l) = some w1 := by
  obtain ⟨b, hr⟩ := h
  have hn : u.reader ≠ Reader.main := by rw [hr]; exact fun c => Reader.noConfusion c
  have p1 : pkt (readInto b [0xa1, 0x21]) 1 = 0x21 :=
    pkt_readInto _ _ _ (by decide) (by decide)
  have hs : readSize [0xa1, 0x21] ≠ 0 := by decide
  rw [runUntilMain_cons u _ _ hn]
  have e : (∃ c, (receiverStep u [0xa1, 0x21]).reader = Reader.calibration c) ∨
      (receiverStep u [0xa1, 0x21]).reader = Reader.main ∨
      ∃ c rd, (receiverStep u [0xa1, 0x21]).reader = Reader.irModeAck c rd := by
    unfold receiverStep
    rw [hr]
    simp only [hs, p1, ne_eq, not_true_eq_false, or_self, if_false]
    split_ifs
    · exact Or.inl ⟨_, rfl⟩
    · exact Or.inr (setReportingModeInside_reader _)
  rcases e with hc | hm | hi
  · exact runUntilMain_calibration _ l hc
  · exact ⟨_, runUntilMain_main _ _ hm⟩
  · exact runUntilMain_irModeAck_reply _ l hi

theorem runUntilMain_enableAck (u : Wiimote) (l : List (List Nat))
    (h : ∃ b, u.reader = Reader.enableAck b) :
    ∃ w1, runUntilMain u
      ([0xa1, 0x22] :: [0xa1, 0x21] :: [0xa1, 0x21] :: [0xa1, 0x22] :: l) = some w1 := by
  obtain ⟨b, hr⟩ := h
  have hn : u.reader ≠ Reader.main := by rw [hr]; exact fun c => Reader.noConfusion c
  have p1 : pkt (readInto b [0xa1, 0x22]) 1 = 0x22 :=
    pkt_readInto _ _ _ (by decide) (by decide)
  have hs : readSize [0xa1, 0x22] ≠ 0 := by decide
  rw [runUntilMain_cons u _ _ hn]
  apply runUntilMain_extensionType
  unfold receiverStep
  rw [hr]
  simp only [hs, p1, ne_eq, not_true_eq_false, or_self, if_false]
  exact ⟨_, rfl⟩

theorem receiverStep_status_reader (w : Wiimote) (s : List Nat) (hm : w.reader = Reader.main)
    (h0 : pkt s 0 = 0xa1) (h1 : pkt s 1 = 0x20) :
    (∃ b, (receiverStep w s).reader = Reader.enableAck b) ∨
      (receiverStep w s).reader = Reader.main ∨
      ∃ b rd, (receiverStep w s).reader = Reader.irModeAck b rd := by
  have hs : readSize s > 0 := readSize_pos s 0 0xa1 h0 (by decide)
  have p0 : pkt (s.take 21) 0 = 0xa1 := by rw [pkt_take _ _ _ (by decide), h0]
  have p1 : pkt (s.take 21) 1 = 0x20 := by rw [pkt_take _ _ _ (by decide), h1]
  rw [receiverStep_main w s hm]
  unfold handlePacket
  simp only [hs, p0, p1, true_and, if_true]
  unfold handleStatus
  split_ifs
  · exact Or.inl ⟨_, rfl⟩
  · exact Or.inr (setReportingModeInside_reader _)

theorem receiverStep_status_extension (w : Wiimote) (s : List Nat) (hm : w.reader = Reader.main)
    (h0 : pkt s 0 = 0xa1) (h1 : pkt s 1 = 0x20) (h4 : pkt s 4 &&& 0x02 = 0) :
    (receiverStep w s).extensionDevice = Extension.NONE := by
  have hs : readSize s > 0 := readSize_pos s 0 0xa1 h0 (by decide)
  have p0 : pkt (s.take 21) 0 = 0xa1 := by rw [pkt_take _ _ _ (by decide), h0]
  have p1 : pkt (s.take 21) 1 = 0x20 := by rw [pkt_take _ _ _ (by decide), h1]
  have p4 : pkt (s.take 21) 4 = pkt s 4 := pkt_take _ _ _ (by decide)
  rw [receiverStep_main w s hm]
  unfold handlePacket
  simp only [hs, p0, p1, true_and, if_true]
  unfold handleStatus
  simp only [p4, h4, ne_eq, not_true_eq_false, if_false]
  rw [setReportingModeInside_extensionDevice]
  rfl

/-- C17: for every driver state with the receiver at its outer read and every Status
(0x20) report, with the extension-presence bit set or clear, the iteration that
processes the report can finish (the nested reads being answered by an acknowledgment,
two data replies and an acknowledgment), and whenever it finishes, the last packet
written is `[0x52, 0x12, flags, id]`, where `id` is the identifier `setReportingMode`
looks up for the extension identity, accelerometer flag and IR flag of the state
reached, `flags` has bit 2 equal to the continuous-reporting flag and bit 0 equal to the
rumble flag, and these four flags are those the driver had when the report arrived. -/
theorem status_reissues_reporting_mode (w : Wiimote) (s : List Nat)
    (hm : w.reader = Reader.main) (h0 : pkt s 0 = 0xa1) (h1 : pkt s 1 = 0x20) :
    (∃ w1, receiverIteration w
      [s, [0xa1, 0x22], [0xa1, 0x21], [0xa1, 0x21], [0xa1, 0x22]] = some w1) ∧
    ∀ (rest : List (List Nat)) (w1 : Wiimote), receiverIteration w (s :: rest) = some w1 →
      w1.reader = Reader.main ∧
      w1.written.getLast? = some [0x52, 0x12,
        (if w1.readContinuously then 4 else 0) + (if w1.rumble then 1 else 0),
        pkt (reportingModeRequest w1) 3] ∧
      ((if w1.readContinuously then 4 else 0) + (if w1.rumble then 1 else 0)).testBit 2
        = w1.readContinuously ∧
      ((if w1.readContinuously then 4 else 0) + (if w1.rumble then 1 else 0)).testBit 0
        = w1.rumble ∧
      w1.readContinuously = w.readContinuously ∧ w1.readAccelerometers = w.readAccelerometers ∧
      w1.readIRTracking = w.readIRTracking ∧ w1.rumble = w.rumble := by
  obtain ⟨hi, hf⟩ := receiverStep_status_inv w s hm h0 h1
  constructor
  · show ∃ w1, runUntilMain (receiverStep w s) _ = some w1
    rcases receiverStep_status_reader w s hm h0 h1 with he | hmain | hir
    · exact runUntilMain_enableAck _ [] he
    · exact ⟨_, runUntilMain_main _ _ hmain⟩
    · exact runUntilMain_irModeAck _ _ hir
  · intro rest w1 h
    obtain ⟨a, b, c⟩ := runUntilMain_inv rest (receiverStep w s) w1 hi h
    have d := c.trans hf
    unfold StatusInv at b
    rw [a] at b
    refine ⟨a, b, ?_, ?_, d.1, d.2.1, d.2.2.1, d.2.2.2⟩
    · cases w1.readContinuously <;> cases w1.rumble <;> decide
    · cases w1.readContinuously <;> cases w1.rumble <;> decide

theorem status_reissues_reporting_mode_witness :
    ∃ w1, receiverIteration initial
      [[0xa1, 0x20, 0, 0, 0x02, 0, 0, 0x64], [0xa1, 0x22], [0xa1, 0x21], [0xa1, 0x21],
        [0xa1, 0x22]] = some w1 :=
  (status_reissues_reporting_mode initial [0xa1, 0x20, 0, 0, 0x02, 0, 0, 0x64] rfl
    (by decide) (by decide)).1

/-! ## The nunchuk buttons -/

theorem bitNot_testBit (e k : Nat) (he : e < 256) (hk : k < 32) :
    (bitNot e).testBit k = !e.testBit k := by
  have h : bitNot e = 2 ^ 32 - (e + 1) := by
    unfold bitNot
    rw [Nat.mod_eq_of_lt (by omega)]
    norm_num
    omega
  rw [h, Nat.testBit_two_pow_sub_succ (by omega)]
  simp [hk]

theorem testBit_three (k : Nat) : Nat.testBit 3 k = decide (k < 2) := by
  have h : (3 : Nat) = 2 ^ 2 - 1 := by norm_num
  rw [h, Nat.testBit_two_pow_sub_one]

theorem nunchukButtons_testBit (c e j : Nat) (he : e < 256) :
    (c ||| ((bitNot e &&& 0x03) <<< 11)).testBit j =
      (c.testBit j || (decide (j = 11) && !e.testBit 0) || (decide (j = 12) && !e.testBit 1)) := by
  rw [Nat.testBit_or, Nat.testBit_shiftLeft, Nat.testBit_and, testBit_three]
  by_cases h11 : j = 11
  · subst h11
    simp [bitNot_testBit e 0 he (by decide)]
  · by_cases h12 : j = 12
    · subst h12
      simp [bitNot_testBit e 1 he (by decide)]
    · by_cases hge : 11 ≤ j
      · have : ¬ (j - 11 < 2) := by omega
        simp [h11, h12, this]
      · have : ¬ (j ≥ 11) := hge
        simp [h11, h12, this]

theorem updateExtension_buttonState (w : Wiimote) (d : List Nat)
    (hn : w.extensionDevice = Extension.NUNCHUK) (hd : 6 ≤ d.length) :
    (updateExtension w d).buttonState =
      w.buttonState ||| ((bitNot (decryptByte (pkt d 5)) &&& 0x03) <<< 11) := by
  have h5 := decryptLoop_pkt 6 d 5
  rw [if_pos ⟨by decide, by omega⟩] at h5
  unfold updateExtension
  simp only [hn, if_true]
  split_ifs <;> simp only [h5]

theorem updateExtension_joystick (w : Wiimote) (d : List Nat)
    (hn : w.extensionDevice = Extension.NUNCHUK) (hd : 6 ≤ d.length) (i : Nat) (hi : i < 2) :
    (updateExtension w d).joystick i =
      joystickValue (w.joystickAxes i) (decryptByte (pkt d i) : ℚ) := by
  have h0 := decryptLoop_pkt 6 d 0
  rw [if_pos ⟨by decide, by omega⟩] at h0
  have h1 := decryptLoop_pkt 6 d 1
  rw [if_pos ⟨by decide, by omega⟩] at h1
  unfold updateExtension
  simp only [hn, if_true, range_two, List.foldl_cons, List.foldl_nil]
  interval_cases i <;> split_ifs <;> simp [Function.update, h0, h1]

theorem storeTarget_core (w : Wiimote) (slot x y : Nat) :
    (storeTarget w slot x y).buttonState = w.buttonState ∧
      (storeTarget w slot x y).extensionDevice = w.extensionDevice ∧
      (storeTarget w slot x y).joystickAxes = w.joystickAxes := by
  unfold storeTarget
  split_ifs <;> exact ⟨rfl, rfl, rfl⟩

theorem updateIRTrackingBasic_core (w : Wiimote) (d : List Nat) :
    (updateIRTrackingBasic w d).buttonState = w.buttonState ∧
      (updateIRTrackingBasic w d).extensionDevice = w.extensionDevice ∧
      (updateIRTrackingBasic w d).joystickAxes = w.joystickAxes := by
  simp [updateIRTrackingBasic, range_two, storeTarget_core]

theorem block_length (wire : List Nat) (off : Nat) (h21 : off + 6 ≤ 21)
    (hlen : off + 6 ≤ wire.length) : 6 ≤ ((wire.take 21).drop off).length := by
  simp only [List.length_drop, List.length_take]
  omega

theorem block_pkt (wire : List Nat) (off k : Nat) (h : off + k < 21) :
    pkt ((wire.take 21).drop off) k = pkt wire (off + k) := by
  rw [pkt_drop, pkt_take _ _ _ h]

theorem nunchuk_decoded (w1 : Wiimote) (d : List Nat) (b0 b1 : Nat)
    (hb : w1.buttonState = (b1 &&& 0x1f) ||| ((b1 &&& 0x80) >>> 2) ||| ((b0 &&& 0x1f) <<< 6))
    (hn : w1.extensionDevice = Extension.NUNCHUK) (hd : 6 ≤ d.length) :
    getButtonState (notifyEvent (updateExtension w1 d)) BUTTON_Z
        = !(decryptByte (pkt d 5)).testBit 0 ∧
      getButtonState (notifyEvent (updateExtension w1 d)) BUTTON_C
        = !(decryptByte (pkt d 5)).testBit 1 ∧
      (∀ j, j < 11 → getButtonState (notifyEvent (updateExtension w1 d)) j =
        ((b1 &&& 0x1f) ||| ((b1 &&& 0x80) >>> 2) ||| ((b0 &&& 0x1f) <<< 6)).testBit j) ∧
      ∀ i, i < 2 → (notifyEvent (updateExtension w1 d)).joystick i =
        joystickValue (w1.joystickAxes i) (decryptByte (pkt d i) : ℚ) := by
  have hbs : (notifyEvent (updateExtension w1 d)).buttonState =
      ((b1 &&& 0x1f) ||| ((b1 &&& 0x80) >>> 2) ||| ((b0 &&& 0x1f) <<< 6)) |||
        ((bitNot (decryptByte (pkt d 5)) &&& 0x03) <<< 11) := by
    show (updateExtension w1 d).buttonState = _
    rw [updateExtension_buttonState w1 d hn hd, hb]
  have he := decryptByte_lt (pkt d 5)
  refine ⟨?_, ?_, ?_, ?_⟩
  · rw [getButtonState_eq_testBit, hbs, nunchukButtons_testBit _ _ _ he, compactButtons_testBit]
    simp [BUTTON_Z]
  · rw [getButtonState_eq_testBit, hbs, nunchukButtons_testBit _ _ _ he, compactButtons_testBit]
    simp [BUTTON_C]
  · intro j hj
    rw [getButtonState_eq_testBit, hbs, nunchukButtons_testBit _ _ _ he]
    have h1 : ¬ (j = 11) := by omega
    have h2 : ¬ (j = 12) := by omega
    simp [h1, h2]
  · intro i hi
    exact updateExtension_joystick w1 d hn hd i hi

theorem nunchuk_report_decoding (id off : Nat)
    (hid : (id, off) ∈ [(0x32, 4), (0x35, 7), (0x36, 14)]) (w : Wiimote) (wire : List Nat)
    (hm : w.reader = Reader.main) (hn : w.extensionDevice = Extension.NUNCHUK)
    (h0 : pkt wire 0 = 0xa1) (h1 : pkt wire 1 = id) (hlen : off + 6 ≤ wire.length) :
    getButtonState (receiverStep w wire) BUTTON_Z
        = !(decryptByte (pkt wire (off + 5))).testBit 0 ∧
      getButtonState (receiverStep w wire) BUTTON_C
        = !(decryptByte (pkt wire (off + 5))).testBit 1 ∧
      (∀ j, j < 11 → getButtonState (receiverStep w wire) j =
        getButtonState (updateCoreButtons w [pkt wire 2, pkt wire 3]) j) ∧
      ∀ i, i < 2 → (receiverStep w wire).joystick i =
        joystickValue (w.joystickAxes i) (decryptByte (pkt wire (off + i)) : ℚ) := by
  have hs : readSize wire > 0 := readSize_pos wire 0 0xa1 h0 (by decide)
  have p0 : pkt (wire.take 21) 0 = 0xa1 := by rw [pkt_take _ _ _ (by decide), h0]
  have p1 : pkt (wire.take 21) 1 = pkt wire 1 := pkt_take _ _ _ (by decide)
  have q0 : pkt ((wire.take 21).drop 2) 0 = pkt wire 2 := block_pkt wire 2 0 (by decide)
  have q1 : pkt ((wire.take 21).drop 2) 1 = pkt wire 3 := block_pkt wire 2 1 (by decide)
  have hcore : ∀ j, getButtonState (updateCoreButtons w [pkt wire 2, pkt wire 3]) j =
      ((pkt wire 3 &&& 0x1f) ||| ((pkt wire 3 &&& 0x80) >>> 2)
        ||| ((pkt wire 2 &&& 0x1f) <<< 6)).testBit j := by
    intro j
    rw [getButtonState_eq_testBit]
    rfl
  simp only [List.mem_cons, List.mem_singleton, List.not_mem_nil, or_false, Prod.mk.injEq] at hid
  rw [receiverStep_main w wire hm]
  unfold handlePacket
  rw [if_pos ⟨hs, p0⟩, p1, h1]
  rcases hid with ⟨hi, ho⟩ | ⟨hi, ho⟩ | ⟨hi, ho⟩ <;> subst hi <;> subst ho
  · simp only [show ¬ ((0x32 : Nat) = 0x20) by decide, show ¬ ((0x32 : Nat) = 0x21) by decide,
      show ¬ ((0x32 : Nat) = 0x22) by decide, show ¬ ((0x32 : Nat) = 0x30) by decide,
      show ¬ ((0x32 : Nat) = 0x31) by decide, if_false, if_true]
    have h := nunchuk_decoded (updateCoreButtons w ((wire.take 21).drop 2))
      ((wire.take 21).drop 4) (pkt wire 2) (pkt wire 3)
      (by show _ ||| _ ||| _ = _; rw [q0, q1]) hn (block_length wire 4 (by decide) hlen)
    simp only [block_pkt wire 4 _ (show 4 + 5 < 21 by decide)] at h
    refine ⟨h.1, h.2.1, fun j hj => (h.2.2.1 j hj).trans (hcore j).symm, fun i hi => ?_⟩
    have e := h.2.2.2 i hi
    rw [block_pkt wire 4 i (by omega)] at e
    exact e
  · simp only [show ¬ ((0x35 : Nat) = 0x20) by decide, show ¬ ((0x35 : Nat) = 0x21) by decide,
      show ¬ ((0x35 : Nat) = 0x22) by decide, show ¬ ((0x35 : Nat) = 0x30) by decide,
      show ¬ ((0x35 : Nat) = 0x31) by decide, show ¬ ((0x35 : Nat) = 0x32) by decide,
      show ¬ ((0x35 : Nat) = 0x33) by decide, if_false, if_true]
    have h := nunchuk_decoded
      (updateCoreAccelerometers (updateCoreButtons w ((wire.take 21).drop 2))
        ((wire.take 21).drop 2) ((wire.take 21).drop 4))
      ((wire.take 21).drop 7) (pkt wire 2) (pkt wire 3)
      (by show _ ||| _ ||| _ = _; rw [q0, q1]) hn (block_length wire 7 (by decide) hlen)
    simp only [block_pkt wire 7 _ (show 7 + 5 < 21 by decide)] at h
    refine ⟨h.1, h.2.1, fun j hj => (h.2.2.1 j hj).trans (hcore j).symm, fun i hi => ?_⟩
    have e := h.2.2.2 i hi
    rw [block_pkt wire 7 i (by omega)] at e
    exact e
  · simp only [show ¬ ((0x36 : Nat) = 0x20) by decide, show ¬ ((0x36 : Nat) = 0x21) by decide,
      show ¬ ((0x36 : Nat) = 0x22) by decide, show ¬ ((0x36 : Nat) = 0x30) by decide,
      show ¬ ((0x36 : Nat) = 0x31) by decide, show ¬ ((0x36 : Nat) = 0x32) by decide,
      show ¬ ((0x36 : Nat) = 0x33) by decide, show ¬ ((0x36 : Nat) = 0x35) by decide,
      if_false, if_true]
    have hc := updateIRTrackingBasic_core (updateCoreButtons w ((wire.take 21).drop 2))
      ((wire.take 21).drop 4)
    have h := nunchuk_decoded
      (updateIRTrackingBasic (updateCoreButtons w ((wire.take 21).drop 2))
        ((wire.take 21).drop 4))
      ((wire.take 21).drop 14) (pkt wire 2) (pkt wire 3)
      (by rw [hc.1]; show _ ||| _ ||| _ = _; rw [q0, q1]) (by rw [hc.2.1]; exact hn)
      (block_length wire 14 (by decide) hlen)
    simp only [block_pkt wire 14 _ (show 14 + 5 < 21 by decide)] at h
    refine ⟨h.1, h.2.1, fun j hj => (h.2.2.1 j hj).trans (hcore j).symm, fun i hi => ?_⟩
    have e := h.2.2.2 i hi
    rw [block_pkt wire 14 i (by omega), hc.2.2] at e
    exact e

/-- C11, failing input: report 0x37 with a nunchuk attached. The extension block of the
report is bytes 17..22; the state after the report is the same whatever bytes 21 and 22
of the report are, so the flag of button Z does not follow byte 5 of the block: for the
report ending in `80 01` the transformed byte 5 is 0x2d, whose bit 0 is 1, and button Z
reads true. -/
theorem nunchuk_buttons_past_buffer :
    (∀ e4 e5 : Nat,
      receiverStep nunchukState [0xa1, 0x37, 0, 0, 0x80, 0x80, 0x80, 0xff, 0xff, 0xff, 0xff, 0xff,
          0xff, 0xff, 0xff, 0xff, 0xff, 0x80, 0x80, 0x80, 0x80, e4, e5] =
        receiverStep nunchukState [0xa1, 0x37, 0, 0, 0x80, 0x80, 0x80, 0xff, 0xff, 0xff, 0xff,
          0xff, 0xff, 0xff, 0xff, 0xff, 0xff, 0x80, 0x80, 0x80, 0x80, 0, 0]) ∧
    decryptByte 0x01 = 0x2d ∧ (decryptByte 0x01).testBit 0 = true ∧
    getButtonState (receiverStep nunchukState [0xa1, 0x37, 0, 0, 0x80, 0x80, 0x80, 0xff, 0xff,
      0xff, 0xff, 0xff, 0xff, 0xff, 0xff, 0xff, 0xff, 0x80, 0x80, 0x80, 0x80, 0x80, 0x01])
      BUTTON_Z = true := by
  refine ⟨fun e4 e5 => ?_, by decide, by decide, by decide⟩
  rw [receiverStep_main _ _ rfl, receiverStep_main _ _ rfl]
  rfl

/-! ## The receive buffer -/

theorem readSize_le (wire : List Nat) : readSize wire ≤ 21 := by
  unfold readSize packetBufferSize
  simp only [List.length_take]
  omega

theorem updateExtensionOffsets_lt (w : Wiimote) (k : Nat) (hk : k + 6 ≤ 21) :
    ∀ o ∈ updateExtensionOffsets w k, o < 21 := by
  intro o ho
  unfold updateExtensionOffsets at ho
  simp only [range_six, range_two, List.map_cons, List.map_nil, List.mem_append, List.mem_cons,
    List.not_mem_nil, or_false] at ho
  rcases ho with h | h
  · omega
  · split_ifs at h <;> simp at h <;> omega

theorem updateIRTrackingBasicOffsets_lt (k : Nat) (hk : k + 10 ≤ 21) :
    ∀ o ∈ updateIRTrackingBasicOffsets k, o < 21 := by
  intro o ho
  simp [updateIRTrackingBasicOffsets, range_two] at ho
  omega

theorem updateIRTrackingExtendedOffsets_lt (k : Nat) (hk : k + 12 ≤ 21) :
    ∀ o ∈ updateIRTrackingExtendedOffsets k, o < 21 := by
  intro o ho
  simp [updateIRTrackingExtendedOffsets, range_four] at ho
  omega

theorem coreOffsets_lt :
    (∀ o ∈ updateCoreButtonsOffsets 2, o < 21) ∧
      ∀ o ∈ updateCoreAccelerometersOffsets 2 4, o < 21 := by
  constructor <;> intro o ho <;>
    simp [updateCoreButtonsOffsets, updateCoreAccelerometersOffsets] at ho <;> omega

theorem downloadOffsets_lt (w : Wiimote) (packet : List Nat)
    (h21 : (pkt packet 4 >>> 4) + 1 ≤ 14) :
    ∀ o ∈ (if w.downloadActive then
        4 :: (if pkt packet 4 &&& 0x0f ≠ 0 then []
          else
            let packetDataSize := (pkt packet 4 >>> 4) + 1
            let count := if toInt w.downloadSize ≤ 0 then 0
              else min packetDataSize (toInt w.downloadSize).toNat
            4 :: (List.range count).map (fun i => 7 + i))
      else []), o < 21 := by
  intro o ho
  split_ifs at ho
  · simp at ho
    omega
  · simp at ho
    omega
  · simp only [List.mem_cons, List.mem_map, List.mem_range, lt_min_iff] at ho
    rcases ho with h | h | ⟨i, hi, rfl⟩ <;> omega
  · simp at ho

theorem handlePacketOffsets_lt (w : Wiimote) (packet : List Nat) (n : Nat)
    (h37 : pkt packet 1 ≠ 0x37)
    (h21 : pkt packet 1 = 0x21 → (pkt packet 4 >>> 4) + 1 ≤ 14) :
    ∀ o ∈ handlePacketOffsets w packet n, o < 21 := by
  intro o ho
  have hb := coreOffsets_lt.1
  have ha := coreOffsets_lt.2
  unfold handlePacketOffsets at ho
  by_cases hn : n > 0
  swap
  · rw [if_neg hn] at ho
    simp at ho
  rw [if_pos hn, List.mem_cons] at ho
  rcases ho with h | ho
  · omega
  by_cases hf : pkt packet 0 = 0xa1
  swap
  · rw [if_neg hf] at ho
    simp at ho
  rw [if_pos hf, List.mem_cons] at ho
  rcases ho with h | ho
  · omega
  by_cases c : pkt packet 1 = 0x20
  · rw [if_pos c] at ho
    simp at ho
    omega
  rw [if_neg c] at ho
  clear c
  by_cases c : pkt packet 1 = 0x21
  · rw [if_pos c, List.mem_append] at ho
    rcases ho with h | h
    · exact hb o h
    · exact downloadOffsets_lt w packet (h21 c) o h
  rw [if_neg c] at ho
  clear c
  by_cases c : pkt packet 1 = 0x22
  · rw [if_pos c, List.mem_append] at ho
    rcases ho with h | h
    · exact hb o h
    · split_ifs at h <;> simp at h
      omega
  rw [if_neg c] at ho
  clear c
  by_cases c : pkt packet 1 = 0x30
  · rw [if_pos c] at ho
    exact hb o ho
  rw [if_neg c] at ho
  clear c
  by_cases c : pkt packet 1 = 0x31
  · rw [if_pos c, List.mem_append] at ho
    rcases ho with h | h
    · exact hb o h
    · exact ha o h
  rw [if_neg c] at ho
  clear c
  by_cases c : pkt packet 1 = 0x32
  · rw [if_pos c, List.mem_append] at ho
    rcases ho with h | h
    · exact hb o h
    · exact updateExtensionOffsets_lt w 4 (by decide) o h
  rw [if_neg c] at ho
  clear c
  by_cases c : pkt packet 1 = 0x33
  · rw [if_pos c, List.mem_append, List.mem_append] at ho
    rcases ho with (h | h) | h
    · exact hb o h
    · exact ha o h
    · exact updateIRTrackingExtendedOffsets_lt 7 (by decide) o h
  rw [if_neg c] at ho
  clear c
  by_cases c : pkt packet 1 = 0x35
  · rw [if_pos c, List.mem_append, List.mem_append] at ho
    rcases ho with (h | h) | h
    · exact hb o h
    · exact ha o h
    · exact updateExtensionOffsets_lt w 7 (by decide) o h
  rw [if_neg c] at ho
  clear c
  by_cases c : pkt packet 1 = 0x36
  · rw [if_pos c, List.mem_append, List.mem_append] at ho
    rcases ho with (h | h) | h
    · exact hb o h
    · exact updateIRTrackingBasicOffsets_lt 4 (by decide) o h
    · exact updateExtensionOffsets_lt w 14 (by decide) o h
  rw [if_neg c, if_neg h37] at ho
  simp at ho

theorem receiverStepOffsets_lt (w : Wiimote) (wire : List Nat)
    (h37 : w.reader = Reader.main → pkt wire 1 ≠ 0x37)
    (h21 : w.reader = Reader.main → pkt wire 1 = 0x21 → (pkt wire 4 >>> 4) + 1 ≤ 14) :
    ∀ o ∈ receiverStepOffsets w wire, o < 21 := by
  intro o ho
  have hs := readSize_le wire
  unfold receiverStepOffsets at ho
  cases hr : w.reader with
  | main =>
    rw [hr] at ho
    simp only [readInto_nil] at ho
    refine handlePacketOffsets_lt w (wire.take 21) (readSize wire) ?_ ?_ o ho
    · rw [pkt_take _ _ _ (by decide)]
      exact h37 hr
    · rw [pkt_take _ _ _ (by decide), pkt_take _ _ _ (by decide)]
      exact h21 hr
  | enableAck b =>
    rw [hr] at ho
    simp only [] at ho
    split_ifs at ho <;> simp at ho
    omega
  | extensionType b =>
    rw [hr] at ho
    simp only [] at ho
    split_ifs at ho <;> simp at ho <;> omega
  | calibration b =>
    rw [hr] at ho
    simp only [] at ho
    split_ifs at ho
    · simp at ho
    · simp at ho
      omega
    · simp only [range_two, range_three, List.mem_cons, List.mem_append, List.mem_map,
        List.mem_range, List.map_cons, List.map_nil, List.flatten_cons, List.flatten_nil,
        List.not_mem_nil, or_false, List.append_nil, List.cons_append, List.nil_append] at ho
      rcases ho with h | ⟨i, hi, rfl⟩ | h | h <;> omega
  | irModeAck b rd =>
    rw [hr] at ho
    simp only [] at ho
    split_ifs at ho <;> simp at ho
    omega

/-- C19, failing input: the receive buffer has 21 bytes, offsets 0 to 20. Handling a
report 0x37 accesses offsets 21 and 22 of `packet` (the end of the extension block at
17..22), and handling a 0x21 reply with size nibble 15 during a download of 16 bytes
accesses offsets 21 and 22 (the end of the data at 7..22). The accesses are real: with
`packet` laid over memory that goes on past offset 20, the button state after the
report, and the downloaded data after the reply, change with the byte at offset 22. -/
theorem offsets_past_buffer :
    packetBufferSize = 21 ∧
    (21 ∈ receiverStepOffsets initial (report37 0x80 0x01) ∧
      22 ∈ receiverStepOffsets initial (report37 0x80 0x01)) ∧
    (21 ∈ receiverStepOffsets (downloadDataBegin initial false 0 16) (reply16 15 16) ∧
      22 ∈ receiverStepOffsets (downloadDataBegin initial false 0 16) (reply16 15 16)) ∧
    (handlePacket nunchukState (report37 0x80 0x00) 21).buttonState ≠
      (handlePacket nunchukState (report37 0x80 0x01) 21).buttonState ∧
    (handlePacket (downloadDataBegin initial false 0 16) (reply16 15 16) 21).downloadDataBuffer ≠
      (handlePacket (downloadDataBegin initial false 0 16) (reply16 15 17) 21).downloadDataBuffer := by
  refine ⟨rfl, ⟨by decide, by decide⟩, ⟨by decide, by decide⟩, by decide, by decide⟩

/-! ## Packets skipped by the nested waits -/

theorem nested_wait_skips (u : Wiimote) (wire : List Nat) (hn : u.reader ≠ Reader.main)
    (hl : 2 ≤ wire.length) (h : pkt wire 1 ∉ [0x21, 0x22]) :
    { receiverStep u wire with reader := u.reader } = u ∧
      (receiverStep u wire).reader ≠ Reader.main := by
  simp only [List.mem_cons, List.mem_singleton, List.not_mem_nil, or_false, not_or] at h
  have p1 : ∀ b, pkt (readInto b wire) 1 = pkt wire 1 := fun b =>
    pkt_readInto _ _ _ (by omega) (by decide)
  cases hr : u.reader with
  | main => exact absurd hr hn
  | enableAck b =>
    unfold receiverStep
    rw [hr]
    simp only []
    rw [if_pos (Or.inr (by rw [p1]; exact h.2))]
    refine ⟨?_, fun c => Reader.noConfusion c⟩
    rw [← hr]
  | extensionType b =>
    unfold receiverStep
    rw [hr]
    simp only []
    rw [if_pos (Or.inr (by rw [p1]; exact h.1))]
    refine ⟨?_, fun c => Reader.noConfusion c⟩
    rw [← hr]
  | calibration b =>
    unfold receiverStep
    rw [hr]
    simp only []
    rw [if_pos (Or.inr (by rw [p1]; exact h.1))]
    refine ⟨?_, fun c => Reader.noConfusion c⟩
    rw [← hr]
  | irModeAck b rd =>
    unfold receiverStep
    rw [hr]
    simp only []
    rw [if_pos (Or.inr (by rw [p1]; exact h.2))]
    refine ⟨?_, fun c => Reader.noConfusion c⟩
    rw [← hr]

/-! ## The joystick value -/

theorem joystickValue_low (ax : AxisSettings) (v : ℚ) (h1 : ax.minValue < ax.center - ax.flat)
    (hv : ax.minValue ≤ v) (hv2 : v < ax.center - ax.flat) :
    joystickValue ax v = (v - (ax.center - ax.flat)) / ((ax.center - ax.flat) - ax.minValue) ∧
      -1 ≤ joystickValue ax v ∧ joystickValue ax v < 0 := by
  have e : joystickValue ax v =
      (v - (ax.center - ax.flat)) / ((ax.center - ax.flat) - ax.minValue) := by
    unfold joystickValue
    rw [if_neg (not_lt.mpr hv), if_pos hv2]
  have hpos : 0 < (ax.center - ax.flat) - ax.minValue := by linarith
  refine ⟨e, ?_, ?_⟩
  · rw [e, le_div_iff₀ hpos]
    linarith
  · rw [e]
    exact div_neg_of_neg_of_pos (by linarith) hpos

theorem joystickValue_high (ax : AxisSettings) (v : ℚ)
    (h2 : ax.center - ax.flat < ax.center + ax.flat) (h3 : ax.center + ax.flat < ax.maxValue)
    (h1 : ax.minValue < ax.center - ax.flat)
    (hv : ax.center + ax.flat ≤ v) (hv2 : v < ax.maxValue) :
    joystickValue ax v = (v - (ax.center + ax.flat)) / (ax.maxValue - (ax.center + ax.flat)) ∧
      0 ≤ joystickValue ax v ∧ joystickValue ax v < 1 := by
  have e : joystickValue ax v =
      (v - (ax.center + ax.flat)) / (ax.maxValue - (ax.center + ax.flat)) := by
    unfold joystickValue
    rw [if_neg (not_lt.mpr (by linarith)), if_neg (not_lt.mpr (by linarith)),
      if_neg (not_lt.mpr hv), if_pos hv2]
  have hpos : 0 < ax.maxValue - (ax.center + ax.flat) := by linarith
  refine ⟨e, ?_, ?_⟩
  · rw [e]
    exact div_nonneg (by linarith) hpos.le
  · rw [e, div_lt_iff₀ hpos]
    linarith

theorem joystickValue_below (ax : AxisSettings) (v : ℚ) (hv : v < ax.minValue) :
    joystickValue ax v = -1 := by
  unfold joystickValue
  rw [if_pos hv]

theorem joystickValue_flat (ax : AxisSettings) (v : ℚ) (h1 : ax.minValue < ax.center - ax.flat)
    (hv : ax.center - ax.flat ≤ v) (hv2 : v < ax.center + ax.flat) :
    joystickValue ax v = 0 := by
  unfold joystickValue
  rw [if_neg (not_lt.mpr (by linarith)), if_neg (not_lt.mpr hv), if_pos hv2]

theorem joystickValue_above (ax : AxisSettings) (v : ℚ) (h1 : ax.minValue < ax.center - ax.flat)
    (h2 : ax.center - ax.flat < ax.center + ax.flat) (h3 : ax.center + ax.flat < ax.maxValue)
    (hv : ax.maxValue ≤ v) : joystickValue ax v = 1 := by
  unfold joystickValue
  rw [if_neg (not_lt.mpr (by linarith)), if_neg (not_lt.mpr (by linarith)),
    if_neg (not_lt.mpr (by linarith)), if_neg (not_lt.mpr hv)]

theorem joystickValue_bounds (ax : AxisSettings) (v : ℚ) (h1 : ax.minValue < ax.center - ax.flat)
    (h2 : ax.center - ax.flat < ax.center + ax.flat) (h3 : ax.center + ax.flat < ax.maxValue) :
    -1 ≤ joystickValue ax v ∧ joystickValue ax v ≤ 1 := by
  by_cases a : v < ax.minValue
  · rw [joystickValue_below ax v a]; norm_num
  by_cases b : v < ax.center - ax.flat
  · obtain ⟨_, l, u⟩ := joystickValue_low ax v h1 (not_lt.mp a) b
    exact ⟨l, by linarith⟩
  by_cases c : v < ax.center + ax.flat
  · rw [joystickValue_flat ax v h1 (not_lt.mp b) c]; norm_num
  by_cases d : v < ax.maxValue
  · obtain ⟨_, l, u⟩ := joystickValue_high ax v h2 h3 h1 (not_lt.mp c) d
    exact ⟨by linarith, u.le⟩
  · rw [joystickValue_above ax v h1 h2 h3 (not_lt.mp d)]; norm_num

theorem joystickValue_mono (ax : AxisSettings) (u v : ℚ) (h1 : ax.minValue < ax.center - ax.flat)
    (h2 : ax.center - ax.flat < ax.center + ax.flat) (h3 : ax.center + ax.flat < ax.maxValue)
    (huv : u ≤ v) : joystickValue ax u ≤ joystickValue ax v := by
  have bv := joystickValue_bounds ax v h1 h2 h3
  have bu := joystickValue_bounds ax u h1 h2 h3
  by_cases a : u < ax.minValue
  · rw [joystickValue_below ax u a]; exact bv.1
  by_cases b : u < ax.center - ax.flat
  · obtain ⟨eu, _, uu⟩ := joystickValue_low ax u h1 (not_lt.mp a) b
    by_cases b2 : v < ax.center - ax.flat
    · obtain ⟨ev, _, _⟩ := joystickValue_low ax v h1 (by linarith) b2
      rw [eu, ev]
      exact div_le_div_of_nonneg_right (by linarith) (by linarith)
    by_cases c2 : v < ax.center + ax.flat
    · rw [joystickValue_flat ax v h1 (not_lt.mp b2) c2]; exact uu.le
    by_cases d2 : v < ax.maxValue
    · obtain ⟨_, lv, _⟩ := joystickValue_high ax v h2 h3 h1 (not_lt.mp c2) d2
      linarith
    · rw [joystickValue_above ax v h1 h2 h3 (not_lt.mp d2)]; exact bu.2
  by_cases c : u < ax.center + ax.flat
  · rw [joystickValue_flat ax u h1 (not_lt.mp b) c]
    by_cases c2 : v < ax.center + ax.flat
    · rw [joystickValue_flat ax v h1 (by linarith) c2]
    by_cases d2 : v < ax.maxValue
    · exact (joystickValue_high ax v h2 h3 h1 (not_lt.mp c2) d2).2.1
    · rw [joystickValue_above ax v h1 h2 h3 (not_lt.mp d2)]; norm_num
  by_cases d : u < ax.maxValue
  · obtain ⟨eu, _, _⟩ := joystickValue_high ax u h2 h3 h1 (not_lt.mp c) d
    by_cases d2 : v < ax.maxValue
    · obtain ⟨ev, _, _⟩ := joystickValue_high ax v h2 h3 h1 (by linarith) d2
      rw [eu, ev]
      exact div_le_div_of_nonneg_right (by linarith) (by linarith)
    · rw [joystickValue_above ax v h1 h2 h3 (not_lt.mp d2)]; exact bu.2
  · rw [joystickValue_above ax u h1 h2 h3 (not_lt.mp d),
      joystickValue_above ax v h1 h2 h3 (by linarith)]

/-- C21: with extension identity NUNCHUK and an axis calibration with
`min < center - flat < center + flat < max`, the joystick value that `updateExtension`
computes for axis `i` from a block is the piecewise-linear function `joystickValue` of
the de-obfuscated byte `i`; over exact rational arithmetic that function takes values
in [-1, 1] only, is -1 below `min`, 0 from `center - flat` up to `center + flat`, 1
from `max` on, and is non-decreasing. -/
theorem nunchuk_joystick_range (w : Wiimote) (i : Nat) (hi : i < 2)
    (hn : w.extensionDevice = Extension.NUNCHUK)
    (h1 : (w.joystickAxes i).minValue < (w.joystickAxes i).center - (w.joystickAxes i).flat)
    (h2 : (w.joystickAxes i).center - (w.joystickAxes i).flat
      < (w.joystickAxes i).center + (w.joystickAxes i).flat)
    (h3 : (w.joystickAxes i).center + (w.joystickAxes i).flat < (w.joystickAxes i).maxValue) :
    (∀ d : List Nat, 6 ≤ d.length →
      (updateExtension w d).joystick i =
        joystickValue (w.joystickAxes i) (decryptByte (pkt d i) : ℚ)) ∧
    (∀ v : ℚ, -1 ≤ joystickValue (w.joystickAxes i) v ∧ joystickValue (w.joystickAxes i) v ≤ 1) ∧
    (∀ v : ℚ, v < (w.joystickAxes i).minValue → joystickValue (w.joystickAxes i) v = -1) ∧
    (∀ v : ℚ, (w.joystickAxes i).center - (w.joystickAxes i).flat ≤ v →
      v < (w.joystickAxes i).center + (w.joystickAxes i).flat →
      joystickValue (w.joystickAxes i) v = 0) ∧
    (∀ v : ℚ, (w.joystickAxes i).maxValue ≤ v → joystickValue (w.joystickAxes i) v = 1) ∧
    (∀ u v : ℚ, u ≤ v →
      joystickValue (w.joystickAxes i) u ≤ joystickValue (w.joystickAxes i) v) ∧
    ∀ d e : List Nat, 6 ≤ d.length → 6 ≤ e.length →
      decryptByte (pkt d i) ≤ decryptByte (pkt e i) →
      -1 ≤ (updateExtension w d).joystick i ∧
        (updateExtension w d).joystick i ≤ (updateExtension w e).joystick i ∧
        (updateExtension w e).joystick i ≤ 1 := by
  refine ⟨fun d hd => updateExtension_joystick w d hn hd i hi,
    fun v => joystickValue_bounds _ v h1 h2 h3,
    fun v hv => joystickValue_below _ v hv,
    fun v ha hb => joystickValue_flat _ v h1 ha hb,
    fun v hv => joystickValue_above _ v h1 h2 h3 hv,
    fun u v huv => joystickValue_mono _ u v h1 h2 h3 huv, ?_⟩
  intro d e hd he hde
  rw [updateExtension_joystick w d hn hd i hi, updateExtension_joystick w e hn he i hi]
  exact ⟨(joystickValue_bounds _ _ h1 h2 h3).1,
    joystickValue_mono _ _ _ h1 h2 h3 (by exact_mod_cast hde),
    (joystickValue_bounds _ _ h1 h2 h3).2⟩

theorem nunchuk_joystick_range_witness :
    (updateExtension calibratedNunchuk [0, 1, 2, 3, 4, 5]).joystick 0 =
      joystickValue (calibratedNunchuk.joystickAxes 0) (decryptByte (pkt [0, 1, 2, 3, 4, 5] 0) : ℚ) ∧
    -1 ≤ joystickValue (calibratedNunchuk.joystickAxes 0) 100 ∧
    joystickValue (calibratedNunchuk.joystickAxes 0) 100 ≤ 1 :=
  have h := nunchuk_joystick_range calibratedNunchuk 0 (by decide) rfl
    (by simp [calibratedNunchuk]; norm_num) (by simp [calibratedNunchuk]; norm_num)
    (by simp [calibratedNunchuk]; norm_num)
  ⟨h.1 [0, 1, 2, 3, 4, 5] (by decide), (h.2.1 100).1, (h.2.1 100).2⟩

/-! ## The live calibration of the core accelerometers -/

theorem storeCoreCalibration_gains (w : Wiimote) (calibration : List Nat) (i : Nat)
    (hi : i < 3) :
    (storeCoreCalibration w calibration).accelerometerGains i =
      2 * (pkt calibration (4 + i) : ℚ) - 2 * (pkt calibration i : ℚ) := by
  unfold storeCoreCalibration
  simp only [range_three, List.foldl_cons, List.foldl_nil, Nat.shiftLeft_eq, pow_one]
  interval_cases i <;> simp [Function.update] <;> ring

/-- C22, counterexample: the device answers the constructor's download of the
calibration block with the 8 bytes `80 80 80 00 80 80 80 00`, whose bytes 4 to 6 equal
its bytes 0 to 2; the constructor stores the block and all three core gains are 0. -/
theorem live_calibration_zero_gain :
    liveGain initial [[0xa1, 0x21, 0, 0, 0x70, 0, 0x16, 0x80, 0x80, 0x80, 0, 0x80, 0x80, 0x80, 0]] 0
      = some 0 ∧
    liveGain initial [[0xa1, 0x21, 0, 0, 0x70, 0, 0x16, 0x80, 0x80, 0x80, 0, 0x80, 0x80, 0x80, 0]] 1
      = some 0 ∧
    liveGain initial [[0xa1, 0x21, 0, 0, 0x70, 0, 0x16, 0x80, 0x80, 0x80, 0, 0x80, 0x80, 0x80, 0]] 2
      = some 0 := by
  obtain ⟨w1, hd, _⟩ := downloadData_fit initial rfl rfl false 0x000016 8 (by decide) (by decide)
    [[0xa1, 0x21, 0, 0, 0x70, 0, 0x16, 0x80, 0x80, 0x80, 0, 0x80, 0x80, 0x80, 0]] (by decide) []
  rw [List.append_nil] at hd
  have hdata : ([[0xa1, 0x21, 0, 0, 0x70, 0, 0x16, 0x80, 0x80, 0x80, 0, 0x80, 0x80, 0x80,
      0]].map replyData).flatten = [0x80, 0x80, 0x80, 0, 0x80, 0x80, 0x80, 0] := by decide
  rw [hdata] at hd
  have hl : ∀ i, liveGain initial
      [[0xa1, 0x21, 0, 0, 0x70, 0, 0x16, 0x80, 0x80, 0x80, 0, 0x80, 0x80, 0x80, 0]] i =
      some ((storeCoreCalibration w1 [0x80, 0x80, 0x80, 0, 0x80, 0x80, 0x80, 0]).accelerometerGains
        i) := by
    intro i
    unfold liveGain liveCalibration
    rw [hd]
  rw [hl 0, hl 1, hl 2, storeCoreCalibration_gains _ _ 0 (by decide),
    storeCoreCalibration_gains _ _ 1 (by decide), storeCoreCalibration_gains _ _ 2 (by decide)]
  simp [pkt]

/-- C22, amended: for every calibration block, the gain the constructor stores for
core axis `i` is `2 * block[4+i] - 2 * block[i]`; it is nonzero exactly when
`block[4+i]` differs from `block[i]`, and the constructor stores it unchecked. -/
theorem live_calibration_gain (w : Wiimote) (calibration : List Nat) (i : Nat) (hi : i < 3) :
    (storeCoreCalibration w calibration).accelerometerGains i =
      2 * (pkt calibration (4 + i) : ℚ) - 2 * (pkt calibration i : ℚ) ∧
    ((storeCoreCalibration w calibration).accelerometerGains i ≠ 0 ↔
      pkt calibration (4 + i) ≠ pkt calibration i) := by
  have e := storeCoreCalibration_gains w calibration i hi
  refine ⟨e, ?_⟩
  rw [e]
  constructor
  · intro h c
    apply h
    rw [c]
    ring
  · intro h c
    apply h
    have : (pkt calibration (4 + i) : ℚ) = (pkt calibration i : ℚ) := by linarith
    exact_mod_cast this

theorem live_calibration_gain_witness :
    (storeCoreCalibration initial [0x80, 0x80, 0x80, 0, 0x9a, 0x9a, 0x9a, 0]).accelerometerGains 1 =
      2 * (pkt [0x80, 0x80, 0x80, 0, 0x9a, 0x9a, 0x9a, 0] (4 + 1) : ℚ) -
        2 * (pkt [0x80, 0x80, 0x80, 0, 0x9a, 0x9a, 0x9a, 0] 1 : ℚ) ∧
    ((storeCoreCalibration initial [0x80, 0x80, 0x80, 0, 0x9a, 0x9a, 0x9a, 0]).accelerometerGains 1
        ≠ 0 ↔
      pkt [0x80, 0x80, 0x80, 0, 0x9a, 0x9a, 0x9a, 0] (4 + 1) ≠
        pkt [0x80, 0x80, 0x80, 0, 0x9a, 0x9a, 0x9a, 0] 1) :=
  live_calibration_gain initial [0x80, 0x80, 0x80, 0, 0x9a, 0x9a, 0x9a, 0] 1 (by decide)

/-! ## Re-encoding of the button field -/

theorem updateCoreButtons_testBit (w : Wiimote) (b0 b1 i : Nat) :
    (updateCoreButtons w [b0, b1]).buttonState.testBit i =
      ((decide (i < 5) && b1.testBit i) || (decide (i = 5) && b1.testBit 7)
        || (decide (6 ≤ i ∧ i < 11) && b0.testBit (i - 6))) := by
  show ((b1 &&& 0x1f) ||| ((b1 &&& 0x80) >>> 2) ||| ((b0 &&& 0x1f) <<< 6)).testBit i = _
  exact compactButtons_testBit b0 b1 i

theorem testBit_31 (k : Nat) : Nat.testBit 31 k = decide (k < 5) := by
  have h : (31 : Nat) = 2 ^ 5 - 1 := by norm_num
  rw [h, Nat.testBit_two_pow_sub_one]

theorem testBit_32 (k : Nat) : Nat.testBit 32 k = decide (5 = k) := by
  have h : (32 : Nat) = 2 ^ 5 := by norm_num
  rw [h, Nat.testBit_two_pow]

theorem encodeButtons_testBit (f : Nat) :
    (∀ k, k < 5 → ((f >>> 6) &&& 0x1f).testBit k = f.testBit (6 + k)) ∧
    (∀ k, k < 5 → ((f &&& 0x1f) ||| ((f &&& 0x20) <<< 2)).testBit k = f.testBit k) ∧
    ((f &&& 0x1f) ||| ((f &&& 0x20) <<< 2)).testBit 7 = f.testBit 5 := by
  refine ⟨fun k hk => ?_, fun k hk => ?_, ?_⟩
  · simp [Nat.testBit_and, Nat.testBit_shiftRight, testBit_31, hk]
  · have h5 : ¬ (5 = k - 2) := by omega
    simp [Nat.testBit_or, Nat.testBit_and, Nat.testBit_shiftLeft, testBit_31, testBit_32, hk, h5]
  · simp [Nat.testBit_or, Nat.testBit_and, Nat.testBit_shiftLeft, testBit_31, testBit_32]

theorem reencoded_field (w : Wiimote) (b0 b1 : Nat) :
    (updateCoreButtons w (encodeButtons (updateCoreButtons w [b0, b1]).buttonState)).buttonState
      = (updateCoreButtons w [b0, b1]).buttonState := by
  apply Nat.eq_of_testBit_eq
  intro i
  unfold encodeButtons
  rw [updateCoreButtons_testBit]
  obtain ⟨e0, e1, e7⟩ := encodeButtons_testBit (updateCoreButtons w [b0, b1]).buttonState
  by_cases h5 : i < 5
  · have a : ¬ (i = 5) := by omega
    have b : ¬ (6 ≤ i ∧ i < 11) := by omega
    simp [h5, a, b, e1 i h5]
  · by_cases h : i = 5
    · subst h
      simp [e7]
    · by_cases h11 : i < 11
      · have b : 6 ≤ i ∧ i < 11 := by omega
        have c : 6 + (i - 6) = i := by omega
        simp [h5, h, b, e0 (i - 6) (by omega), c]
      · have b : ¬ (6 ≤ i ∧ i < 11) := by omega
        rw [updateCoreButtons_testBit]
        simp [h5, h, b]

/-- C23: the encoder `encodeButtons` re-encodes every button field the decoder can
produce without loss: decoding the encoding of the field decoded from any prefix gives
that field again. Two prefixes decode to the same flags if and only if they agree on
bits 0 to 4 of byte 0 and on bits 0 to 4 and 7 of byte 1. -/
theorem button_compaction_reencodes (w : Wiimote) (b0 b1 c0 c1 : Nat) :
    (updateCoreButtons w (encodeButtons (updateCoreButtons w [b0, b1]).buttonState)).buttonState
      = (updateCoreButtons w [b0, b1]).buttonState ∧
    ((∀ i, getButtonState (updateCoreButtons w [b0, b1]) i =
        getButtonState (updateCoreButtons w [c0, c1]) i) ↔
      ((∀ k, k < 5 → b0.testBit k = c0.testBit k) ∧
        (∀ k, k < 5 ∨ k = 7 → b1.testBit k = c1.testBit k))) := by
  refine ⟨reencoded_field w b0 b1, ?_⟩
  simp only [getButtonState_eq_testBit, updateCoreButtons_testBit]
  constructor
  · intro h
    refine ⟨fun k hk => ?_, fun k hk => ?_⟩
    · have e := h (6 + k)
      have a : ¬ (6 + k < 5) := by omega
      have b : ¬ (6 + k = 5) := by omega
      have c : 6 ≤ 6 + k ∧ 6 + k < 11 := by omega
      simpa [a, b, c] using e
    · rcases hk with hk | hk
      · have e := h k
        have b : ¬ (k = 5) := by omega
        have c : ¬ (6 ≤ k ∧ k < 11) := by omega
        simpa [hk, b, c] using e
      · subst hk
        have e := h 5
        simpa using e
  · rintro ⟨h0, h1⟩ i
    by_cases h5 : i < 5
    · rw [h1 i (Or.inl h5)]
      have b : ¬ (i = 5) := by omega
      have c : ¬ (6 ≤ i ∧ i < 11) := by omega
      simp [b, c]
    · by_cases h : i = 5
      · subst h
        simp [h1 7 (Or.inr rfl)]
      · by_cases h11 : i < 11
        · have c : 6 ≤ i ∧ i < 11 := by omega
          simp [h5, h, c, h0 (i - 6) (by omega)]
        · have c : ¬ (6 ≤ i ∧ i < 11) := by omega
          simp [h5, h, c]

/-! ## The extension transform as a map on bytes -/

set_option maxRecDepth 100000 in
theorem obfuscate_decrypt :
    ∀ b, b < 256 → obfuscateByte (decryptByte b) = b ∧ decryptByte (obfuscateByte b) = b ∧
      obfuscateByte b < 256 := by
  decide

theorem decryptByte_injOn (a b : Nat) (ha : a < 256) (hb : b < 256)
    (h : decryptByte a = decryptByte b) : a = b := by
  rw [← (obfuscate_decrypt a ha).1, ← (obfuscate_decrypt b hb).1, h]

set_option maxRecDepth 100000 in
theorem decryptByte_twice_fixed :
    (List.range 256).filter (fun b => decryptByte (decryptByte b) == b) =
      [23, 31, 55, 63, 87, 95, 119, 127, 151, 159, 183, 191, 215, 223, 247, 255] := by
  decide

set_option maxRecDepth 100000 in
theorem decrypt_obfuscate_range :
    (List.range 256).map (fun c => decryptByte (obfuscateByte c)) = List.range 256 ∧
    ((List.range 256).map obfuscateByte).all (fun b => decide (b < 256)) = true := by
  refine ⟨by decide, by decide⟩

/-- C24, counterexample: applying the transform twice to the byte 0 gives 0x50, not 0;
only 16 of the 256 byte values are returned by the transform applied twice. -/
theorem decryptByte_not_involutive :
    decryptByte 0 = 0x2e ∧ decryptByte (decryptByte 0) = 0x50 ∧
    (List.range 256).filter (fun b => decryptByte (decryptByte b) == b) =
      [23, 31, 55, 63, 87, 95, 119, 127, 151, 159, 183, 191, 215, 223, 247, 255] := by
  refine ⟨by decide, by decide, decryptByte_twice_fixed⟩

/-- C24, amended: the transform `f b = ((b XOR 0x17) + 0x17) mod 256` of
`updateExtension` is invertible on bytes, with inverse
`g c = ((c - 0x17) mod 256) XOR 0x17`: `g (f b) = b` and `f (g b) = b` for every byte
value `b`; the transform itself is its own inverse only where `f (f b) = b`, which is
not the case for `b = 0`. -/
theorem decryptByte_inverse (b : Nat) (hb : b < 256) :
    obfuscateByte (decryptByte b) = b ∧ decryptByte (obfuscateByte b) = b ∧
    obfuscateByte b < 256 ∧ decryptByte b < 256 ∧
    decryptByte (decryptByte 0) ≠ 0 :=
  ⟨(obfuscate_decrypt b hb).1, (obfuscate_decrypt b hb).2.1, (obfuscate_decrypt b hb).2.2,
    decryptByte_lt b, by decide⟩

theorem decryptByte_inverse_witness :
    obfuscateByte (decryptByte 0x80) = 0x80 ∧ decryptByte (obfuscateByte 0x80) = 0x80 ∧
    obfuscateByte 0x80 < 256 ∧ decryptByte 0x80 < 256 ∧
    decryptByte (decryptByte 0) ≠ 0 :=
  decryptByte_inverse 0x80 (by decide)

/-- C25, counterexample: the images of the 256 byte values under the transform are
pairwise distinct, and every byte value `c` is the image of the byte `obfuscateByte c`:
no two distinct bytes have the same image and no byte is missed. -/
theorem decryptByte_not_lossy :
    ((List.range 256).map decryptByte).Nodup ∧
    (List.range 256).map (fun c => decryptByte (obfuscateByte c)) = List.range 256 ∧
    ((List.range 256).map obfuscateByte).all (fun b => decide (b < 256)) = true := by
  refine ⟨?_, decrypt_obfuscate_range.1, decrypt_obfuscate_range.2⟩
  apply List.Nodup.map_on _ (List.nodup_range 256)
  intro a ha b hb h
  exact decryptByte_injOn a b (List.mem_range.mp ha) (List.mem_range.mp hb) h

/-- C25, amended: the transform `f b = ((b XOR 0x17) + 0x17) mod 256` is a bijection on
bytes: two byte values have the same image only if they are equal, every image is a
byte, and every byte value is the image of some byte value. -/
theorem decryptByte_bijective (a b : Nat) (ha : a < 256) (hb : b < 256) :
    (decryptByte a = decryptByte b ↔ a = b) ∧ decryptByte a < 256 ∧
    ∃ c, c < 256 ∧ decryptByte c = a :=
  ⟨⟨decryptByte_injOn a b ha hb, fun h => by rw [h]⟩, decryptByte_lt a,
    obfuscateByte a, (obfuscate_decrypt a ha).2.2, (obfuscate_decrypt a ha).2.1⟩

theorem decryptByte_bijective_witness :
    (decryptByte 0 = decryptByte 1 ↔ 0 = 1) ∧ decryptByte 0 < 256 ∧
    ∃ c, c < 256 ∧ decryptByte c = 0 :=
  decryptByte_bijective 0 1 (by decide) (by decide)

/-! ## The flags of the button field -/

/-- C26, counterexample: for the prefix `80 00`, bit 7 of byte 0 is set and bit 6 of
the compacted field is clear; for the prefix `01 00`, bit 7 of byte 0 is clear and
bit 6 of the field is set; and the prefix `ff ff`, with every bit set, gives the
field 0x7ff, in which 11 flags are set and no flag from 11 to 18 is. -/
theorem button_field_bit_six :
    (Nat.testBit 0x80 7 = true ∧
      getButtonState (updateCoreButtons initial [0x80, 0x00]) 6 = false) ∧
    (Nat.testBit 0x01 7 = false ∧
      getButtonState (updateCoreButtons initial [0x01, 0x00]) 6 = true) ∧
    (updateCoreButtons initial [0xff, 0xff]).buttonState = 0x7ff ∧
    (List.range 19).filter (fun i => getButtonState (updateCoreButtons initial [0xff, 0xff]) i) =
      [0, 1, 2, 3, 4, 5, 6, 7, 8, 9, 10] := by
  refine ⟨⟨by decide, by decide⟩, ⟨by decide, by decide⟩, by decide, by decide⟩

/-- C26, amended: in the compacted button field produced from the 2-byte prefix, bit 5
is the flag that lives in bit 7 of byte 1 of the prefix, and bit 6 is bit 0 of byte 0;
the field has 11 flags, bits 0 to 10: each of them is set, alone, by some prefix, and
no prefix sets a bit from 11 on; `getNumButtons` returns 11 for the extension
identities NONE and PARTIALLY_CONNECTED and 13 for NUNCHUK and CLASSIC_CONTROLLER. -/
theorem button_field_flags (w : Wiimote) (b0 b1 : Nat) :
    getButtonState (updateCoreButtons w [b0, b1]) 5 = b1.testBit 7 ∧
    getButtonState (updateCoreButtons w [b0, b1]) 6 = b0.testBit 0 ∧
    (∀ i, i < 11 → ∃ p0 p1, p0 < 256 ∧ p1 < 256 ∧
      getButtonState (updateCoreButtons w [p0, p1]) i = true ∧
      (updateCoreButtons w [p0, p1]).buttonState = 2 ^ i) ∧
    (∀ i, 11 ≤ i → getButtonState (updateCoreButtons w [b0, b1]) i = false) ∧
    ((w.extensionDevice = Extension.NONE → getNumButtons w = 11) ∧
      (w.extensionDevice = Extension.PARTIALLY_CONNECTED → getNumButtons w = 11) ∧
      (w.extensionDevice = Extension.NUNCHUK → getNumButtons w = 13) ∧
      (w.extensionDevice = Extension.CLASSIC_CONTROLLER → getNumButtons w = 13)) := by
  refine ⟨?_, ?_, ?_, ?_, ?_⟩
  · rw [getButtonState_eq_testBit, updateCoreButtons_testBit]
    simp
  · rw [getButtonState_eq_testBit, updateCoreButtons_testBit]
    simp
  · intro i hi
    have key : ∀ p0 p1 : Nat, (updateCoreButtons w [p0, p1]).buttonState = 2 ^ i →
        getButtonState (updateCoreButtons w [p0, p1]) i = true ∧
          (updateCoreButtons w [p0, p1]).buttonState = 2 ^ i := by
      intro p0 p1 h
      refine ⟨?_, h⟩
      rw [getButtonState_eq_testBit, h, Nat.testBit_two_pow]
      simp
    by_cases h5 : i < 5
    · refine ⟨0, 2 ^ i, by decide, ?_, key 0 (2 ^ i) ?_⟩
      · interval_cases i <;> decide
      · interval_cases i <;> rfl
    · by_cases h : i = 5
      · subst h
        exact ⟨0, 0x80, by decide, by decide, key 0 0x80 rfl⟩
      · refine ⟨2 ^ (i - 6), 0, ?_, by decide, key (2 ^ (i - 6)) 0 ?_⟩
        · interval_cases i <;> omega
        · interval_cases i <;> first | omega | rfl
  · intro i hi
    rw [getButtonState_eq_testBit, updateCoreButtons_testBit]
    have a : ¬ (i < 5) := by omega
    have b : ¬ (i = 5) := by omega
    have c : ¬ (6 ≤ i ∧ i < 11) := by omega
    simp [a, b, c]
  · unfold getNumButtons
    refine ⟨fun h => ?_, fun h => ?_, fun h => ?_, fun h => ?_⟩ <;> rw [h]

/-! ## The reset of the extension state -/

theorem setReportingModeInside_snapshot (u : Wiimote) :
    (setReportingModeInside u).buttonState = u.buttonState ∧
      (setReportingModeInside u).joystick = u.joystick ∧
      (setReportingModeInside u).accelerometers = u.accelerometers ∧
      (setReportingModeInside u).extensionDevice = u.extensionDevice := by
  unfold setReportingModeInside
  by_cases h : u.readIRTracking = true
  · simp only [if_pos h]
    rw [writePacket_eq]
    exact ⟨rfl, rfl, rfl, rfl⟩
  · simp only [if_neg h]
    unfold finishStatus notifyEvent
    rw [writePacket_eq]
    exact ⟨rfl, rfl, rfl, rfl⟩

theorem resetExtension_fields (u : Wiimote) :
    (resetExtension u).buttonState = u.buttonState &&& 0xffff ∧
      (resetExtension u).extensionDevice = Extension.NONE ∧
      (∀ i, i < 2 → (resetExtension u).joystick i = 0) ∧
      (∀ i, i < 3 → (resetExtension u).accelerometers (3 + i) = 0) ∧
      (∀ i, i < 3 → (resetExtension u).accelerometers i = u.accelerometers i) := by
  unfold resetExtension
  simp only [range_two, range_three, List.foldl_cons, List.foldl_nil]
  refine ⟨?_, ?_, fun i hi => ?_, fun i hi => ?_, fun i hi => ?_⟩
  · first | rfl | trivial
  · first | rfl | trivial
  · interval_cases i <;> simp [Function.update]
  · interval_cases i <;> simp [Function.update]
  · interval_cases i <;> simp [Function.update]

theorem receiverStep_status_reset (w : Wiimote) (s : List Nat) (hm : w.reader = Reader.main)
    (h0 : pkt s 0 = 0xa1) (h1 : pkt s 1 = 0x20) (h4 : pkt s 4 &&& 0x02 = 0) :
    (receiverStep w s).extensionDevice = Extension.NONE ∧
      (∀ i, i < 2 → (receiverStep w s).joystick i = 0) ∧
      (∀ i, i < 3 → (receiverStep w s).accelerometers (3 + i) = 0) ∧
      (receiverStep w s).buttonState = w.buttonState &&& 0xffff ∧
      (∀ i, i < 16 → getButtonState (receiverStep w s) i = getButtonState w i) := by
  have hs : readSize s > 0 := readSize_pos s 0 0xa1 h0 (by decide)
  have p0 : pkt (s.take 21) 0 = 0xa1 := by rw [pkt_take _ _ _ (by decide), h0]
  have p1 : pkt (s.take 21) 1 = 0x20 := by rw [pkt_take _ _ _ (by decide), h1]
  have p4 : pkt (s.take 21) 4 = pkt s 4 := pkt_take _ _ _ (by decide)
  have e : receiverStep w s =
      setReportingModeInside (resetExtension { w with batteryLevel := pkt (s.take 21) 7 }) := by
    rw [receiverStep_main w s hm]
    unfold handlePacket
    simp only [hs, p0, p1, true_and, if_true]
    unfold handleStatus
    simp only [p4, h4, ne_eq, not_true_eq_false, if_false]
  obtain ⟨sb, sj, sa, se⟩ := setReportingModeInside_snapshot
    (resetExtension { w with batteryLevel := pkt (s.take 21) 7 })
  obtain ⟨rb, re, rj, ra, _⟩ := resetExtension_fields { w with batteryLevel := pkt (s.take 21) 7 }
  have hb : (receiverStep w s).buttonState = w.buttonState &&& 0xffff := by
    rw [e, sb, rb]
  refine ⟨by rw [e, se, re], fun i hi => by rw [e, sj]; exact rj i hi,
    fun i hi => by rw [e, sa]; exact ra i hi, hb, fun i hi => ?_⟩
  rw [getButtonState_eq_testBit, getButtonState_eq_testBit, hb, Nat.testBit_and]
  have h : (0xffff : Nat) = 2 ^ 16 - 1 := by norm_num
  rw [h, Nat.testBit_two_pow_sub_one]
  simp [hi]

/-- C27, failing input: with a nunchuk attached, a report 0x32 whose extension block
has both button bits clear makes buttons Z and C read pressed; the Status report with
the presence bit clear that follows sets the extension identity to NONE and the
joystick to 0, but buttons Z and C still read pressed afterwards. -/
theorem status_reset_keeps_extension_buttons :
    (getButtonState (receive nunchukState
        [[0xa1, 0x32, 0, 0, 0x80, 0x80, 0x80, 0x80, 0x80, 0x02]]) BUTTON_Z = true ∧
      getButtonState (receive nunchukState
        [[0xa1, 0x32, 0, 0, 0x80, 0x80, 0x80, 0x80, 0x80, 0x02]]) BUTTON_C = true) ∧
    (receive nunchukState [[0xa1, 0x32, 0, 0, 0x80, 0x80, 0x80, 0x80, 0x80, 0x02],
      [0xa1, 0x20, 0, 0, 0x00, 0, 0, 0x64]]).extensionDevice = Extension.NONE ∧
    getButtonState (receive nunchukState [[0xa1, 0x32, 0, 0, 0x80, 0x80, 0x80, 0x80, 0x80, 0x02],
      [0xa1, 0x20, 0, 0, 0x00, 0, 0, 0x64]]) BUTTON_Z = true ∧
    getButtonState (receive nunchukState [[0xa1, 0x32, 0, 0, 0x80, 0x80, 0x80, 0x80, 0x80, 0x02],
      [0xa1, 0x20, 0, 0, 0x00, 0, 0, 0x64]]) BUTTON_C = true := by
  refine ⟨⟨by decide, by decide⟩, by decide, by decide, by decide⟩

/-! ## Replies that carry more than the outstanding bytes -/

/-- An error-free reply carrying more than the outstanding number of bytes: the
outstanding bytes are copied, the outstanding length wraps around, and completion is
not signalled. -/
theorem receiverStep_reply_overshoot (u : Wiimote) (r acc : List Nat) (s : Nat)
    (W : List (List Nat)) (c : Nat) (hu : DownloadInv u acc s W c) (hf : FramedReply r)
    (he : replyError r = 0) (hb : pkt r 4 < 256) (hpos : 0 < s) (hd : s < replySize r)
    (hs : s ≤ 65535) :
    (receiverStep u r).downloadDataBuffer =
        some (acc ++ (List.range s).map (fun i => pkt (r.take 21) (7 + i))) ∧
      (receiverStep u r).downloadSize = sizeModulus - (replySize r - s) ∧
      (receiverStep u r).downloadCompleteCond = c ∧
      (receiverStep u r).downloadActive = true ∧
      (receiverStep u r).reader = Reader.main := by
  have p4 : pkt (r.take 21) 4 = pkt r 4 := pkt_take _ _ _ (by decide)
  have hlt : replySize r ≤ 16 := by
    unfold replySize
    have : pkt r 4 &&& 0x0f = 0 := he
    have h16 : pkt r 4 >>> 4 = pkt r 4 / 16 := by
      rw [Nat.shiftRight_eq_div_pow]
    omega
  have hti : toInt s = (s : Int) := toInt_small s (by omega)
  have hnle : ¬ ((s : Int) ≤ 0) := by omega
  have hmin : min (replySize r) s = s := by omega
  have hsub : (s + sizeModulus - replySize r % sizeModulus) % sizeModulus =
      sizeModulus - (replySize r - s) := by
    unfold sizeModulus
    have h1 : replySize r % 2 ^ 64 = replySize r := Nat.mod_eq_of_lt (by norm_num; omega)
    rw [h1]
    have h2 : s + 2 ^ 64 - replySize r = 2 ^ 64 - (replySize r - s) := by
      have : replySize r ≤ 2 ^ 64 := by norm_num; omega
      omega
    rw [h2]
    exact Nat.mod_eq_of_lt (by omega)
  have hne : ¬ (sizeModulus - (replySize r - s) = 0) := by
    unfold sizeModulus
    have : replySize r - s < 2 ^ 64 := by norm_num; omega
    omega
  rw [receiverStep_reply u r hu.reader hf.1 hf.2]
  unfold replyError at he
  unfold replySize at hd hmin hsub hne
  unfold handleDownloadReply
  simp only [updateCoreButtons, hu.active, if_true, p4, he, ne_eq, not_true_eq_false, if_false,
    hu.size, hti, hnle, Int.toNat_ofNat, hmin, hu.buffer, Option.getD_some, hu.ptr,
    copyDownloadData_eq _ _ _ _ (le_refl s), hsub, Option.map_some', hne, notifyEvent]
  unfold replySize
  refine ⟨?_, rfl, hu.cond, trivial, trivial⟩
  simp

/-- C28, failing input: a download of 4 bytes answered by an error-free reply that
carries 8 data bytes. The 4 outstanding bytes are copied and no more, but the
outstanding length becomes `2^64 - 4` instead of 0 and completion is not signalled:
`downloadData` does not return, and a further reply copies nothing and leaves the
download waiting. -/
theorem download_overshoot_wraps :
    (receiverStep (downloadDataBegin initial false 0 4)
        [0xa1, 0x21, 0, 0, 0x70, 0, 0, 1, 2, 3, 4, 5, 6, 7, 8]).downloadDataBuffer
      = some [1, 2, 3, 4] ∧
    (downloadDataBegin initial false 0 4).downloadSize = 4 ∧
    (receiverStep (downloadDataBegin initial false 0 4)
        [0xa1, 0x21, 0, 0, 0x70, 0, 0, 1, 2, 3, 4, 5, 6, 7, 8]).downloadSize
      = 18446744073709551612 ∧
    (receiverStep (downloadDataBegin initial false 0 4)
        [0xa1, 0x21, 0, 0, 0x70, 0, 0, 1, 2, 3, 4, 5, 6, 7, 8]).downloadCompleteCond
      = (downloadDataBegin initial false 0 4).downloadCompleteCond ∧
    (downloadData initial false 0 4
        [[0xa1, 0x21, 0, 0, 0x70, 0, 0, 1, 2, 3, 4, 5, 6, 7, 8]]).isSome = false ∧
    (downloadData initial false 0 4
        [[0xa1, 0x21, 0, 0, 0x70, 0, 0, 1, 2, 3, 4, 5, 6, 7, 8],
          [0xa1, 0x21, 0, 0, 0x30, 0, 4, 9, 9, 9, 9]]).isSome = false := by
  refine ⟨by decide, by decide, by decide, by decide, by decide, by decide⟩

/-! ## The IR camera mode and the IR decoder -/

theorem irCameraMode_identifier (w : Wiimote) (hir : w.readIRTracking = true) :
    (irCameraMode w = 0x03 ∨ irCameraMode w = 0x01) ∧
    (irCameraMode w = 0x03 ↔ pkt (reportingModeRequest w) 3 = 0x33) ∧
    (irCameraMode w = 0x01 ↔
      (pkt (reportingModeRequest w) 3 = 0x36 ∨ pkt (reportingModeRequest w) 3 = 0x37)) := by
  rw [reportingModeRequest_identifier]
  unfold irCameraMode
  cases he : w.extensionDevice <;> cases ha : w.readAccelerometers <;> simp [hir]

theorem irModePacket_inside (w : Wiimote) (hir : w.readIRTracking = true) :
    (setReportingModeInside w).written =
      w.written ++ [uploadPacket w.rumble true 0xb00033 1 [irCameraMode w]] := by
  unfold setReportingModeInside
  simp only [hir, if_true]
  rw [writePacket_eq]
  show w.written ++ [_] = _
  cases hr : w.rumble <;> simp [uploadPacket, pkt, bitNot] <;> decide

theorem irModePacket_outside (w : Wiimote) :
    (uploadDataBegin w true 0xb00033 [irCameraMode w] 1).written =
      w.written ++ [uploadPacket w.rumble true 0xb00033 1 [irCameraMode w]] := by
  unfold uploadDataBegin
  rw [writeUploadPacket_eq]
  have h : List.map (fun i => pkt [irCameraMode w] i) (List.range 1) = [irCameraMode w] := by
    simp [List.range_succ, pkt]
  simp [h]

theorem setReportingMode_outside (w : Wiimote) (hir : w.readIRTracking = true)
    (incoming : List (List Nat)) :
    setReportingMode w incoming =
      (uploadData w true 0xb00033 [irCameraMode w] 1 incoming).map
        (fun r => (writePacket r.1.1 (reportingModeRequest w), r.2)) := by
  unfold setReportingMode
  simp only [hir, if_true]
  cases uploadData w true 0xb00033 [irCameraMode w] 1 incoming with
  | none => rfl
  | some r => rfl

theorem handleDownloadReply_rest (w : Wiimote) (p : List Nat) :
    SameOutsideButtons (handleDownloadReply w p) w ∧
      (handleDownloadReply w p).buttonState = (updateCoreButtons w (p.drop 2)).buttonState := by
  unfold handleDownloadReply
  simp only []
  split_ifs <;> exact ⟨⟨rfl, rfl, rfl, rfl, rfl, rfl, rfl, rfl⟩, rfl⟩

theorem handleUploadAck_rest (w : Wiimote) (p : List Nat) :
    SameOutsideButtons (handleUploadAck w p) w ∧
      (handleUploadAck w p).buttonState = (updateCoreButtons w (p.drop 2)).buttonState := by
  unfold handleUploadAck
  simp only []
  split_ifs
  · exact ⟨⟨rfl, rfl, rfl, rfl, rfl, rfl, rfl, rfl⟩, rfl⟩
  · rw [writeUploadPacket_eq]
    exact ⟨⟨rfl, rfl, rfl, rfl, rfl, rfl, rfl, rfl⟩, rfl⟩
  · exact ⟨⟨rfl, rfl, rfl, rfl, rfl, rfl, rfl, rfl⟩, rfl⟩

theorem receiverStep_transfer (w : Wiimote) (wire : List Nat) (hm : w.reader = Reader.main)
    (h0 : pkt wire 0 = 0xa1) (h1 : pkt wire 1 = 0x21 ∨ pkt wire 1 = 0x22) :
    SameOutsideButtons (receiverStep w wire) w ∧
      (receiverStep w wire).buttonState =
        (updateCoreButtons w [pkt wire 2, pkt wire 3]).buttonState := by
  have hs : readSize wire > 0 := readSize_pos wire 0 0xa1 h0 (by decide)
  have p0 : pkt (wire.take 21) 0 = 0xa1 := by rw [pkt_take _ _ _ (by decide), h0]
  have p1 : pkt (wire.take 21) 1 = pkt wire 1 := pkt_take _ _ _ (by decide)
  have hb : (updateCoreButtons w ((wire.take 21).drop 2)).buttonState =
      (updateCoreButtons w [pkt wire 2, pkt wire 3]).buttonState := by
    show _ ||| _ ||| _ = _ ||| _ ||| _
    rw [block_pkt wire 2 0 (by decide), block_pkt wire 2 1 (by decide)]
    rfl
  rw [receiverStep_main w wire hm]
  unfold handlePacket
  rw [if_pos ⟨hs, p0⟩, p1]
  rcases h1 with h | h
  · rw [h, if_neg (by decide), if_pos rfl]
    obtain ⟨a, b⟩ := handleDownloadReply_rest w (wire.take 21)
    exact ⟨a, b.trans hb⟩
  · rw [h, if_neg (by decide), if_neg (by decide), if_pos rfl]
    obtain ⟨a, b⟩ := handleUploadAck_rest w (wire.take 21)
    exact ⟨a, b.trans hb⟩

/-- C30, counterexample: with a nunchuk attached, a report 0x32 makes buttons Z and C
read pressed; a data download reply (0x21) or a write acknowledgment (0x22) that
follows makes both read not pressed. -/
theorem transfer_reply_clears_extension_buttons :
    (getButtonState (receive nunchukState
        [[0xa1, 0x32, 0, 0, 0x80, 0x80, 0x80, 0x80, 0x80, 0x02]]) BUTTON_Z = true ∧
      getButtonState (receive nunchukState
        [[0xa1, 0x32, 0, 0, 0x80, 0x80, 0x80, 0x80, 0x80, 0x02]]) BUTTON_C = true) ∧
    (getButtonState (receive nunchukState [[0xa1, 0x32, 0, 0, 0x80, 0x80, 0x80, 0x80, 0x80, 0x02],
        [0xa1, 0x21, 0, 0, 0x00, 0, 0, 0]]) BUTTON_Z = false ∧
      getButtonState (receive nunchukState [[0xa1, 0x32, 0, 0, 0x80, 0x80, 0x80, 0x80, 0x80, 0x02],
        [0xa1, 0x21, 0, 0, 0x00, 0, 0, 0]]) BUTTON_C = false) ∧
    (getButtonState (receive nunchukState [[0xa1, 0x32, 0, 0, 0x80, 0x80, 0x80, 0x80, 0x80, 0x02],
        [0xa1, 0x22, 0, 0, 0x16, 0]]) BUTTON_Z = false ∧
      getButtonState (receive nunchukState [[0xa1, 0x32, 0, 0, 0x80, 0x80, 0x80, 0x80, 0x80, 0x02],
        [0xa1, 0x22, 0, 0, 0x16, 0]]) BUTTON_C = false) := by
  refine ⟨⟨by decide, by decide⟩, ⟨by decide, by decide⟩, by decide, by decide⟩

/-- C30, amended: processing a data download reply (0x21) or a write acknowledgment
(0x22) at the outer read replaces the whole button field by the one decoded from the
report's button prefix: flags 0 to 10 are those of the prefix and every flag from 11
on, buttons Z and C among them, reads not pressed whatever it was before. The joystick
values, the raw and calibrated accelerometer values, the IR targets, the battery level
and the extension identity are the same after the report as before it. -/
theorem transfer_reply_snapshot (w : Wiimote) (wire : List Nat) (hm : w.reader = Reader.main)
    (h0 : pkt wire 0 = 0xa1) (h1 : pkt wire 1 = 0x21 ∨ pkt wire 1 = 0x22) :
    (∀ i, i < 11 → getButtonState (receiverStep w wire) i =
      getButtonState (updateCoreButtons w [pkt wire 2, pkt wire 3]) i) ∧
    (∀ i, 11 ≤ i → getButtonState (receiverStep w wire) i = false) ∧
    (getButtonState (receiverStep w wire) BUTTON_Z = false ∧
      getButtonState (receiverStep w wire) BUTTON_C = false) ∧
    ((receiverStep w wire).joystick = w.joystick ∧
      (receiverStep w wire).rawAccelerometers = w.rawAccelerometers ∧
      (receiverStep w wire).accelerometers = w.accelerometers ∧
      (receiverStep w wire).trackValids = w.trackValids ∧
      (receiverStep w wire).trackXs = w.trackXs ∧
      (receiverStep w wire).trackYs = w.trackYs ∧
      (receiverStep w wire).batteryLevel = w.batteryLevel ∧
      (receiverStep w wire).extensionDevice = w.extensionDevice) := by
  obtain ⟨hrest, hb⟩ := receiverStep_transfer w wire hm h0 h1
  have hhigh : ∀ i, 11 ≤ i → getButtonState (receiverStep w wire) i = false := by
    intro i hi
    rw [getButtonState_eq_testBit, hb, updateCoreButtons_testBit]
    have a : ¬ (i < 5) := by omega
    have b : ¬ (i = 5) := by omega
    have c : ¬ (6 ≤ i ∧ i < 11) := by omega
    simp [a, b, c]
  refine ⟨fun i _ => ?_, hhigh, ⟨hhigh 11 (by decide), hhigh 12 (by decide)⟩, hrest⟩
  rw [getButtonState_eq_testBit, getButtonState_eq_testBit, hb]

theorem transfer_reply_snapshot_witness :
    (getButtonState (receiverStep nunchukState [0xa1, 0x21, 0x01, 0x08, 0x00, 0, 0, 0]) BUTTON_Z
        = false ∧
      getButtonState (receiverStep nunchukState [0xa1, 0x21, 0x01, 0x08, 0x00, 0, 0, 0]) BUTTON_C
        = false) ∧
    (receiverStep nunchukState [0xa1, 0x21, 0x01, 0x08, 0x00, 0, 0, 0]).extensionDevice
      = nunchukState.extensionDevice :=
  have h := transfer_reply_snapshot nunchukState [0xa1, 0x21, 0x01, 0x08, 0x00, 0, 0, 0] rfl
    (by decide) (Or.inl (by decide))
  ⟨h.2.2.1, h.2.2.2.2.2.2.2.2.2.2⟩

/-! ## The result of an upload -/

theorem storeTarget_uploadView (w : Wiimote) (slot x y : Nat) :
    uploadView (storeTarget w slot x y) = uploadView w := by
  unfold storeTarget
  split_ifs <;> rfl

theorem updateIRTrackingBasic_uploadView (w : Wiimote) (d : List Nat) :
    uploadView (updateIRTrackingBasic w d) = uploadView w := by
  rw [updateIRTrackingBasic_eq]
  simp only [storeTarget_uploadView]

theorem updateIRTrackingExtended_uploadView (w : Wiimote) (d : List Nat) :
    uploadView (updateIRTrackingExtended w d) = uploadView w := by
  rw [updateIRTrackingExtended_eq]
  simp only [storeTarget_uploadView]

theorem updateExtension_uploadView (w : Wiimote) (d : List Nat) :
    uploadView (updateExtension w d) = uploadView w := by
  unfold updateExtension
  simp only []
  split_ifs <;> rfl

theorem updateCoreButtons_uploadView (w : Wiimote) (d : List Nat) :
    uploadView (updateCoreButtons w d) = uploadView w := rfl

theorem updateCoreAccelerometers_uploadView (w : Wiimote) (b a : List Nat) :
    uploadView (updateCoreAccelerometers w b a) = uploadView w := rfl

theorem notifyEvent_uploadView (w : Wiimote) : uploadView (notifyEvent w) = uploadView w := rfl

theorem handleDownloadReply_uploadView (w : Wiimote) (p : List Nat) :
    uploadView (handleDownloadReply w p) = uploadView w := by
  unfold handleDownloadReply
  simp only []
  split_ifs <;> rfl

theorem handlePacket_uploadView (w : Wiimote) (p : List Nat) (n : Nat) (h20 : pkt p 1 ≠ 0x20)
    (h22 : pkt p 1 ≠ 0x22) : uploadView (handlePacket w p n) = uploadView w := by
  unfold handlePacket
  by_cases hf : n > 0 ∧ pkt p 0 = 0xa1
  · rw [if_pos hf, if_neg h20]
    by_cases h21 : pkt p 1 = 0x21
    · rw [if_pos h21, notifyEvent_uploadView, handleDownloadReply_uploadView]
    · rw [if_neg h21, if_neg h22]
      repeat' split
      all_goals
        simp only [notifyEvent_uploadView, updateExtension_uploadView,
          updateIRTrackingBasic_uploadView, updateIRTrackingExtended_uploadView,
          updateCoreButtons_uploadView, updateCoreAccelerometers_uploadView]
  · rw [if_neg hf]

theorem handlePacket_reader (w : Wiimote) (p : List Nat) (n : Nat) (hm : w.reader = Reader.main)
    (h20 : pkt p 1 ≠ 0x20) : (handlePacket w p n).reader = Reader.main := by
  unfold handlePacket
  by_cases hf : n > 0 ∧ pkt p 0 = 0xa1
  · rw [if_pos hf, if_neg h20]
    repeat' split
    all_goals rfl
  · rw [if_neg hf]
    exact hm

theorem receiverStep_other (u : Wiimote) (x : List Nat) (hx : OtherReport x) (r t : Bool)
    (data : List Nat) (B p s : Nat) (W : List (List Nat)) (c : Nat)
    (hu : UploadInv u r t data B p s W c) :
    UploadInv (receiverStep u x) r t data B p s W c := by
  obtain ⟨_, h20, h22⟩ := hx
  have p1 : pkt (x.take 21) 1 = pkt x 1 := pkt_take _ _ _ (by decide)
  have hv := handlePacket_uploadView u (x.take 21) (readSize x) (by rw [p1]; exact h20)
    (by rw [p1]; exact h22)
  have hr := handlePacket_reader u (x.take 21) (readSize x) hu.reader (by rw [p1]; exact h20)
  rw [receiverStep_main u x hu.reader]
  simp only [uploadView, Prod.mk.injEq] at hv
  obtain ⟨v1, v2, v3, v4, v5, v6, v7, v8, v9, _⟩ := hv
  exact ⟨hr, v1.trans hu.active, v2.trans hu.rumble, v3.trans hu.toRegister, v4.trans hu.data,
    v5.trans hu.address, v6.trans hu.ptr, v7.trans hu.size, v8.trans hu.written,
    v9.trans hu.cond⟩

theorem ackCount_ack (x : List Nat) (l : List (List Nat)) (h : FramedAck x) :
    ackCount (x :: l) = ackCount l + 1 := by
  simp [ackCount, h]

theorem ackCount_other (x : List Nat) (l : List (List Nat)) (h : OtherReport x) :
    ackCount (x :: l) = ackCount l := by
  have : ¬ FramedAck x := fun c => h.2.2 c.2
  simp [ackCount, this]

theorem awaitUploadComplete_same (u : Wiimote) (x : List Nat) (l : List (List Nat))
    (h : (receiverStep u x).uploadCompleteCond = u.uploadCompleteCond) :
    awaitUploadComplete u (x :: l) = awaitUploadComplete (receiverStep u x) l := by
  simp [awaitUploadComplete, h]

theorem awaitUploadComplete_done (u : Wiimote) (x : List Nat) (l : List (List Nat))
    (h : (receiverStep u x).uploadCompleteCond ≠ u.uploadCompleteCond) :
    awaitUploadComplete u (x :: l) = some (receiverStep u x, l) := by
  simp [awaitUploadComplete, h]

/-- The reports handled during an upload before the acknowledgment that completes it:
each error-free acknowledgment writes the next packet, other reports leave the upload
alone, and the caller keeps waiting. -/
theorem awaitUploadComplete_prefix (pre : List (List Nat)) :
    ∀ (u : Wiimote) (r t : Bool) (data : List Nat) (B p s : Nat) (W : List (List Nat)) (c : Nat),
      UploadInv u r t data B p s W c → (∀ x ∈ pre, CleanAck x ∨ OtherReport x) →
      ackCount pre ≤ chunksAfter s →
      (∀ tail, awaitUploadComplete u (pre ++ tail) = awaitUploadComplete (receive u pre) tail) ∧
      ∃ B' p', UploadInv (receive u pre) r t data B' p' (s - 16 * ackCount pre)
        (W ++ (List.range (ackCount pre)).map (uploadChunk r t B data p s)) c := by
  induction pre with
  | nil =>
    intro u r t data B p s W c hu _ _
    refine ⟨fun tail => rfl, B, p, ?_⟩
    simpa [receive_nil, ackCount] using hu
  | cons x rest ih =>
    intro u r t data B p s W c hu hpre hcount
    have hrest : ∀ y ∈ rest, CleanAck y ∨ OtherReport y :=
      fun y hy => hpre y (List.mem_cons_of_mem _ hy)
    rcases hpre x (List.mem_cons_self _ _) with hx | hx
    · obtain ⟨a0, a1, a5⟩ := hx
      rw [ackCount_ack x rest ⟨a0, a1⟩] at hcount ⊢
      have hs : s ≠ 0 := by
        intro h
        subst h
        have : chunksAfter 0 = 0 := rfl
        omega
      have h := (receiverStep_ack_next u x r t data B p s W c hu a0 a1 a5 hs).1
      have hK : chunksAfter s = chunksAfter (s - min s 16) + 1 := by
        unfold chunksAfter; omega
      obtain ⟨ih1, B', p', hinv⟩ := ih _ r t data _ _ _ _ c h hrest (by omega)
      refine ⟨fun tail => ?_, B', p', ?_⟩
      · rw [List.cons_append, awaitUploadComplete_same u x _ (by rw [h.cond, hu.cond]),
          receive_cons]
        exact ih1 tail
      · have hlist : W ++ (List.range (ackCount rest + 1)).map (uploadChunk r t B data p s) =
            W ++ [uploadChunk r t B data p s 0] ++
              (List.range (ackCount rest)).map
                (uploadChunk r t (B + min s 16) data (p + min s 16) (s - min s 16)) := by
          rw [List.range_succ_eq_map, List.map_cons, List.map_map, List.append_assoc]
          congr 1
          simp only [List.singleton_append]
          congr 1
          apply List.map_congr_left
          intro k hk
          have hk' : k < chunksAfter (s - min s 16) := by
            have := List.mem_range.mp hk; omega
          have h16 : min s 16 = 16 := by
            unfold chunksAfter at hk'; omega
          simp [uploadChunk_succ, h16]
        have hsz : s - 16 * (ackCount rest + 1) = s - min s 16 - 16 * ackCount rest := by
          by_cases hz : ackCount rest = 0
          · rw [hz]
            unfold chunksAfter at hK
            omega
          · have hk' : 0 < chunksAfter (s - min s 16) := by omega
            have h16 : min s 16 = 16 := by
              unfold chunksAfter at hk'; omega
            omega
        rw [receive_cons, hlist, hsz]
        exact hinv
    · rw [ackCount_other x rest hx] at hcount ⊢
      have h := receiverStep_other u x hx r t data B p s W c hu
      obtain ⟨ih1, B', p', hinv⟩ := ih _ r t data _ _ _ _ c h hrest hcount
      refine ⟨fun tail => ?_, B', p', ?_⟩
      · rw [List.cons_append, awaitUploadComplete_same u x _ (by rw [h.cond, hu.cond]),
          receive_cons]
        exact ih1 tail
      · rw [receive_cons]
        exact hinv

theorem uploadChunk_shift (r t : Bool) (A : Nat) (data : List Nat) (s j : Nat)
    (hj : j ≤ chunksAfter (s - min s 16)) (W : List (List Nat)) :
    W ++ [uploadChunk r t A data 0 s 0] ++
        (List.range j).map (uploadChunk r t (A + min s 16) data (min s 16) (s - min s 16)) =
      W ++ (List.range (j + 1)).map (uploadChunk r t A data 0 s) := by
  rw [List.range_succ_eq_map, List.map_cons, List.map_map, List.append_assoc]
  congr 1
  simp only [List.singleton_append]
  congr 1
  apply List.map_congr_left
  intro k hk
  have hk' : k < chunksAfter (s - min s 16) := by
    have := List.mem_range.mp hk; omega
  have h16 : min s 16 = 16 := by
    unfold chunksAfter at hk'; omega
  simp [uploadChunk_succ, h16]

theorem uploadData_idle (w : Wiimote) (hidle : w.uploadActive = false) (toRegister : Bool)
    (A : Nat) (data : List Nat) (n : Nat) (incoming : List (List Nat)) :
    uploadData w toRegister A data n incoming =
      (awaitUploadComplete (uploadDataBegin w toRegister A data n) incoming).map
        (fun r => (uploadDataEnd r.1, r.2)) := by
  unfold uploadData
  simp only [hidle, Bool.false_eq_true, if_false]
  cases awaitUploadComplete (uploadDataBegin w toRegister A data n) incoming with
  | none => rfl
  | some r => rfl

/-- The acknowledgment that completes an upload, after the reports `pre`: the caller
resumes with the flag `errorNibble last = 0`, and the packets written are those written
before that acknowledgment. -/
theorem uploadData_completes (w : Wiimote) (hm : w.reader = Reader.main)
    (hidle : w.uploadActive = false) (toRegister : Bool) (A : Nat) (data : List Nat) (n : Nat)
    (pre : List (List Nat)) (last : List Nat) (rest : List (List Nat))
    (hpre : ∀ x ∈ pre, CleanAck x ∨ OtherReport x) (hlast : FramedAck last)
    (hcount : ackCount pre + 1 ≤ max 1 ((n % 65536 + 15) / 16))
    (hend : errorNibble last ≠ 0 ∨ ackCount pre + 1 = max 1 ((n % 65536 + 15) / 16)) :
    ∃ w1, uploadData w toRegister A data n (pre ++ last :: rest) =
        some ((w1, decide (errorNibble last = 0)), rest) ∧
      w1.written = w.written ++
        (List.range (ackCount pre + 1)).map
          (uploadChunk w.rumble toRegister A data 0 (n % 65536)) ∧
      w1.uploadCompleteCond = w.uploadCompleteCond + 1 ∧ w1.uploadActive = false := by
  obtain ⟨hb, _⟩ := uploadDataBegin_inv w hm toRegister A data n
  have hK : max 1 ((n % 65536 + 15) / 16) =
      chunksAfter (n % 65536 - min (n % 65536) 16) + 1 := by
    unfold chunksAfter; omega
  rw [hK] at hcount hend
  obtain ⟨hp, B1, p1, hinv⟩ := awaitUploadComplete_prefix pre _ _ _ _ _ _ _ _ _ hb hpre
    (by omega)
  rw [uploadChunk_shift _ _ _ _ _ _ (by omega)] at hinv
  have hc : errorNibble last ≠ 0 ∨
      n % 65536 - min (n % 65536) 16 - 16 * ackCount pre = 0 := by
    rcases hend with h | h
    · exact Or.inl h
    · right
      unfold chunksAfter at h
      omega
  obtain ⟨hfin, herr⟩ := receiverStep_ack_complete _ last _ _ _ _ _ _ _ _ hinv hlast.1 hlast.2 hc
  have hne : (receiverStep (receive (uploadDataBegin w toRegister A data n) pre) last).uploadCompleteCond
      ≠ (receive (uploadDataBegin w toRegister A data n) pre).uploadCompleteCond := by
    rw [hfin.cond, hinv.cond]; omega
  refine ⟨(uploadDataEnd
    (receiverStep (receive (uploadDataBegin w toRegister A data n) pre) last)).1, ?_, ?_, ?_, ?_⟩
  · rw [uploadData_idle w hidle, hp, awaitUploadComplete_done _ _ _ hne]
    simp only [Option.map_some', uploadDataEnd, herr]
    congr 2
  · exact hfin.written
  · exact hfin.cond
  · rfl

end WiimoteDriver
